import Mathlib

/-!
# go-api-template: authentication and message services

A shallow embedding of the domain services of the repository (user store, message store,
authentication service, token handling, HTTP and gRPC authentication middleware and the
HTTP route table), followed by the properties proved about them.

Conventions of the embedding

* A Go `error` is a value of `GoError`; `nil` is `none` of `Option GoError`.
* A method that mutates the database returns the error together with the database it
  leaves behind, so that "the store is unchanged" is a statement to prove and not a
  consequence of the types.
* The PostgreSQL database is an in-memory pair of tables. A statement is evaluated on
  the table the way SQL evaluates it (`WHERE` is a filter, `QueryRow` takes the first
  row of the result or reports `pgx.ErrNoRows`). Connection failures are outside the
  model: every statement is answered. The branches of the code that forward such a
  failure are kept in the embedding.
* `time.Time` is an integer number of nanoseconds since the Unix epoch; every reading of
  the clock (`time.Now()`, SQL `NOW()`) is an explicit argument.
* bcrypt, the JWT library, gin and gRPC are libraries outside the repository. bcrypt and
  the JWT library are parameters of the functions that call them.
-/

namespace GoApiTemplate

/-! ## Errors -/

/-- The codes of `google.golang.org/grpc/codes` the program uses. -/
inductive codes.Code where
  | OK
  | Unknown
  | InvalidArgument
  | NotFound
  | AlreadyExists
  | PermissionDenied
  | Internal
  | Unauthenticated
  deriving DecidableEq, Repr

/-- The method `String()` of a code. -/
def codes.Code.String : codes.Code → String
  | .OK => "OK"
  | .Unknown => "Unknown"
  | .InvalidArgument => "InvalidArgument"
  | .NotFound => "NotFound"
  | .AlreadyExists => "AlreadyExists"
  | .PermissionDenied => "PermissionDenied"
  | .Internal => "Internal"
  | .Unauthenticated => "Unauthenticated"

/-- Error values of the program: the sentinel errors declared with `errors.New` in
`core/message`, `core/auth` and `pkg/auth`, the two library sentinels the code tests
with `errors.Is`, a gRPC status error made by `status.Error`, and any other error,
identified by its message. -/
inductive GoError where
  | ErrMessageNotFound
  | ErrForbidden
  | ErrUserNotFound
  | ErrEmailAlreadyExists
  | ErrInvalidCredentials
  | ErrInvalidToken
  | ErrExpiredToken
  | pgxErrNoRows
  | jwtErrTokenExpired
  | status (code : codes.Code) (msg : String)
  | other (msg : String)
  deriving DecidableEq, Repr

namespace GoError

/-- The method `Error()` of an error value: the text given to `errors.New`. -/
def Error : GoError → String
  | ErrMessageNotFound => "message not found"
  | ErrForbidden => "access forbidden"
  | ErrUserNotFound => "user not found"
  | ErrEmailAlreadyExists => "email already exists"
  | ErrInvalidCredentials => "invalid email or password"
  | ErrInvalidToken => "invalid token"
  | ErrExpiredToken => "token has expired"
  | pgxErrNoRows => "no rows in result set"
  | jwtErrTokenExpired => "token is expired"
  | status code msg => "rpc error: code = " ++ code.String ++ " desc = " ++ msg
  | other msg => msg

/-- The test `errors.Is(err, target)` on the error values of the model (none of them
wraps another one). -/
def Is (err target : GoError) : Bool :=
  decide (err = target)

end GoError

/-- A value of type `any` as the contexts of gin and of gRPC carry it: a string, or a
value of another type. -/
inductive GoAny where
  | str (s : String)
  | nonString (descr : String)
  deriving DecidableEq, Repr

/-! ## Database -/

/-- A row of table `messages` (`core/message/model.go`, `Message`). -/
structure Message where
  ID : String
  UserID : String
  Content : String
  CreatedAt : Int
  UpdatedAt : Int
  deriving DecidableEq, Repr

/-- A row of table `users` (`core/auth/model.go`, `User`). -/
structure User where
  ID : String
  Email : String
  PasswordHash : String
  Name : String
  CreatedAt : Int
  UpdatedAt : Int
  deriving DecidableEq, Repr

/-- The database behind the connection pool: the rows of the two tables, in storage
order. -/
structure DB where
  users : List User
  messages : List Message
  deriving DecidableEq, Repr

/-- The call `QueryRow(...).Scan(...)` on the rows a query selects: the first row, or
`pgx.ErrNoRows` when the query selects none. -/
def queryRowScan {α : Type} : List α → Except GoError α
  | [] => .error .pgxErrNoRows
  | r :: _ => .ok r

namespace core.message

/-- The result of `SELECT user_id FROM messages WHERE id = $1`. -/
def selectOwner (db : DB) (id : String) : List String :=
  (db.messages.filter (fun m => m.ID == id)).map (fun m => m.UserID)

/-- The result of `SELECT id, user_id, content, created_at, updated_at FROM messages
WHERE id = $1`. -/
def selectByID (db : DB) (id : String) : List Message :=
  db.messages.filter (fun m => m.ID == id)

/-- The statement `UPDATE messages SET content = $1, updated_at = NOW() WHERE id = $2`,
run when the database clock reads `now`. -/
def execUpdate (db : DB) (now : Int) (content id : String) : Option GoError × DB :=
  (none, { db with messages := db.messages.map (fun m =>
    if m.ID == id then { m with Content := content, UpdatedAt := now } else m) })

/-- The statement `DELETE FROM messages WHERE id = $1`. -/
def execDelete (db : DB) (id : String) : Option GoError × DB :=
  (none, { db with messages := db.messages.filter (fun m => !(m.ID == id)) })

/-- `Repository.GetByID` (`core/message/repository.go`). -/
def Repository.GetByID (db : DB) (id : String) : Except GoError Message :=
  match queryRowScan (selectByID db id) with
  | .error err =>
    if err.Is .pgxErrNoRows then .error .ErrMessageNotFound else .error err
  | .ok message => .ok message

/-- `Repository.Update` (`core/message/repository.go`): the ownership check followed by
the write. `now` is the reading of the database clock. -/
def Repository.Update (db : DB) (now : Int) (id userID content : String) :
    Option GoError × DB :=
  match queryRowScan (selectOwner db id) with
  | .error err =>
    if err.Is .pgxErrNoRows then (some .ErrMessageNotFound, db) else (some err, db)
  | .ok ownerID =>
    if ownerID != userID then (some .ErrForbidden, db)
    else execUpdate db now content id

/-- `Repository.Delete` (`core/message/repository.go`). -/
def Repository.Delete (db : DB) (id userID : String) : Option GoError × DB :=
  match queryRowScan (selectOwner db id) with
  | .error err =>
    if err.Is .pgxErrNoRows then (some .ErrMessageNotFound, db) else (some err, db)
  | .ok ownerID =>
    if ownerID != userID then (some .ErrForbidden, db)
    else execDelete db id

/-- `NewMessage` (`core/message/model.go`); `now` is the reading of `time.Now()`. -/
def NewMessage (now : Int) (userID content : String) : Message :=
  { ID := "", UserID := userID, Content := content, CreatedAt := now, UpdatedAt := now }

/-- The statement `INSERT INTO messages (...) VALUES (...) RETURNING id`: the row is
stored under the identifier `newID` the database assigns and the identifier is
returned. -/
def insertMessage (db : DB) (newID : String) (message : Message) : List String × DB :=
  ([newID], { db with messages := db.messages ++ [{ message with ID := newID }] })

/-- `Repository.Create` (`core/message/repository.go`): the error, the database left
behind and the message struct, whose `ID` the successful insert fills in. -/
def Repository.Create (db : DB) (newID : String) (message : Message) :
    Option GoError × DB × Message :=
  match insertMessage db newID message with
  | (rows, db') =>
    match queryRowScan rows with
    | .error err => (some err, db', message)
    | .ok id => (none, db', { message with ID := id })

/-- The result of `SELECT id, user_id, content, created_at, updated_at FROM messages
ORDER BY created_at DESC`; rows of equal creation time keep their storage order. -/
def selectAll (db : DB) : List Message :=
  db.messages.insertionSort (fun a b => b.CreatedAt ≤ a.CreatedAt)

/-- `Repository.GetAll` (`core/message/repository.go`). -/
def Repository.GetAll (db : DB) : Except GoError (List Message) :=
  .ok (selectAll db)

/-- `Service.Create` (`core/message/service.go`): the created message or the error, and
the database left behind. -/
def Service.Create (db : DB) (now : Int) (newID : String) (userID content : String) :
    Except GoError Message × DB :=
  match Repository.Create db newID (NewMessage now userID content) with
  | (some err, db', _) => (.error err, db')
  | (none, db', message) => (.ok message, db')

/-- `Service.GetAll` (`core/message/service.go`). -/
def Service.GetAll (db : DB) : Except GoError (List Message) :=
  Repository.GetAll db

/-- `Service.GetByID` (`core/message/service.go`). -/
def Service.GetByID (db : DB) (id : String) : Except GoError Message :=
  Repository.GetByID db id

/-- `Service.Update` (`core/message/service.go`). -/
def Service.Update (db : DB) (now : Int) (id userID content : String) :
    Option GoError × DB :=
  Repository.Update db now id userID content

/-- `Service.Delete` (`core/message/service.go`). -/
def Service.Delete (db : DB) (id userID : String) : Option GoError × DB :=
  Repository.Delete db id userID

end core.message

/-- The first stored message with the given id: the row the queries `WHERE id = $1`
hand to `Scan`. -/
def DB.findMessage (db : DB) (id : String) : Option Message :=
  db.messages.find? (fun m => m.ID == id)

/-! ## Token handling (`pkg/auth/jwt.go`) -/

namespace pkg.auth

/-- The struct `Claims`: the two custom claims and the registered claims the program
sets. A date is a `*jwt.NumericDate`, `none` when the claim is absent. -/
structure Claims where
  UserID : String
  Email : String
  ExpiresAt : Option Int
  IssuedAt : Option Int
  NotBefore : Option Int
  deriving DecidableEq, Repr

/-- The part of `github.com/golang-jwt/jwt/v5` the program calls. The library is not
part of the repository and is a parameter of the embedding.
`NewNumericDate t` is the numeric date of instant `t`; `SignedString claims key` is
`jwt.NewWithClaims(jwt.SigningMethodHS256, claims).SignedString(key)`;
`ParseWithClaims token key now` is `jwt.ParseWithClaims` with a key function that
returns `key`, called when the clock reads `now`; it gives the parsed claims and the
field `Valid` of the token, or the error. -/
structure JWTLib where
  NewNumericDate : Int → Int
  SignedString : Claims → String → Except GoError String
  ParseWithClaims : String → String → Int → Except GoError (Claims × Bool)

/-- What the program relies on from the JWT library: a numeric date is the instant
truncated to the second; a token signed with a key parses, under the same key, to the
claims it was signed from and is valid at every instant that is not before `nbf` and is
before `exp`; and parsing it at an instant that is not before `exp` reports
`jwt.ErrTokenExpired`. -/
def JWTLib.Lawful (J : JWTLib) : Prop :=
  (∀ t, J.NewNumericDate t ≤ t ∧ t < J.NewNumericDate t + 1000000000) ∧
  (∀ claims key token now, J.SignedString claims key = .ok token →
    (∀ n, claims.NotBefore = some n → n ≤ now) →
    (∀ e, claims.ExpiresAt = some e → now < e) →
    J.ParseWithClaims token key now = .ok (claims, true)) ∧
  (∀ claims key token now e, J.SignedString claims key = .ok token →
    claims.ExpiresAt = some e → e ≤ now →
    J.ParseWithClaims token key now = .error .jwtErrTokenExpired)

/-- The constant `time.Hour`, in nanoseconds. -/
def Hour : Int := 3600000000000

/-- Arithmetic of `int64` (`time.Duration`): the result of an operation is the
mathematical result reduced into `[-2^63, 2^63)`. -/
def wrapInt64 (x : Int) : Int :=
  (x + 2 ^ 63) % 2 ^ 64 - 2 ^ 63

/-- The secret both functions read: `os.Getenv("JWT_SECRET")`, or the development
default when the variable is unset or empty. -/
def secretKey (getenv : String → String) : String :=
  if getenv "JWT_SECRET" == "" then "default-secret-key-for-development-only"
  else getenv "JWT_SECRET"

/-- The claims `GenerateToken` builds. `nowExp`, `nowIat` and `nowNbf` are the three
readings of `time.Now()` the function makes, in the order of the source. -/
def tokenClaims (J : JWTLib) (nowExp nowIat nowNbf : Int) (userID email : String)
    (expirationHours : Int) : Claims :=
  let expirationTime := nowExp + wrapInt64 (expirationHours * Hour)
  { UserID := userID
    Email := email
    ExpiresAt := some (J.NewNumericDate expirationTime)
    IssuedAt := some (J.NewNumericDate nowIat)
    NotBefore := some (J.NewNumericDate nowNbf) }

/-- `GenerateToken` (`pkg/auth/jwt.go`). -/
def GenerateToken (J : JWTLib) (getenv : String → String) (nowExp nowIat nowNbf : Int)
    (userID email : String) (expirationHours : Int) : String × Option GoError :=
  let claims := tokenClaims J nowExp nowIat nowNbf userID email expirationHours
  match J.SignedString claims (secretKey getenv) with
  | .error err => ("", some err)
  | .ok tokenString => (tokenString, none)

/-- `ValidateToken` (`pkg/auth/jwt.go`), called when the clock reads `now`. -/
def ValidateToken (J : JWTLib) (getenv : String → String) (now : Int)
    (tokenString : String) : Except GoError Claims :=
  match J.ParseWithClaims tokenString (secretKey getenv) now with
  | .error err =>
    if err.Is .jwtErrTokenExpired then .error .ErrExpiredToken else .error err
  | .ok (claims, valid) =>
    if !valid then .error .ErrInvalidToken else .ok claims

/-- A stand-in for the JWT library that knows one token: `token` is the signature of
`claims` under `key`. Signing anything else fails, parsing checks token, key, `exp` and
`nbf` in the way of the library. It is used to instantiate the theorems. -/
def singleTokenJWT (token : String) (claims : Claims) (key : String) : JWTLib where
  NewNumericDate t := t - t % 1000000000
  SignedString c k :=
    if c = claims ∧ k = key then .ok token else .error (.other "key is invalid")
  ParseWithClaims tok k now :=
    if tok ≠ token then .error (.other "token is malformed")
    else if k ≠ key then .error (.other "signature is invalid")
    else if (match claims.ExpiresAt with | some e => decide (e ≤ now) | none => false)
      then .error .jwtErrTokenExpired
    else if (match claims.NotBefore with | some n => decide (now < n) | none => false)
      then .error (.other "token is not valid yet")
    else .ok (claims, true)

end pkg.auth

/-! ## User store and authentication service (`core/auth`) -/

/-- The part of `golang.org/x/crypto/bcrypt` the program calls; the library is not part
of the repository and is a parameter of the embedding. `GenerateFromPassword password
cost rand` hashes with the random salt `rand`; `CompareHashAndPassword hash password`
returns `none` (nil) when the password matches the hash. -/
structure Bcrypt where
  GenerateFromPassword : String → Int → Nat → Except GoError String
  CompareHashAndPassword : String → String → Option GoError

/-- The constant `bcrypt.DefaultCost`. -/
def Bcrypt.DefaultCost : Int := 10

/-- A stand-in for bcrypt used to instantiate the theorems: the hash of a password of at
most 72 bytes is the password behind a tag, longer passwords are refused. -/
def tagBcrypt : Bcrypt where
  GenerateFromPassword password _ _ :=
    if password.utf8ByteSize ≤ 72 then .ok ("h:" ++ password)
    else .error (.other "bcrypt: password length exceeds 72 bytes")
  CompareHashAndPassword hash password :=
    if hash = "h:" ++ password then none
    else some (.other "crypto/bcrypt: hashedPassword is not the hash of the given password")

namespace core.auth

/-- The struct `config.JWTConfig` held by the service. -/
structure JWTConfig where
  Secret : String
  ExpirationHours : Int
  deriving DecidableEq, Repr

/-- `NewUser` (`core/auth/model.go`); `now` is the reading of `time.Now()`, `rand` the
randomness bcrypt draws. -/
def NewUser (B : Bcrypt) (rand : Nat) (now : Int) (email password name : String) :
    Except GoError User :=
  match B.GenerateFromPassword password Bcrypt.DefaultCost rand with
  | .error err => .error err
  | .ok hashedPassword =>
    .ok { ID := "", Email := email, PasswordHash := hashedPassword, Name := name,
          CreatedAt := now, UpdatedAt := now }

/-- `User.ComparePassword` (`core/auth/model.go`). -/
def User.ComparePassword (B : Bcrypt) (u : User) (password : String) : Bool :=
  (B.CompareHashAndPassword u.PasswordHash password).isNone

/-- `User.GenerateToken` (`core/auth/model.go`). -/
def User.GenerateToken (J : pkg.auth.JWTLib) (getenv : String → String)
    (nowExp nowIat nowNbf : Int) (u : User) (expirationHours : Int) :
    String × Option GoError :=
  pkg.auth.GenerateToken J getenv nowExp nowIat nowNbf u.ID u.Email expirationHours

/-- The result of `SELECT COUNT(*) FROM users WHERE email = $1`: one row, the count. -/
def selectCountEmail (db : DB) (email : String) : List Nat :=
  [(db.users.filter (fun u => u.Email == email)).length]

/-- The statement `INSERT INTO users (...) VALUES (...) RETURNING id`: the row is stored
under the identifier `newID` the database assigns and the identifier is returned. -/
def insertUser (db : DB) (newID : String) (user : User) : List String × DB :=
  ([newID], { db with users := db.users ++ [{ user with ID := newID }] })

/-- The result of `SELECT id, email, password_hash, name, created_at, updated_at FROM
users WHERE email = $1`. -/
def selectByEmail (db : DB) (email : String) : List User :=
  db.users.filter (fun u => u.Email == email)

/-- `Repository.Create` (`core/auth/repository.go`): the email check followed by the
insert. The result is the error, the database left behind and the user struct, whose
`ID` the successful insert fills in. -/
def Repository.Create (db : DB) (newID : String) (user : User) :
    Option GoError × DB × User :=
  match queryRowScan (selectCountEmail db user.Email) with
  | .error err => (some err, db, user)
  | .ok count =>
    if count > 0 then (some .ErrEmailAlreadyExists, db, user)
    else
      match insertUser db newID user with
      | (rows, db') =>
        match queryRowScan rows with
        | .error err => (some err, db', user)
        | .ok id => (none, db', { user with ID := id })

/-- `Repository.GetByEmail` (`core/auth/repository.go`). -/
def Repository.GetByEmail (db : DB) (email : String) : Except GoError User :=
  match queryRowScan (selectByEmail db email) with
  | .error err =>
    if err.Is .pgxErrNoRows then .error .ErrUserNotFound else .error err
  | .ok user => .ok user

/-- The result of `SELECT id, email, password_hash, name, created_at, updated_at FROM
users WHERE id = $1`. -/
def selectByID (db : DB) (id : String) : List User :=
  db.users.filter (fun u => u.ID == id)

/-- `Repository.GetByID` (`core/auth/repository.go`). -/
def Repository.GetByID (db : DB) (id : String) : Except GoError User :=
  match queryRowScan (selectByID db id) with
  | .error err =>
    if err.Is .pgxErrNoRows then .error .ErrUserNotFound else .error err
  | .ok user => .ok user

/-- `Service.GetUserByID` (`core/auth/service.go`). -/
def Service.GetUserByID (db : DB) (id : String) : Except GoError User :=
  Repository.GetByID db id

/-- `Service.Register` (`core/auth/service.go`): the returned user or the error, and the
database left behind. -/
def Service.Register (B : Bcrypt) (db : DB) (rand : Nat) (now : Int) (newID : String)
    (email password name : String) : Except GoError User × DB :=
  match NewUser B rand now email password name with
  | .error err => (.error err, db)
  | .ok user =>
    match Repository.Create db newID user with
    | (some err, db', _) => (.error err, db')
    | (none, db', user') => (.ok user', db')

/-- `Service.Login` (`core/auth/service.go`): the token and the error. -/
def Service.Login (B : Bcrypt) (J : pkg.auth.JWTLib) (getenv : String → String)
    (jwt : JWTConfig) (db : DB) (nowExp nowIat nowNbf : Int) (email password : String) :
    String × Option GoError :=
  match Repository.GetByEmail db email with
  | .error err =>
    if err.Is .ErrUserNotFound then ("", some .ErrInvalidCredentials) else ("", some err)
  | .ok user =>
    if !(User.ComparePassword B user password) then ("", some .ErrInvalidCredentials)
    else
      match User.GenerateToken J getenv nowExp nowIat nowNbf user jwt.ExpirationHours with
      | (_, some err) => ("", some err)
      | (token, none) => (token, none)

end core.auth

/-- Email uniqueness of the table of users: no two rows have the same email. -/
def DB.UniqueEmails (db : DB) : Prop :=
  (db.users.map (fun u => u.Email)).Nodup

/-- The first stored user with the given email: the row the query `WHERE email = $1`
hands to `Scan`. -/
def DB.findUser (db : DB) (email : String) : Option User :=
  db.users.find? (fun u => u.Email == email)

/-- The arguments of one call of `Service.Register`, with what the call draws from
outside: the randomness of bcrypt, the reading of the clock and the identifier the
database assigns if it inserts. -/
structure RegisterCall where
  rand : Nat
  now : Int
  newID : String
  email : String
  password : String
  name : String

/-- The database after a sequence of calls of `Service.Register`, whatever each of them
returns. -/
def registerAll (B : Bcrypt) (db : DB) : List RegisterCall → DB
  | [] => db
  | call :: calls =>
    registerAll B
      (core.auth.Service.Register B db call.rand call.now call.newID
        call.email call.password call.name).2 calls

/-! ## Strings -/

/-- Splitting a sequence of characters at every occurrence of the separator: the pieces
between the separators, in order, empty pieces included. -/
def splitChars (sep : Char) : List Char → List (List Char)
  | [] => [[]]
  | c :: cs =>
    if c = sep then [] :: splitChars sep cs
    else
      match splitChars sep cs with
      | [] => [[c]]
      | piece :: pieces => (c :: piece) :: pieces

/-- The call `strings.Split(s, sep)` for a separator of one character. -/
def stringsSplit (s : String) (sep : Char) : List String :=
  (splitChars sep s.toList).map String.mk

/-! ## Wire types of the HTTP transport (`transport/http`) -/

namespace transport.http

/-- The struct `ErrorResponse`. -/
structure ErrorResponse where
  Error : String
  deriving DecidableEq, Repr

/-- The struct `SuccessResponse`. -/
structure SuccessResponse where
  Message : String
  deriving DecidableEq, Repr

/-- The struct `UserResponse`. -/
structure UserResponse where
  ID : String
  Email : String
  Name : String
  CreatedAt : Int
  deriving DecidableEq, Repr

/-- The struct `TokenResponse`. -/
structure TokenResponse where
  Token : String
  deriving DecidableEq, Repr

/-- The struct `MessageResponse`. -/
structure MessageResponse where
  ID : String
  UserID : String
  Content : String
  CreatedAt : Int
  UpdatedAt : Int
  deriving DecidableEq, Repr

/-- The struct `RegisterRequest`. -/
structure RegisterRequest where
  Email : String
  Password : String
  Name : String
  deriving DecidableEq, Repr

/-- The struct `LoginRequest`. -/
structure LoginRequest where
  Email : String
  Password : String
  deriving DecidableEq, Repr

/-- The struct `CreateMessageRequest`. -/
structure CreateMessageRequest where
  Content : String
  deriving DecidableEq, Repr

/-- The struct `UpdateMessageRequest`. -/
structure UpdateMessageRequest where
  Content : String
  deriving DecidableEq, Repr

/-- `RegisterRequest.Validate`; `len` of a Go string is its number of bytes. -/
def RegisterRequest.Validate (r : RegisterRequest) : Option GoError :=
  if r.Email.utf8ByteSize < 5 then some (.other "email must be at least 5 characters")
  else if r.Password.utf8ByteSize < 6 then
    some (.other "password must be at least 6 characters")
  else if r.Name.utf8ByteSize < 2 then some (.other "name must be at least 2 characters")
  else none

/-- `LoginRequest.Validate`. -/
def LoginRequest.Validate (r : LoginRequest) : Option GoError :=
  if r.Email == "" then some (.other "email is required")
  else if r.Password == "" then some (.other "password is required")
  else none

/-- `CreateMessageRequest.Validate`. -/
def CreateMessageRequest.Validate (r : CreateMessageRequest) : Option GoError :=
  if r.Content == "" then some (.other "content is required")
  else if r.Content.utf8ByteSize > 1000 then
    some (.other "content must be less than 1000 characters")
  else none

/-- `UpdateMessageRequest.Validate`. -/
def UpdateMessageRequest.Validate (r : UpdateMessageRequest) : Option GoError :=
  if r.Content == "" then some (.other "content is required")
  else if r.Content.utf8ByteSize > 1000 then
    some (.other "content must be less than 1000 characters")
  else none

end transport.http

/-! ## gin

The framework is a library outside the repository. The embedding keeps of a
`*gin.Context` what the handlers of the program read and write, and of the dispatch its
rule for a chain of handlers: `c.Next()` runs the handlers that follow, `Abort` prevents
them from running. -/

namespace gin

/-- A value handed to `c.JSON` or `c.AbortWithStatusJSON`. -/
inductive ResponseBody where
  | H (entries : List (String × String))
  | ofError (r : transport.http.ErrorResponse)
  | ofSuccess (r : transport.http.SuccessResponse)
  | ofUser (r : transport.http.UserResponse)
  | ofToken (r : transport.http.TokenResponse)
  | ofMessage (r : transport.http.MessageResponse)
  | ofMessages (rs : List transport.http.MessageResponse)
  | text (s : String)
  deriving DecidableEq, Repr

/-- A `*gin.Context`: the request (method, path, headers under their canonical names,
path parameters, the JSON object of the body when the body is one, with its string
fields), the keys set on the context, the position in the handler chain, the responses
written so far, each a status and a body, and the value of a panic a handler raised. -/
structure Context where
  Method : String
  Path : String
  Header : List (String × String)
  Params : List (String × String)
  Body : Option (List (String × String))
  Keys : List (String × GoAny)
  index : Int
  Written : List (Nat × ResponseBody)
  Panicked : Option String
  deriving DecidableEq, Repr

/-- The constant `abortIndex` of gin. -/
def abortIndex : Int := 63

namespace Context

/-- `c.GetHeader(key)`: the value of the header, the empty string when it is absent. -/
def GetHeader (c : Context) (key : String) : String :=
  (c.Header.lookup key).getD ""

/-- `c.Param(key)`. -/
def Param (c : Context) (key : String) : String :=
  (c.Params.lookup key).getD ""

/-- `c.Set(key, value)`. -/
def Set (c : Context) (key : String) (value : GoAny) : Context :=
  { c with Keys := (key, value) :: c.Keys.filter (fun kv => !(kv.1 == key)) }

/-- `c.Get(key)`: the value and whether it exists. -/
def Get (c : Context) (key : String) : Option GoAny :=
  c.Keys.lookup key

/-- `c.JSON(status, body)`. -/
def JSON (c : Context) (status : Nat) (body : ResponseBody) : Context :=
  { c with Written := c.Written ++ [(status, body)] }

/-- `c.Abort()`. -/
def Abort (c : Context) : Context :=
  { c with index := abortIndex }

/-- `c.AbortWithStatusJSON(status, body)`. -/
def AbortWithStatusJSON (c : Context) (status : Nat) (body : ResponseBody) : Context :=
  (c.Abort).JSON status body

/-- `c.IsAborted()`. -/
def IsAborted (c : Context) : Bool :=
  decide (abortIndex ≤ c.index)

end Context

/-- A `gin.HandlerFunc` of the program. It acts on the context and on the database the
services reach; its first argument is what `c.Next()` does at the place of the handler
in its chain. -/
abbrev HandlerFunc := (Context × DB → Context × DB) → Context × DB → Context × DB

/-- The dispatch of a chain of handlers, `c.Next()` of gin: the position moves to the
next handler, the handler runs, and the loop goes on with the handlers after it unless
the handler panicked or moved the position itself, by `c.Next()` or by `c.Abort()`. -/
def runChain : List HandlerFunc → Context × DB → Context × DB
  | [], (c, db) => ({ c with index := c.index + 1 }, db)
  | h :: rest, (c, db) =>
    let entered : Context := { c with index := c.index + 1 }
    let after := h (runChain rest) (entered, db)
    if after.1.Panicked.isSome then after
    else if after.1.index == entered.index then runChain rest after
    else after

end gin

/-! ## What a request draws from outside the program -/

/-- The libraries, the process environment, the configuration and, for one request, the
readings of the clocks, the randomness and the identifier the database assigns to an
inserted row. `now` is the reading of `time.Now()` in `NewUser` and `NewMessage`, of SQL
`NOW()` and of the JWT library when it validates; `nowExp`, `nowIat`, `nowNbf` are the
three readings of `GenerateToken`. -/
structure Runtime where
  bcrypt : Bcrypt
  jwtlib : pkg.auth.JWTLib
  getenv : String → String
  jwt : core.auth.JWTConfig
  now : Int
  nowExp : Int
  nowIat : Int
  nowNbf : Int
  rand : Nat
  newID : String

/-- Status codes of `net/http` the program uses. -/
def http.StatusOK : Nat := 200

/-- `http.StatusCreated`. -/
def http.StatusCreated : Nat := 201

/-- `http.StatusBadRequest`. -/
def http.StatusBadRequest : Nat := 400

/-- `http.StatusUnauthorized`. -/
def http.StatusUnauthorized : Nat := 401

/-- `http.StatusForbidden`. -/
def http.StatusForbidden : Nat := 403

/-- `http.StatusNotFound`. -/
def http.StatusNotFound : Nat := 404

/-- `http.StatusConflict`. -/
def http.StatusConflict : Nat := 409

/-- `http.StatusInternalServerError`. -/
def http.StatusInternalServerError : Nat := 500

/-! ## HTTP authentication middleware (`middleware/auth.go`) -/

namespace middleware

/-- `AuthMiddleware` (`middleware/auth.go`). -/
def AuthMiddleware (rt : Runtime) : gin.HandlerFunc := fun next (c, db) =>
  let authHeader := c.GetHeader "Authorization"
  if authHeader == "" then
    (c.AbortWithStatusJSON http.StatusUnauthorized
      (.H [("error", "Authorization header is required")]), db)
  else
    let parts := stringsSplit authHeader ' '
    if parts.length != 2 || parts.getD 0 "" != "Bearer" then
      (c.AbortWithStatusJSON http.StatusUnauthorized
        (.H [("error", "Authorization header format must be Bearer \x7btoken\x7d")]), db)
    else
      let tokenString := parts.getD 1 ""
      match pkg.auth.ValidateToken rt.jwtlib rt.getenv rt.now tokenString with
      | .error _ =>
        (c.AbortWithStatusJSON http.StatusUnauthorized
          (.H [("error", "Invalid or expired token")]), db)
      | .ok claims => next (c.Set "user_id" (.str claims.UserID), db)

end middleware

/-! ## gRPC authentication interceptor (`middleware/auth.go`) -/

namespace grpc

/-- A `metadata.MD`: the values of each key, keys in lower case. -/
abbrev MD := List (String × List String)

/-- `md.Get(key)`. -/
def MD.Get (md : MD) (key : String) : List String :=
  (md.lookup key).getD []

/-- A `context.Context` of a call: the incoming metadata, when the context has some, and
the values attached with `context.WithValue`, most recent first. -/
structure Context where
  incomingMD : Option MD
  values : List (String × GoAny)
  deriving DecidableEq, Repr

/-- `context.WithValue(ctx, key, value)`. -/
def Context.WithValue (ctx : Context) (key : String) (value : GoAny) : Context :=
  { ctx with values := (key, value) :: ctx.values }

/-- `ctx.Value(key)`. -/
def Context.Value (ctx : Context) (key : String) : Option GoAny :=
  ctx.values.lookup key

/-- A `grpc.ServerStream`, as far as the interceptor and `GetUserIDFromContext` reach
it: the context its method `Context()` returns. -/
structure ServerStream where
  ctx : Context
  deriving DecidableEq, Repr

/-- `ss.Context()`. -/
def ServerStream.Context (ss : ServerStream) : Context :=
  ss.ctx

end grpc

namespace middleware

/-- The constant `UserIDKey`. -/
def UserIDKey : String := "user_id"

/-- `isPublicMethod` (`middleware/auth.go`). -/
def isPublicMethod (method : String) : Bool :=
  let publicMethods := ["/auth.AuthService/Login", "/auth.AuthService/Register"]
  publicMethods.any (fun m => m == method)

/-- `GRPCAuth` (`middleware/auth.go`): the unary interceptor, applied to the context,
the request, `info.FullMethod` and the handler of the call. The result is the response
and the error. -/
def GRPCAuth (rt : Runtime) {Req Resp : Type} (ctx : grpc.Context) (req : Req)
    (fullMethod : String) (handler : grpc.Context → Req → Option Resp × Option GoError) :
    Option Resp × Option GoError :=
  if isPublicMethod fullMethod then handler ctx req
  else
    match ctx.incomingMD with
    | none => (none, some (.status .Unauthenticated "metadata is required"))
    | some md =>
      let values := md.Get "authorization"
      if values.length == 0 then
        (none, some (.status .Unauthenticated "authorization token is required"))
      else
        let authHeader := values.getD 0 ""
        let parts := stringsSplit authHeader ' '
        if parts.length != 2 || parts.getD 0 "" != "Bearer" then
          (none, some (.status .Unauthenticated
            "invalid authorization format, expected \'Bearer \x7btoken\x7d\'"))
        else
          let tokenString := parts.getD 1 ""
          match pkg.auth.ValidateToken rt.jwtlib rt.getenv rt.now tokenString with
          | .error err =>
            (none, some (.status .Unauthenticated ("invalid token: " ++ err.Error)))
          | .ok claims =>
            let newCtx := ctx.WithValue UserIDKey (.str claims.UserID)
            handler newCtx req

/-- `GetUserIDFromContext` (`middleware/auth.go`). -/
def GetUserIDFromContext (ctx : grpc.Context) : String × Option GoError :=
  match ctx.Value UserIDKey with
  | some (.str userID) => (userID, none)
  | _ => ("", some (.other "user ID not found in context"))

/-- The struct `wrappedServerStream` (`middleware/auth.go`): a server stream and a
context. -/
structure wrappedServerStream where
  ServerStream : grpc.ServerStream
  ctx : grpc.Context
  deriving DecidableEq, Repr

/-- `wrappedServerStream.Context` (`middleware/auth.go`). -/
def wrappedServerStream.Context (w : wrappedServerStream) : grpc.Context :=
  w.ctx

/-- A `*wrappedServerStream` used as a `grpc.ServerStream`: `Context()` is the method of
the wrapper, the other methods are those of the embedded stream. -/
def wrappedServerStream.asServerStream (w : wrappedServerStream) : grpc.ServerStream :=
  { w.ServerStream with ctx := w.Context }

/-- `GRPCStreamAuth` (`middleware/auth.go`): the stream interceptor, applied to the
service, the stream, `info.FullMethod` and the handler of the call. The result is the
error. -/
def GRPCStreamAuth (rt : Runtime) {Srv : Type} (srv : Srv) (ss : grpc.ServerStream)
    (fullMethod : String) (handler : Srv → grpc.ServerStream → Option GoError) :
    Option GoError :=
  if isPublicMethod fullMethod then handler srv ss
  else
    let ctx := ss.Context
    match ctx.incomingMD with
    | none => some (.status .Unauthenticated "metadata is required")
    | some md =>
      let values := md.Get "authorization"
      if values.length == 0 then
        some (.status .Unauthenticated "authorization token is required")
      else
        let authHeader := values.getD 0 ""
        let parts := stringsSplit authHeader ' '
        if parts.length != 2 || parts.getD 0 "" != "Bearer" then
          some (.status .Unauthenticated
            "invalid authorization format, expected 'Bearer \x7btoken\x7d'")
        else
          let tokenString := parts.getD 1 ""
          match pkg.auth.ValidateToken rt.jwtlib rt.getenv rt.now tokenString with
          | .error err => some (.status .Unauthenticated ("invalid token: " ++ err.Error))
          | .ok claims =>
            let newCtx := ctx.WithValue UserIDKey (.str claims.UserID)
            let wrappedStream : wrappedServerStream := { ServerStream := ss, ctx := newCtx }
            handler srv wrappedStream.asServerStream

end middleware

/-! ## HTTP handlers (`handlers/http`) -/

/-- The folding of a character under which `encoding/json` compares the key of an object
with the name of a field that is made of lower-case ASCII letters: the letters `A` to `Z`
fold to `a` to `z`, as do the two characters outside ASCII that Unicode folds to an
ASCII letter, U+017F to `s` and U+212A to `k`. -/
def foldRune (ch : Char) : Char :=
  if ch.isUpper then ch.toLower
  else if ch = Char.ofNat 0x17F then 's'
  else if ch = Char.ofNat 0x212A then 'k'
  else ch

/-- Whether `encoding/json` takes the key of an object for the field named `name`, a
name of lower-case ASCII letters as the tags of the request structs are: the key is the
name, or is the name up to case folding. -/
def keyMatches (key name : String) : Bool :=
  key.toList.map foldRune == name.toList

/-- The value `c.ShouldBindJSON` decodes into the string field named `key` from the JSON
object of a request body: the keys are taken in order, each key that matches the name
sets the field, so the value is that of the last matching key, and the empty string when
no key matches. -/
def jsonField (obj : List (String × String)) (key : String) : String :=
  ((obj.reverse.find? (fun kv => keyMatches kv.1 key)).map Prod.snd).getD ""

/-- The error of `c.ShouldBindJSON` for a body that does not decode or that leaves a
field tagged `binding:"required"` empty. -/
def bindError : GoError :=
  .other "request body does not bind"

namespace handlers.http.auth

open transport.http

/-- `c.ShouldBindJSON(&req)` for a `RegisterRequest`, all of whose fields are required. -/
def bindRegisterRequest (c : gin.Context) : Except GoError RegisterRequest :=
  match c.Body with
  | none => .error bindError
  | some obj =>
    let req : RegisterRequest :=
      { Email := jsonField obj "email", Password := jsonField obj "password",
        Name := jsonField obj "name" }
    if req.Email == "" || req.Password == "" || req.Name == "" then .error bindError
    else .ok req

/-- `c.ShouldBindJSON(&req)` for a `LoginRequest`, all of whose fields are required. -/
def bindLoginRequest (c : gin.Context) : Except GoError LoginRequest :=
  match c.Body with
  | none => .error bindError
  | some obj =>
    let req : LoginRequest :=
      { Email := jsonField obj "email", Password := jsonField obj "password" }
    if req.Email == "" || req.Password == "" then .error bindError
    else .ok req

/-- `Handler.Register` (`handlers/http/auth/handler.go`). -/
def Handler.Register (rt : Runtime) : gin.HandlerFunc := fun _ (c, db) =>
  match bindRegisterRequest c with
  | .error _ =>
    (c.JSON http.StatusBadRequest (.ofError { Error := "Invalid request format" }), db)
  | .ok req =>
    match req.Validate with
    | some err => (c.JSON http.StatusBadRequest (.ofError { Error := err.Error }), db)
    | none =>
      match core.auth.Service.Register rt.bcrypt db rt.rand rt.now rt.newID
          req.Email req.Password req.Name with
      | (.error err, db') =>
        let status :=
          if err.Is .ErrEmailAlreadyExists then http.StatusConflict
          else http.StatusInternalServerError
        (c.JSON status (.ofError { Error := err.Error }), db')
      | (.ok user, db') =>
        (c.JSON http.StatusCreated (.ofUser
          { ID := user.ID, Email := user.Email, Name := user.Name,
            CreatedAt := user.CreatedAt }), db')

/-- `Handler.Login` (`handlers/http/auth/handler.go`). -/
def Handler.Login (rt : Runtime) : gin.HandlerFunc := fun _ (c, db) =>
  match bindLoginRequest c with
  | .error _ =>
    (c.JSON http.StatusBadRequest (.ofError { Error := "Invalid request format" }), db)
  | .ok req =>
    match req.Validate with
    | some err => (c.JSON http.StatusBadRequest (.ofError { Error := err.Error }), db)
    | none =>
      match core.auth.Service.Login rt.bcrypt rt.jwtlib rt.getenv rt.jwt db
          rt.nowExp rt.nowIat rt.nowNbf req.Email req.Password with
      | (_, some err) =>
        let status :=
          if err.Is .ErrInvalidCredentials then http.StatusUnauthorized
          else http.StatusInternalServerError
        (c.JSON status (.ofError { Error := err.Error }), db)
      | (token, none) => (c.JSON http.StatusOK (.ofToken { Token := token }), db)

/-- `Handler.Me` (`handlers/http/auth/handler.go`). The type assertion
`userID.(string)` panics on a value that is not a string. -/
def Handler.Me (_rt : Runtime) : gin.HandlerFunc := fun _ (c, db) =>
  match c.Get "user_id" with
  | none =>
    (c.JSON http.StatusUnauthorized (.ofError { Error := "Not authenticated" }), db)
  | some (.nonString _) =>
    ({ c with Panicked := some "interface conversion: interface is not string" }, db)
  | some (.str userID) =>
    match core.auth.Service.GetUserByID db userID with
    | .error err =>
      let status :=
        if err.Is .ErrUserNotFound then http.StatusNotFound
        else http.StatusInternalServerError
      (c.JSON status (.ofError { Error := err.Error }), db)
    | .ok user =>
      (c.JSON http.StatusOK (.ofUser
        { ID := user.ID, Email := user.Email, Name := user.Name,
          CreatedAt := user.CreatedAt }), db)

end handlers.http.auth

namespace handlers.http.message

open transport.http

/-- The `MessageResponse` the handlers build from a message. -/
def toResponse (msg : Message) : MessageResponse :=
  { ID := msg.ID, UserID := msg.UserID, Content := msg.Content,
    CreatedAt := msg.CreatedAt, UpdatedAt := msg.UpdatedAt }

/-- `c.ShouldBindJSON(&req)` for a `CreateMessageRequest`, whose field is required. -/
def bindCreateMessageRequest (c : gin.Context) : Except GoError CreateMessageRequest :=
  match c.Body with
  | none => .error bindError
  | some obj =>
    let req : CreateMessageRequest := { Content := jsonField obj "content" }
    if req.Content == "" then .error bindError else .ok req

/-- `c.ShouldBindJSON(&req)` for an `UpdateMessageRequest`, whose field is required. -/
def bindUpdateMessageRequest (c : gin.Context) : Except GoError UpdateMessageRequest :=
  match c.Body with
  | none => .error bindError
  | some obj =>
    let req : UpdateMessageRequest := { Content := jsonField obj "content" }
    if req.Content == "" then .error bindError else .ok req

/-- `Handler.GetAll` (`handlers/http/message/handler.go`). -/
def Handler.GetAll (_rt : Runtime) : gin.HandlerFunc := fun _ (c, db) =>
  match core.message.Service.GetAll db with
  | .error err =>
    (c.JSON http.StatusInternalServerError (.ofError { Error := err.Error }), db)
  | .ok messages => (c.JSON http.StatusOK (.ofMessages (messages.map toResponse)), db)

/-- `Handler.Get` (`handlers/http/message/handler.go`). -/
def Handler.Get (_rt : Runtime) : gin.HandlerFunc := fun _ (c, db) =>
  let id := c.Param "id"
  match core.message.Service.GetByID db id with
  | .error err =>
    let status :=
      if err.Is .ErrMessageNotFound then http.StatusNotFound
      else http.StatusInternalServerError
    (c.JSON status (.ofError { Error := err.Error }), db)
  | .ok msg => (c.JSON http.StatusOK (.ofMessage (toResponse msg)), db)

/-- `Handler.Create` (`handlers/http/message/handler.go`). -/
def Handler.Create (rt : Runtime) : gin.HandlerFunc := fun _ (c, db) =>
  match bindCreateMessageRequest c with
  | .error _ =>
    (c.JSON http.StatusBadRequest (.ofError { Error := "Invalid request format" }), db)
  | .ok req =>
    match req.Validate with
    | some err => (c.JSON http.StatusBadRequest (.ofError { Error := err.Error }), db)
    | none =>
      match c.Get "user_id" with
      | none =>
        (c.JSON http.StatusUnauthorized (.ofError { Error := "Not authenticated" }), db)
      | some (.nonString _) =>
        ({ c with Panicked := some "interface conversion: interface is not string" }, db)
      | some (.str userID) =>
        match core.message.Service.Create db rt.now rt.newID userID req.Content with
        | (.error err, db') =>
          (c.JSON http.StatusInternalServerError (.ofError { Error := err.Error }), db')
        | (.ok msg, db') => (c.JSON http.StatusCreated (.ofMessage (toResponse msg)), db')

/-- The status the handlers `Update` and `Delete` give to an error of the service. -/
def mutationStatus (err : GoError) : Nat :=
  if err.Is .ErrMessageNotFound then http.StatusNotFound
  else if err.Is .ErrForbidden then http.StatusForbidden
  else http.StatusInternalServerError

/-- `Handler.Update` (`handlers/http/message/handler.go`). -/
def Handler.Update (rt : Runtime) : gin.HandlerFunc := fun _ (c, db) =>
  let id := c.Param "id"
  match bindUpdateMessageRequest c with
  | .error _ =>
    (c.JSON http.StatusBadRequest (.ofError { Error := "Invalid request format" }), db)
  | .ok req =>
    match req.Validate with
    | some err => (c.JSON http.StatusBadRequest (.ofError { Error := err.Error }), db)
    | none =>
      match c.Get "user_id" with
      | none =>
        (c.JSON http.StatusUnauthorized (.ofError { Error := "Not authenticated" }), db)
      | some (.nonString _) =>
        ({ c with Panicked := some "interface conversion: interface is not string" }, db)
      | some (.str userID) =>
        match core.message.Service.Update db rt.now id userID req.Content with
        | (some err, db') =>
          (c.JSON (mutationStatus err) (.ofError { Error := err.Error }), db')
        | (none, db') =>
          (c.JSON http.StatusOK (.ofSuccess { Message := "Message updated successfully" }),
            db')

/-- `Handler.Delete` (`handlers/http/message/handler.go`). -/
def Handler.Delete (_rt : Runtime) : gin.HandlerFunc := fun _ (c, db) =>
  let id := c.Param "id"
  match c.Get "user_id" with
  | none =>
    (c.JSON http.StatusUnauthorized (.ofError { Error := "Not authenticated" }), db)
  | some (.nonString _) =>
    ({ c with Panicked := some "interface conversion: interface is not string" }, db)
  | some (.str userID) =>
    match core.message.Service.Delete db id userID with
    | (some err, db') =>
      (c.JSON (mutationStatus err) (.ofError { Error := err.Error }), db')
    | (none, db') =>
      (c.JSON http.StatusOK (.ofSuccess { Message := "Message deleted successfully" }),
        db')

end handlers.http.message

/-! ## HTTP routes (`app/http.go`) -/

namespace app

/-- A route of the gin engine: method, path pattern and the chain of handlers. -/
structure Route where
  Method : String
  Path : String
  Handlers : List gin.HandlerFunc

/-- The routes `registerHTTPRoutes` registers in the groups `/api/v1/auth` and
`/api/v1/messages`, in the order of the source. The root route, the health checks and
the documentation route do not reach the services and are left out. -/
def registerHTTPRoutes (rt : Runtime) : List Route :=
  [ { Method := "POST", Path := "/api/v1/auth/register",
      Handlers := [handlers.http.auth.Handler.Register rt] },
    { Method := "POST", Path := "/api/v1/auth/login",
      Handlers := [handlers.http.auth.Handler.Login rt] },
    { Method := "GET", Path := "/api/v1/auth/me",
      Handlers := [middleware.AuthMiddleware rt, handlers.http.auth.Handler.Me rt] },
    { Method := "GET", Path := "/api/v1/messages",
      Handlers := [handlers.http.message.Handler.GetAll rt] },
    { Method := "GET", Path := "/api/v1/messages/:id",
      Handlers := [middleware.AuthMiddleware rt, handlers.http.message.Handler.Get rt] },
    { Method := "POST", Path := "/api/v1/messages",
      Handlers := [middleware.AuthMiddleware rt, handlers.http.message.Handler.Create rt] },
    { Method := "PUT", Path := "/api/v1/messages/:id",
      Handlers := [middleware.AuthMiddleware rt, handlers.http.message.Handler.Update rt] },
    { Method := "DELETE", Path := "/api/v1/messages/:id",
      Handlers := [middleware.AuthMiddleware rt, handlers.http.message.Handler.Delete rt] } ]

/-- Matching of the segments of a path pattern against those of a request path: a
segment `:name` matches any non-empty segment and binds the parameter, another segment
matches itself. The result is the list of the parameters bound. -/
def matchSegments : List String → List String → Option (List (String × String))
  | [], [] => some []
  | pat :: pats, seg :: segs =>
    match pat.toList with
    | ':' :: name =>
      if seg == "" then none
      else (matchSegments pats segs).map (fun ps => (String.mk name, seg) :: ps)
    | _ => if pat == seg then matchSegments pats segs else none
  | _, _ => none

/-- Matching of a path pattern against a request path. -/
def matchPath (pattern path : String) : Option (List (String × String)) :=
  matchSegments (stringsSplit pattern '/') (stringsSplit path '/')

/-- The route of the table a request is dispatched to, with the path parameters. -/
def findRoute (routes : List Route) (method path : String) :
    Option (Route × List (String × String)) :=
  routes.findSome? (fun r =>
    if r.Method == method then (matchPath r.Path path).map (fun ps => (r, ps)) else none)

/-- The handling of a request by the engine for the routes above: the chain of the
matching route runs on the context of the request, a request no route matches is
answered 404. -/
def ServeHTTP (rt : Runtime) (c : gin.Context) (db : DB) : gin.Context × DB :=
  match findRoute (registerHTTPRoutes rt) c.Method c.Path with
  | none =>
    ({ c with Written := c.Written ++ [(http.StatusNotFound, .text "404 page not found")] },
      db)
  | some (r, params) => gin.runChain r.Handlers ({ c with Params := params, index := -1 }, db)

end app

/-! ## gRPC servers (`handlers/grpc`)

The request and response structs are generated code that is not among the sources; they
are declared here with the fields the servers read and write. `formatRFC3339` stands for
`Time.Format(time.RFC3339)`. A method returns the response and the error, and the
database it leaves behind. -/

namespace handlers.grpc.auth

/-- The message `RegisterRequest`. -/
structure RegisterRequest where
  Email : String
  Password : String
  Name : String
  deriving DecidableEq, Repr

/-- The message `LoginRequest`. -/
structure LoginRequest where
  Email : String
  Password : String
  deriving DecidableEq, Repr

/-- The message `UserResponse`. -/
structure UserResponse where
  Id : String
  Email : String
  Name : String
  CreatedAt : String
  deriving DecidableEq, Repr

/-- The message `TokenResponse`. -/
structure TokenResponse where
  Token : String
  deriving DecidableEq, Repr

/-- `Server.Register` (`handlers/grpc/auth/server.go`). -/
def Server.Register (rt : Runtime) (formatRFC3339 : Int → String) (_ctx : grpc.Context)
    (req : RegisterRequest) (db : DB) : (Option UserResponse × Option GoError) × DB :=
  if req.Email == "" || req.Password == "" || req.Name == "" then
    ((none, some (.status .InvalidArgument "email, password, and name are required")), db)
  else
    match core.auth.Service.Register rt.bcrypt db rt.rand rt.now rt.newID
        req.Email req.Password req.Name with
    | (.error err, db') =>
      let code :=
        if err.Is .ErrEmailAlreadyExists then codes.Code.AlreadyExists
        else codes.Code.Internal
      ((none, some (.status code err.Error)), db')
    | (.ok user, db') =>
      ((some { Id := user.ID, Email := user.Email, Name := user.Name,
               CreatedAt := formatRFC3339 user.CreatedAt }, none), db')

/-- `Server.Login` (`handlers/grpc/auth/server.go`). -/
def Server.Login (rt : Runtime) (_ctx : grpc.Context) (req : LoginRequest) (db : DB) :
    (Option TokenResponse × Option GoError) × DB :=
  if req.Email == "" || req.Password == "" then
    ((none, some (.status .InvalidArgument "email and password are required")), db)
  else
    match core.auth.Service.Login rt.bcrypt rt.jwtlib rt.getenv rt.jwt db
        rt.nowExp rt.nowIat rt.nowNbf req.Email req.Password with
    | (_, some err) =>
      let code :=
        if err.Is .ErrInvalidCredentials then codes.Code.Unauthenticated
        else codes.Code.Internal
      ((none, some (.status code err.Error)), db)
    | (token, none) => ((some { Token := token }, none), db)

/-- `Server.GetCurrentUser` (`handlers/grpc/auth/server.go`). -/
def Server.GetCurrentUser (_rt : Runtime) (formatRFC3339 : Int → String)
    (ctx : grpc.Context) (db : DB) : (Option UserResponse × Option GoError) × DB :=
  match middleware.GetUserIDFromContext ctx with
  | (_, some _) => ((none, some (.status .Unauthenticated "not authenticated")), db)
  | (userID, none) =>
    match core.auth.Service.GetUserByID db userID with
    | .error err =>
      let code :=
        if err.Is .ErrUserNotFound then codes.Code.NotFound else codes.Code.Internal
      ((none, some (.status code err.Error)), db)
    | .ok user =>
      ((some { Id := user.ID, Email := user.Email, Name := user.Name,
               CreatedAt := formatRFC3339 user.CreatedAt }, none), db)

end handlers.grpc.auth

namespace handlers.grpc.message

/-- The message `CreateMessageRequest`. -/
structure CreateMessageRequest where
  Content : String
  deriving DecidableEq, Repr

/-- The message `GetMessageRequest`. -/
structure GetMessageRequest where
  Id : String
  deriving DecidableEq, Repr

/-- The message `UpdateMessageRequest`. -/
structure UpdateMessageRequest where
  Id : String
  Content : String
  deriving DecidableEq, Repr

/-- The message `DeleteMessageRequest`. -/
structure DeleteMessageRequest where
  Id : String
  deriving DecidableEq, Repr

/-- The message `MessageResponse`. -/
structure MessageResponse where
  Id : String
  UserId : String
  Content : String
  CreatedAt : String
  UpdatedAt : String
  deriving DecidableEq, Repr

/-- The message `EmptyResponse`. -/
structure EmptyResponse where
  deriving DecidableEq, Repr

/-- The message `ListMessagesResponse`. -/
structure ListMessagesResponse where
  Messages : List MessageResponse
  deriving DecidableEq, Repr

/-- The `MessageResponse` the servers build from a message. -/
def toResponse (formatRFC3339 : Int → String) (msg : Message) : MessageResponse :=
  { Id := msg.ID, UserId := msg.UserID, Content := msg.Content,
    CreatedAt := formatRFC3339 msg.CreatedAt, UpdatedAt := formatRFC3339 msg.UpdatedAt }

/-- The code `UpdateMessage` and `DeleteMessage` give to an error of the service. -/
def mutationCode (err : GoError) : codes.Code :=
  if err.Is .ErrMessageNotFound then .NotFound
  else if err.Is .ErrForbidden then .PermissionDenied
  else .Internal

/-- `Server.CreateMessage` (`handlers/grpc/message/server.go`). -/
def Server.CreateMessage (rt : Runtime) (formatRFC3339 : Int → String)
    (ctx : grpc.Context) (req : CreateMessageRequest) (db : DB) :
    (Option MessageResponse × Option GoError) × DB :=
  if req.Content == "" then
    ((none, some (.status .InvalidArgument "content is required")), db)
  else
    match middleware.GetUserIDFromContext ctx with
    | (_, some _) => ((none, some (.status .Unauthenticated "not authenticated")), db)
    | (userID, none) =>
      match core.message.Service.Create db rt.now rt.newID userID req.Content with
      | (.error err, db') => ((none, some (.status .Internal err.Error)), db')
      | (.ok msg, db') => ((some (toResponse formatRFC3339 msg), none), db')

/-- `Server.GetMessage` (`handlers/grpc/message/server.go`). -/
def Server.GetMessage (_rt : Runtime) (formatRFC3339 : Int → String)
    (_ctx : grpc.Context) (req : GetMessageRequest) (db : DB) :
    (Option MessageResponse × Option GoError) × DB :=
  if req.Id == "" then ((none, some (.status .InvalidArgument "id is required")), db)
  else
    match core.message.Service.GetByID db req.Id with
    | .error err =>
      let code :=
        if err.Is .ErrMessageNotFound then codes.Code.NotFound else codes.Code.Internal
      ((none, some (.status code err.Error)), db)
    | .ok msg => ((some (toResponse formatRFC3339 msg), none), db)

/-- `Server.UpdateMessage` (`handlers/grpc/message/server.go`). -/
def Server.UpdateMessage (rt : Runtime) (ctx : grpc.Context) (req : UpdateMessageRequest)
    (db : DB) : (Option EmptyResponse × Option GoError) × DB :=
  if req.Id == "" then ((none, some (.status .InvalidArgument "id is required")), db)
  else if req.Content == "" then
    ((none, some (.status .InvalidArgument "content is required")), db)
  else
    match middleware.GetUserIDFromContext ctx with
    | (_, some _) => ((none, some (.status .Unauthenticated "not authenticated")), db)
    | (userID, none) =>
      match core.message.Service.Update db rt.now req.Id userID req.Content with
      | (some err, db') => ((none, some (.status (mutationCode err) err.Error)), db')
      | (none, db') => ((some {}, none), db')

/-- `Server.DeleteMessage` (`handlers/grpc/message/server.go`). -/
def Server.DeleteMessage (_rt : Runtime) (ctx : grpc.Context) (req : DeleteMessageRequest)
    (db : DB) : (Option EmptyResponse × Option GoError) × DB :=
  if req.Id == "" then ((none, some (.status .InvalidArgument "id is required")), db)
  else
    match middleware.GetUserIDFromContext ctx with
    | (_, some _) => ((none, some (.status .Unauthenticated "not authenticated")), db)
    | (userID, none) =>
      match core.message.Service.Delete db req.Id userID with
      | (some err, db') => ((none, some (.status (mutationCode err) err.Error)), db')
      | (none, db') => ((some {}, none), db')

/-- `Server.ListMessages` (`handlers/grpc/message/server.go`). -/
def Server.ListMessages (_rt : Runtime) (formatRFC3339 : Int → String)
    (_ctx : grpc.Context) (db : DB) :
    (Option ListMessagesResponse × Option GoError) × DB :=
  match core.message.Service.GetAll db with
  | .error err => ((none, some (.status .Internal err.Error)), db)
  | .ok msgs => ((some { Messages := msgs.map (toResponse formatRFC3339) }, none), db)

end handlers.grpc.message

/-! ## The adapters after the call of the service

For each operation, the part of the HTTP handler and of the gRPC server that follows the
call of the service, as a function of what the service returned. The handlers and
servers above are these functions applied to the result of the service. -/

namespace handlers.http.auth

/-- What `Handler.Register` does with the result of `service.Register`. -/
def respondRegister (c : gin.Context) : Except GoError User × DB → gin.Context × DB
  | (.error err, db') =>
    let status :=
      if err.Is .ErrEmailAlreadyExists then http.StatusConflict
      else http.StatusInternalServerError
    (c.JSON status (.ofError { Error := err.Error }), db')
  | (.ok user, db') =>
    (c.JSON http.StatusCreated (.ofUser
      { ID := user.ID, Email := user.Email, Name := user.Name,
        CreatedAt := user.CreatedAt }), db')

/-- What `Handler.Login` does with the result of `service.Login`. -/
def respondLogin (c : gin.Context) (db : DB) : String × Option GoError → gin.Context × DB
  | (_, some err) =>
    let status :=
      if err.Is .ErrInvalidCredentials then http.StatusUnauthorized
      else http.StatusInternalServerError
    (c.JSON status (.ofError { Error := err.Error }), db)
  | (token, none) => (c.JSON http.StatusOK (.ofToken { Token := token }), db)

/-- What `Handler.Me` does with the result of `service.GetUserByID`. -/
def respondMe (c : gin.Context) (db : DB) : Except GoError User → gin.Context × DB
  | .error err =>
    let status :=
      if err.Is .ErrUserNotFound then http.StatusNotFound
      else http.StatusInternalServerError
    (c.JSON status (.ofError { Error := err.Error }), db)
  | .ok user =>
    (c.JSON http.StatusOK (.ofUser
      { ID := user.ID, Email := user.Email, Name := user.Name,
        CreatedAt := user.CreatedAt }), db)

end handlers.http.auth

namespace handlers.http.message

/-- What `Handler.GetAll` does with the result of `service.GetAll`. -/
def respondGetAll (c : gin.Context) (db : DB) :
    Except GoError (List Message) → gin.Context × DB
  | .error err =>
    (c.JSON http.StatusInternalServerError (.ofError { Error := err.Error }), db)
  | .ok messages => (c.JSON http.StatusOK (.ofMessages (messages.map toResponse)), db)

/-- What `Handler.Get` does with the result of `service.GetByID`. -/
def respondGet (c : gin.Context) (db : DB) : Except GoError Message → gin.Context × DB
  | .error err =>
    let status :=
      if err.Is .ErrMessageNotFound then http.StatusNotFound
      else http.StatusInternalServerError
    (c.JSON status (.ofError { Error := err.Error }), db)
  | .ok msg => (c.JSON http.StatusOK (.ofMessage (toResponse msg)), db)

/-- What `Handler.Create` does with the result of `service.Create`. -/
def respondCreate (c : gin.Context) : Except GoError Message × DB → gin.Context × DB
  | (.error err, db') =>
    (c.JSON http.StatusInternalServerError (.ofError { Error := err.Error }), db')
  | (.ok msg, db') => (c.JSON http.StatusCreated (.ofMessage (toResponse msg)), db')

/-- What `Handler.Update` does with the result of `service.Update`. -/
def respondUpdate (c : gin.Context) : Option GoError × DB → gin.Context × DB
  | (some err, db') => (c.JSON (mutationStatus err) (.ofError { Error := err.Error }), db')
  | (none, db') =>
    (c.JSON http.StatusOK (.ofSuccess { Message := "Message updated successfully" }), db')

/-- What `Handler.Delete` does with the result of `service.Delete`. -/
def respondDelete (c : gin.Context) : Option GoError × DB → gin.Context × DB
  | (some err, db') => (c.JSON (mutationStatus err) (.ofError { Error := err.Error }), db')
  | (none, db') =>
    (c.JSON http.StatusOK (.ofSuccess { Message := "Message deleted successfully" }), db')

end handlers.http.message

namespace handlers.grpc.auth

/-- What `Server.Register` does with the result of `service.Register`. -/
def respondRegister (formatRFC3339 : Int → String) :
    Except GoError User × DB → (Option UserResponse × Option GoError) × DB
  | (.error err, db') =>
    let code :=
      if err.Is .ErrEmailAlreadyExists then codes.Code.AlreadyExists
      else codes.Code.Internal
    ((none, some (.status code err.Error)), db')
  | (.ok user, db') =>
    ((some { Id := user.ID, Email := user.Email, Name := user.Name,
             CreatedAt := formatRFC3339 user.CreatedAt }, none), db')

/-- What `Server.Login` does with the result of `service.Login`. -/
def respondLogin (db : DB) :
    String × Option GoError → (Option TokenResponse × Option GoError) × DB
  | (_, some err) =>
    let code :=
      if err.Is .ErrInvalidCredentials then codes.Code.Unauthenticated
      else codes.Code.Internal
    ((none, some (.status code err.Error)), db)
  | (token, none) => ((some { Token := token }, none), db)

/-- What `Server.GetCurrentUser` does with the result of `service.GetUserByID`. -/
def respondGetCurrentUser (formatRFC3339 : Int → String) (db : DB) :
    Except GoError User → (Option UserResponse × Option GoError) × DB
  | .error err =>
    let code :=
      if err.Is .ErrUserNotFound then codes.Code.NotFound else codes.Code.Internal
    ((none, some (.status code err.Error)), db)
  | .ok user =>
    ((some { Id := user.ID, Email := user.Email, Name := user.Name,
             CreatedAt := formatRFC3339 user.CreatedAt }, none), db)

end handlers.grpc.auth

namespace handlers.grpc.message

/-- What `Server.CreateMessage` does with the result of `service.Create`. -/
def respondCreateMessage (formatRFC3339 : Int → String) :
    Except GoError Message × DB → (Option MessageResponse × Option GoError) × DB
  | (.error err, db') => ((none, some (.status .Internal err.Error)), db')
  | (.ok msg, db') => ((some (toResponse formatRFC3339 msg), none), db')

/-- What `Server.GetMessage` does with the result of `service.GetByID`. -/
def respondGetMessage (formatRFC3339 : Int → String) (db : DB) :
    Except GoError Message → (Option MessageResponse × Option GoError) × DB
  | .error err =>
    let code :=
      if err.Is .ErrMessageNotFound then codes.Code.NotFound else codes.Code.Internal
    ((none, some (.status code err.Error)), db)
  | .ok msg => ((some (toResponse formatRFC3339 msg), none), db)

/-- What `Server.UpdateMessage` does with the result of `service.Update`. -/
def respondUpdateMessage :
    Option GoError × DB → (Option EmptyResponse × Option GoError) × DB
  | (some err, db') => ((none, some (.status (mutationCode err) err.Error)), db')
  | (none, db') => ((some {}, none), db')

/-- What `Server.DeleteMessage` does with the result of `service.Delete`. -/
def respondDeleteMessage :
    Option GoError × DB → (Option EmptyResponse × Option GoError) × DB
  | (some err, db') => ((none, some (.status (mutationCode err) err.Error)), db')
  | (none, db') => ((some {}, none), db')

/-- What `Server.ListMessages` does with the result of `service.GetAll`. -/
def respondListMessages (formatRFC3339 : Int → String) (db : DB) :
    Except GoError (List Message) → (Option ListMessagesResponse × Option GoError) × DB
  | .error err => ((none, some (.status .Internal err.Error)), db)
  | .ok msgs => ((some { Messages := msgs.map (toResponse formatRFC3339) }, none), db)

end handlers.grpc.message

/-! ## Application errors (`pkg/errors/errors.go`) -/

namespace pkg.errors

/-- An error value as `ToGRPCError` can receive it: an `*ApplicationError` with its
fields `Code`, `Message` and `Err` (`none` for nil), an error that wraps another one
(its `Unwrap` returns `inner`, its `Error()` returns `text`), or an error that wraps
nothing. -/
inductive Err where
  | application (Code : Int) (Message : String) (inner : Option Err)
  | wrapping (text : String) (inner : Err)
  | plain (e : GoError)

/-- The method `Error()`; for an `ApplicationError` it is `ApplicationError.Error`,
which appends the text of a non-nil `Err` to the message. -/
def Err.Error : Err → String
  | .application _ message none => message
  | .application _ message (some inner) => message ++ ": " ++ inner.Error
  | .wrapping text _ => text
  | .plain e => e.Error

/-- The call `errors.As(err, &appErr)`: the code and the message of the first
`*ApplicationError` in the chain of `err`, if there is one. -/
def errorsAs : Err → Option (Int × String)
  | .application code message _ => some (code, message)
  | .wrapping _ inner => errorsAs inner
  | .plain _ => none

/-- `NewBadRequestError`. -/
def NewBadRequestError (message : String) (err : Option Err) : Err :=
  .application 400 message err

/-- `NewUnauthorizedError`. -/
def NewUnauthorizedError (message : String) (err : Option Err) : Err :=
  .application 401 message err

/-- `NewForbiddenError`. -/
def NewForbiddenError (message : String) (err : Option Err) : Err :=
  .application 403 message err

/-- `NewNotFoundError`. -/
def NewNotFoundError (message : String) (err : Option Err) : Err :=
  .application 404 message err

/-- `NewConflictError`. -/
def NewConflictError (message : String) (err : Option Err) : Err :=
  .application 409 message err

/-- `NewInternalServerError`. -/
def NewInternalServerError (message : String) (err : Option Err) : Err :=
  .application 500 message err

/-- `ToGRPCError` (`pkg/errors/errors.go`). -/
def ToGRPCError (err : Err) : GoError :=
  match errorsAs err with
  | some (code, message) =>
    if code = 400 then .status .InvalidArgument message
    else if code = 401 then .status .Unauthenticated message
    else if code = 403 then .status .PermissionDenied message
    else if code = 404 then .status .NotFound message
    else if code = 409 then .status .AlreadyExists message
    else .status .Internal message
  | none => .status .Unknown err.Error

end pkg.errors

/-! ## JSON encoding of a user (`core/auth/model.go`) -/

/-- A value of a field in the JSON encoding of a struct of the program: a string or an
instant. -/
inductive JSONValue where
  | str (s : String)
  | time (t : Int)
  deriving DecidableEq, Repr

/-- The JSON object `encoding/json` makes of a `User`, by the tags of the struct: the
fields `id`, `email`, `name`, `created_at` and `updated_at`; the field `PasswordHash`
carries the tag `json:"-"` and is left out. -/
def User.jsonEncoding (u : User) : List (String × JSONValue) :=
  [("id", .str u.ID), ("email", .str u.Email), ("name", .str u.Name),
   ("created_at", .time u.CreatedAt), ("updated_at", .time u.UpdatedAt)]

/-! ## Password validation (`pkg/validator/validator.go`) -/

namespace pkg.validator

/-- The error `ErrWeakPassword`. -/
def ErrWeakPassword : GoError :=
  .other "password must be at least 6 characters with at least one number and one letter"

/-- The call `regexp.MustCompile("[a-zA-Z]").MatchString(s)`: some character of the
string is one of the letters `a` to `z` or `A` to `Z`. -/
def letterRegexMatch (s : String) : Bool :=
  s.toList.any Char.isAlpha

/-- The call `regexp.MustCompile("[0-9]").MatchString(s)`: some character of the string
is one of the digits `0` to `9`. -/
def numberRegexMatch (s : String) : Bool :=
  s.toList.any Char.isDigit

/-- `ValidatePassword` (`pkg/validator/validator.go`); `len` of a Go string is its
number of bytes. -/
def ValidatePassword (password : String) : Option GoError :=
  if password.utf8ByteSize < 6 then some ErrWeakPassword
  else if !(letterRegexMatch password) then some ErrWeakPassword
  else if !(numberRegexMatch password) then some ErrWeakPassword
  else none

end pkg.validator

/-! ## Cache (`infrastructure/cache/redis.go`)

The Redis client is a library outside the repository. It is modelled by the keys the
server holds: a write with expiration zero stores the key without time to live, a write
with a positive expiration stores it until the clock passes the expiry, a read returns
the value of a key that is stored and not expired. -/

namespace redis

/-- A key of the server: its value and the instant it expires at, if it does. -/
structure Entry where
  key : String
  value : String
  expireAt : Option Int
  deriving DecidableEq, Repr

/-- The keys behind a `*redis.Client`. -/
abbrev Client := List Entry

/-- The error `redis.Nil` of a read of an absent key. -/
def Nil : GoError :=
  .other "redis: nil"

/-- The call `client.Set(ctx, key, value, expiration).Err()` when the clock reads
`now`. -/
def Client.Set (client : Client) (now : Int) (key value : String) (expiration : Int) :
    Option GoError × Client :=
  (none,
    { key := key, value := value,
      expireAt := if expiration = 0 then none else some (now + expiration) } ::
      client.filter (fun e => !(e.key == key)))

/-- Whether a key is still held when the clock reads `now`. -/
def Entry.alive (e : Entry) (now : Int) : Bool :=
  match e.expireAt with
  | none => true
  | some t => decide (now < t)

/-- The call `client.Get(ctx, key).Result()` when the clock reads `now`. -/
def Client.Get (client : Client) (now : Int) (key : String) : String × Option GoError :=
  match client.find? (fun e => e.key == key && e.alive now) with
  | some e => (e.value, none)
  | none => ("", some Nil)

end redis

namespace cache

/-- `Set` (`infrastructure/cache/redis.go`): the call of the client is made with the
constant 0 as expiration; the argument `expiration` is not used. -/
def Set (client : redis.Client) (now : Int) (key value : String) (_expiration : Int) :
    Option GoError × redis.Client :=
  client.Set now key value 0

/-- `Get` (`infrastructure/cache/redis.go`). -/
def Get (client : redis.Client) (now : Int) (key : String) : String × Option GoError :=
  client.Get now key

end cache

/-! ## Configuration (`config/env.go`) -/

namespace config

/-- The two parsers of the standard library `Load` relies on, `strconv.Atoi` and
`time.ParseDuration` (a duration is a number of nanoseconds). They are outside the
repository and are parameters of the embedding. -/
structure Parsers where
  Atoi : String → Except GoError Int
  ParseDuration : String → Except GoError Int

/-- What the program relies on from the parsers: the empty string is neither an integer
nor a duration. -/
def Parsers.RejectEmpty (P : Parsers) : Prop :=
  (∃ err, P.Atoi "" = .error err) ∧ (∃ err, P.ParseDuration "" = .error err)

/-- The call `godotenv.Load()`: the variables of the file `.env`, when there is one, are
added to the environment of the process; a variable the process already has keeps its
value. `environ` gives the value of a variable the process has, `dotenvFile` the
variables read from the file (`none` when the file cannot be read; the error of the call
is dropped by `Load`). -/
def godotenvLoad (environ : String → Option String)
    (dotenvFile : Option (String → Option String)) : String → Option String :=
  fun key =>
    match environ key with
    | some value => some value
    | none =>
      match dotenvFile with
      | some vars => vars key
      | none => none

/-- The call `os.Getenv(key)`: the value of the variable, the empty string when the
variable is not set. -/
def osGetenv (environ : String → Option String) (key : String) : String :=
  (environ key).getD ""

/-- `getEnv` (`config/env.go`). -/
def getEnv (environ : String → Option String) (key defaultValue : String) : String :=
  let value := osGetenv environ key
  if value == "" then defaultValue else value

/-- `getEnvAsInt` (`config/env.go`). -/
def getEnvAsInt (P : Parsers) (environ : String → Option String) (key : String)
    (defaultValue : Int) : Int :=
  let valueStr := getEnv environ key ""
  match P.Atoi valueStr with
  | .ok value => value
  | .error _ => defaultValue

/-- `getEnvAsDuration` (`config/env.go`). -/
def getEnvAsDuration (P : Parsers) (environ : String → Option String) (key : String)
    (defaultValue : Int) : Int :=
  let valueStr := getEnv environ key ""
  match P.ParseDuration valueStr with
  | .ok value => value
  | .error _ => defaultValue

/-- The constant `time.Second`, in nanoseconds. -/
def Second : Int := 1000000000

/-- The struct `AppConfig`. -/
structure AppConfig where
  Name : String
  Environment : String
  Port : Int
  GRPCPort : Int
  deriving DecidableEq, Repr

/-- The struct `DatabaseConfig`. -/
structure DatabaseConfig where
  Host : String
  Port : Int
  User : String
  Password : String
  Name : String
  SSLMode : String
  MigrationSource : String
  deriving DecidableEq, Repr

/-- The struct `RedisConfig`. -/
structure RedisConfig where
  Host : String
  Port : Int
  Password : String
  DB : Int
  deriving DecidableEq, Repr

/-- The struct `TelemetryConfig`. -/
structure TelemetryConfig where
  ServiceName : String
  ExporterEndpoint : String
  deriving DecidableEq, Repr

/-- The struct `ExternalAPIConfig`. -/
structure ExternalAPIConfig where
  Timeout : Int
  deriving DecidableEq, Repr

/-- The struct `Config`. -/
structure Config where
  App : AppConfig
  Database : DatabaseConfig
  Redis : RedisConfig
  JWT : core.auth.JWTConfig
  Telemetry : TelemetryConfig
  ExternalAPI : ExternalAPIConfig
  deriving DecidableEq, Repr

/-- `Load` (`config/env.go`): the file `.env` is loaded into the environment, then every
value is read with its default. The result is the configuration and the error. -/
def Load (P : Parsers) (environ : String → Option String)
    (dotenvFile : Option (String → Option String)) : Config × Option GoError :=
  let env := godotenvLoad environ dotenvFile
  ({ App :=
       { Name := getEnv env "APP_NAME" "go-api-template"
         Environment := getEnv env "ENVIRONMENT" "development"
         Port := getEnvAsInt P env "PORT" 8080
         GRPCPort := getEnvAsInt P env "GRPC_PORT" 9090 }
     Database :=
       { Host := getEnv env "DB_HOST" "localhost"
         Port := getEnvAsInt P env "DB_PORT" 5432
         User := getEnv env "DB_USER" "postgres"
         Password := getEnv env "DB_PASSWORD" "postgres"
         Name := getEnv env "DB_NAME" "api_db"
         SSLMode := getEnv env "DB_SSL_MODE" "disable"
         MigrationSource := getEnv env "DB_MIGRATION_SOURCE"
           "file://internal/infrastructure/database/migrations/postgres" }
     Redis :=
       { Host := getEnv env "REDIS_HOST" "localhost"
         Port := getEnvAsInt P env "REDIS_PORT" 6379
         Password := getEnv env "REDIS_PASSWORD" ""
         DB := getEnvAsInt P env "REDIS_DB" 0 }
     JWT :=
       { Secret := getEnv env "JWT_SECRET" "default-secret-key-for-development-only"
         ExpirationHours := getEnvAsInt P env "JWT_EXPIRATION_HOURS" 24 }
     Telemetry :=
       { ServiceName := getEnv env "OTEL_SERVICE_NAME" "go-api-template"
         ExporterEndpoint := getEnv env "OTEL_EXPORTER_ENDPOINT" "localhost:4317" }
     ExternalAPI :=
       { Timeout := getEnvAsDuration P env "EXTERNAL_API_TIMEOUT" (5 * Second) } },
   none)

/-- The value of a sequence of decimal digits, continued from `acc`; `none` when a
character is not a digit. -/
def digitsValue : List Char → Nat → Option Nat
  | [], acc => some acc
  | ch :: rest, acc =>
    if ch.isDigit then digitsValue rest (acc * 10 + (ch.toNat - 48)) else none

/-- Stand-ins for the parsers, used to instantiate the theorems: an integer is a
non-empty sequence of decimal digits, a duration is such a sequence followed by `s`, a
number of seconds. -/
def digitParsers : Parsers where
  Atoi s :=
    match s.toList with
    | [] => .error (.other "strconv.Atoi: invalid syntax")
    | chars =>
      match digitsValue chars 0 with
      | some n => .ok n
      | none => .error (.other "strconv.Atoi: invalid syntax")
  ParseDuration s :=
    match s.toList.reverse with
    | 's' :: digit :: rest =>
      match digitsValue (digit :: rest).reverse 0 with
      | some n => .ok (n * Second)
      | none => .error (.other "time: invalid duration")
    | _ => .error (.other "time: invalid duration")

end config

/-! ## Concurrent fetches (`infrastructure/http_client/todo_client.go`) -/

namespace fmt

/-- The struct `wrapError` of the package `fmt`: the value of `fmt.Errorf` for a format
with one verb `%w`, the message and the error wrapped. -/
structure wrapError where
  msg : String
  err : GoError
  deriving DecidableEq, Repr

/-- `(*wrapError).Error`. -/
def wrapError.Error (e : wrapError) : String :=
  e.msg

/-- `(*wrapError).Unwrap`. -/
def wrapError.Unwrap (e : wrapError) : GoError :=
  e.err

end fmt

namespace http_client

/-- The struct `Todo`. -/
structure Todo where
  ID : Int
  UserID : Int
  Title : String
  Completed : Bool
  deriving DecidableEq, Repr

/-- The struct `Post`. -/
structure Post where
  ID : Int
  UserID : Int
  Title : String
  Body : String
  deriving DecidableEq, Repr

/-- The outcomes of the outbound calls of one run of `FetchMultiple`: what
`c.GetTodo(ctx, id)` and `c.GetPost(ctx, id)` return in the goroutine started for the
identifier at a position of `todoIDs` or `postIDs`. The remote service is outside the
program, so two calls for one identifier may end differently. -/
structure Calls where
  GetTodo : Nat → Int → Except GoError Todo
  GetPost : Nat → Int → Except GoError Post

/-- A goroutine `FetchMultiple` starts: for a todo or for a post, with the position of
the identifier in its list and the identifier. -/
inductive Goroutine where
  | todo (pos : Nat) (id : Int)
  | post (pos : Nat) (id : Int)
  deriving DecidableEq, Repr

/-- The goroutines started by the two loops of `FetchMultiple`, in the order of their
start. -/
def goroutines (todoIDs postIDs : List Int) : List Goroutine :=
  todoIDs.enum.map (fun p => .todo p.1 p.2) ++ postIDs.enum.map (fun p => .post p.1 p.2)

/-- The three buffered channels of `FetchMultiple`, each with the values sent to it in
the order of the sends. Their capacities are the numbers of goroutines that can send to
them, so that no send blocks. -/
structure Channels where
  todosChan : List Todo
  postsChan : List Post
  errChan : List fmt.wrapError
  deriving DecidableEq, Repr

/-- The body of a goroutine of `FetchMultiple`: the call, then one send, to `errChan`
when the call failed and to the channel of the results otherwise. -/
def Goroutine.run (calls : Calls) (ch : Channels) : Goroutine → Channels
  | .todo pos id =>
    match calls.GetTodo pos id with
    | .error err =>
      { ch with errChan := ch.errChan ++
          [{ msg := "error fetching todo " ++ toString id ++ ": " ++ err.Error, err := err }] }
    | .ok fetched => { ch with todosChan := ch.todosChan ++ [fetched] }
  | .post pos id =>
    match calls.GetPost pos id with
    | .error err =>
      { ch with errChan := ch.errChan ++
          [{ msg := "error fetching post " ++ toString id ++ ": " ++ err.Error, err := err }] }
    | .ok fetched => { ch with postsChan := ch.postsChan ++ [fetched] }

/-- `TodoClient.FetchMultiple` (`http_client/todo_client.go`). The goroutines run
concurrently; `finish` ranks them by the moment of their send, and the channels receive
the sends in that order. After `wg.Wait()` the first error of `errChan` is returned when
there is one, with nil slices, and the contents of the two other channels otherwise. -/
def FetchMultiple (calls : Calls) (finish : Goroutine → Nat) (todoIDs postIDs : List Int) :
    Option (List Todo) × Option (List Post) × Option fmt.wrapError :=
  let sends := (goroutines todoIDs postIDs).insertionSort (fun a b => finish a ≤ finish b)
  let ch := sends.foldl (Goroutine.run calls)
    { todosChan := [], postsChan := [], errChan := [] }
  if ch.errChan.length > 0 then (none, none, ch.errChan.head?)
  else (some ch.todosChan, some ch.postsChan, none)

/-- The todo a goroutine sends to `todosChan`, when it sends one. -/
def Goroutine.sentTodo (calls : Calls) : Goroutine → Option Todo
  | .todo pos id =>
    match calls.GetTodo pos id with
    | .error _ => none
    | .ok fetched => some fetched
  | .post _ _ => none

/-- The post a goroutine sends to `postsChan`, when it sends one. -/
def Goroutine.sentPost (calls : Calls) : Goroutine → Option Post
  | .todo _ _ => none
  | .post pos id =>
    match calls.GetPost pos id with
    | .error _ => none
    | .ok fetched => some fetched

/-- The error a goroutine sends to `errChan`, when it sends one. -/
def Goroutine.sentErr (calls : Calls) : Goroutine → Option fmt.wrapError
  | .todo pos id =>
    match calls.GetTodo pos id with
    | .error err =>
      some { msg := "error fetching todo " ++ toString id ++ ": " ++ err.Error, err := err }
    | .ok _ => none
  | .post pos id =>
    match calls.GetPost pos id with
    | .error err =>
      some { msg := "error fetching post " ++ toString id ++ ": " ++ err.Error, err := err }
    | .ok _ => none

end http_client

/-! ## Properties of the libraries and correspondences of the specification -/

/-- What the program relies on from bcrypt: a hash it generated for a password is one
the comparison accepts for that password. -/
def Bcrypt.Lawful (B : Bcrypt) : Prop :=
  ∀ password cost rand hashed, B.GenerateFromPassword password cost rand = .ok hashed →
    B.CompareHashAndPassword hashed password = none

/-- The six codes of the status-code taxonomy of the specification: invalid-argument,
unauthenticated, not-found, permission-denied, already-exists, internal. -/
def specTaxonomy : List codes.Code :=
  [.InvalidArgument, .Unauthenticated, .NotFound, .PermissionDenied, .AlreadyExists,
   .Internal]

/-- The HTTP status that corresponds to a gRPC code in the specification: 404 NotFound,
403 PermissionDenied, 409 AlreadyExists, 401 Unauthenticated, 500 Internal, 400
InvalidArgument. -/
def specStatusOfCode : codes.Code → Option Nat
  | .NotFound => some 404
  | .PermissionDenied => some 403
  | .AlreadyExists => some 409
  | .Unauthenticated => some 401
  | .Internal => some 500
  | .InvalidArgument => some 400
  | _ => none

/-- A message of user `u1`. -/
def sampleMessage1 : Message :=
  { ID := "1", UserID := "u1", Content := "hi", CreatedAt := 30, UpdatedAt := 30 }

/-- A message of user `u2`. -/
def sampleMessage2 : Message :=
  { ID := "2", UserID := "u2", Content := "yo", CreatedAt := 40, UpdatedAt := 40 }

/-- A database with two users and three messages, used to instantiate the theorems. -/
def sampleDB : DB :=
  { users :=
      [ { ID := "u1", Email := "a@b.com", PasswordHash := "h:secret1", Name := "Al",
          CreatedAt := 10, UpdatedAt := 10 },
        { ID := "u2", Email := "c@d.org", PasswordHash := "h:hunter22", Name := "Bo",
          CreatedAt := 20, UpdatedAt := 20 } ]
    messages :=
      [ sampleMessage1, sampleMessage2,
        { ID := "3", UserID := "u1", Content := "re", CreatedAt := 45, UpdatedAt := 45 } ] }

/-- The claims of a token of user `u1` issued at instant `1000000000000` for 24 hours. -/
def sampleClaims : pkg.auth.Claims :=
  { UserID := "u1", Email := "a@b.com", ExpiresAt := some 87400000000000,
    IssuedAt := some 1000000000000, NotBefore := some 1000000000000 }

/-- A runtime over the stand-in libraries: the JWT library knows the token `tok-u1` of
`sampleClaims` under the development secret, the expiry is 24 hours and every clock
reads `1000000000000`. -/
def sampleRuntime : Runtime :=
  { bcrypt := tagBcrypt
    jwtlib := pkg.auth.singleTokenJWT "tok-u1" sampleClaims
      "default-secret-key-for-development-only"
    getenv := fun _ => ""
    jwt := { Secret := "", ExpirationHours := 24 }
    now := 1000000000000
    nowExp := 1000000000000
    nowIat := 1000000000000
    nowNbf := 1000000000000
    rand := 7
    newID := "u3" }

/-- The claims `GenerateToken` builds for user `u1` at instant `1000000000000` when the
configured expiry is 2562048 hours. -/
def overflowClaims : pkg.auth.Claims :=
  pkg.auth.tokenClaims (pkg.auth.singleTokenJWT "" sampleClaims "")
    1000000000000 1000000000000 1000000000000 "u1" "a@b.com" 2562048

/-- The stand-in JWT library that knows the token `tok-long` of `overflowClaims` under
the development secret. -/
def overflowJWT : pkg.auth.JWTLib :=
  pkg.auth.singleTokenJWT "tok-long" overflowClaims "default-secret-key-for-development-only"

/-- A content of 334 characters, each the euro sign U+20AC, which UTF-8 encodes in three
bytes: 1002 bytes. -/
def euroContent : String :=
  String.mk (List.replicate 334 (Char.ofNat 8364))

/-- A name of one character, the letter U+00E9, which UTF-8 encodes in two bytes. -/
def accentName : String :=
  String.mk [Char.ofNat 233]

/-- A content of 1001 letters `a`: 1001 characters and 1001 bytes. -/
def longContent : String :=
  String.mk (List.replicate 1001 'a')

/-- The context of a call that `GRPCAuth` let through for user `u1`. -/
def sampleGrpcContext : grpc.Context :=
  ({ incomingMD := none, values := [] } : grpc.Context).WithValue middleware.UserIDKey
    (.str "u1")

/-- A rendering of instants used to instantiate the theorems: the decimal number of
nanoseconds. -/
def sampleFormat (t : Int) : String :=
  toString t

/-- A password of four characters and six bytes: twice the letter U+00E9, the digit `1`
and the letter `a`. -/
def accentPassword : String :=
  String.mk [Char.ofNat 233, Char.ofNat 233, '1', 'a']

/-- A file `.env` with the single line `PORT=3000`. -/
def portDotenv : String → Option String :=
  fun key => if key = "PORT" then some "3000" else none

/-- An environment of the process with no variable set. -/
def emptyEnviron : String → Option String := fun _ => none

/-- An environment of the process with `PORT=8443` and an empty `APP_NAME`. -/
def sampleEnviron : String → Option String :=
  fun key => if key = "PORT" then some "8443" else if key = "APP_NAME" then some "" else none

/-- A context of a call with the authorization `Bearer tok-u1` in its metadata. -/
def bearerGrpcContext : grpc.Context :=
  { incomingMD := some [("authorization", ["Bearer tok-u1"])], values := [] }

/-- Outcomes of outbound calls in which every call succeeds, with a result named after
the identifier. -/
def sampleCalls : http_client.Calls where
  GetTodo _ id := .ok { ID := id, UserID := 1, Title := "todo", Completed := false }
  GetPost _ id := .ok { ID := id, UserID := 1, Title := "post", Body := "" }

/-- Outcomes of outbound calls in which the calls for the identifier 2 fail. -/
def failingCalls : http_client.Calls where
  GetTodo _ id :=
    if id = 2 then .error (.other "unexpected status code: 404")
    else .ok { ID := id, UserID := 1, Title := "todo", Completed := false }
  GetPost _ id :=
    if id = 2 then .error (.other "unexpected status code: 500")
    else .ok { ID := id, UserID := 1, Title := "post", Body := "" }

/-- A ranking of the goroutines in which a goroutine for a larger identifier sends
first. -/
def largerFirst : http_client.Goroutine → Nat
  | .todo _ id => (100 - id).toNat
  | .post _ id => (100 - id).toNat

/-- A ranking of the goroutines in which the goroutines for posts send first. -/
def postsFirst : http_client.Goroutine → Nat
  | .todo _ _ => 1
  | .post _ _ => 0

/-- The database without users and messages. -/
def emptyDB : DB :=
  { users := [], messages := [] }

/-- The context of a request as the engine hands it to the first handler of a chain:
nothing written, no key set, the position before the first handler. -/
def sampleRequest (method path : String) (header : List (String × String)) : gin.Context :=
  { Method := method, Path := path, Header := header, Params := [], Body := none,
    Keys := [], index := -1, Written := [], Panicked := none }

/-- The context of a request of user `u2` to update the message `1` with the content
`mine`, after routing and authentication. -/
def foreignUpdateRequest : gin.Context :=
  { sampleRequest "PUT" "/api/v1/messages/1" [] with
    Params := [("id", "1")], Body := some [("content", "mine")],
    Keys := [("user_id", .str "u2")] }

/-- The context of a call of user `u2`, as the interceptor leaves it. -/
def foreignGrpcContext : grpc.Context :=
  ({ incomingMD := none, values := [] } : grpc.Context).WithValue middleware.UserIDKey
    (.str "u2")

/-- A password of 73 bytes, one more than bcrypt hashes. -/
def longPassword : String :=
  "aaaaaaaaaaaaaaaaaaaaaaaaaaaaaaaaaaaaaaaaaaaaaaaaaaaaaaaaaaaaaaaaaaaaaaaa1"

/-- The context of a registration request for `new@b.com` with the password of 73
bytes. -/
def longPasswordRequest : gin.Context :=
  { sampleRequest "POST" "/api/v1/auth/register" [] with
    Body := some [("email", "new@b.com"), ("password", longPassword), ("name", "Cy")] }

/-- The context of a registration request for `new@b.com`. -/
def sampleRegisterRequest : gin.Context :=
  { sampleRequest "POST" "/api/v1/auth/register" [] with
    Body := some [("email", "new@b.com"), ("password", "secret1"), ("name", "Cy")] }

/-! ## Theorems -/

open core.message

theorem queryRowScan_filter_eq_find {α : Type} (p : α → Bool) (l : List α) :
    queryRowScan (l.filter p) =
      match l.find? p with
      | none => .error .pgxErrNoRows
      | some r => .ok r := by
  induction l with
  | nil => rfl
  | cons a t ih =>
    by_cases h : p a = true
    · simp [List.filter_cons, List.find?_cons, h, queryRowScan]
    · simp only [Bool.not_eq_true] at h
      simp [List.filter_cons, List.find?_cons, h, ih]

theorem queryRowScan_selectOwner (db : DB) (id : String) :
    queryRowScan (selectOwner db id) =
      match db.findMessage id with
      | none => .error .pgxErrNoRows
      | some m => .ok m.UserID := by
  unfold selectOwner DB.findMessage
  induction db.messages with
  | nil => rfl
  | cons a t ih =>
    by_cases h : (a.ID == id) = true
    · simp [List.filter_cons, List.find?_cons, h, queryRowScan]
    · simp only [Bool.not_eq_true] at h
      simp [List.filter_cons, List.find?_cons, h, ih]

theorem queryRowScan_selectByID (db : DB) (id : String) :
    queryRowScan (selectByID db id) =
      match db.findMessage id with
      | none => .error .pgxErrNoRows
      | some m => .ok m := by
  unfold selectByID DB.findMessage
  have key := queryRowScan_filter_eq_find (fun m : Message => m.ID == id) db.messages
  cases h : List.find? (fun m : Message => m.ID == id) db.messages <;>
    simp only [h] at key ⊢ <;> exact key

theorem findMessage_eq_none_iff (db : DB) (id : String) :
    db.findMessage id = none ↔ ∀ m ∈ db.messages, m.ID ≠ id := by
  simp [DB.findMessage, List.find?_eq_none]

theorem findMessage_some_id {db : DB} {id : String} {m : Message}
    (h : db.findMessage id = some m) : m.ID = id := by
  have := List.find?_some h
  simpa using this

theorem findMessage_some_mem {db : DB} {id : String} {m : Message}
    (h : db.findMessage id = some m) : m ∈ db.messages :=
  List.mem_of_find?_eq_some h

theorem GetByID_eq (db : DB) (id : String) :
    Repository.GetByID db id =
      match db.findMessage id with
      | none => .error .ErrMessageNotFound
      | some m => .ok m := by
  unfold Repository.GetByID
  rw [queryRowScan_selectByID]
  cases db.findMessage id <;> simp [GoError.Is]

theorem Update_eq (db : DB) (now : Int) (id userID content : String) :
    Repository.Update db now id userID content =
      match db.findMessage id with
      | none => (some .ErrMessageNotFound, db)
      | some m =>
        if m.UserID = userID then execUpdate db now content id
        else (some .ErrForbidden, db) := by
  unfold Repository.Update
  rw [queryRowScan_selectOwner]
  cases db.findMessage id with
  | none => simp [GoError.Is]
  | some m => by_cases h : m.UserID = userID <;> simp [h]

theorem Delete_eq (db : DB) (id userID : String) :
    Repository.Delete db id userID =
      match db.findMessage id with
      | none => (some .ErrMessageNotFound, db)
      | some m =>
        if m.UserID = userID then execDelete db id
        else (some .ErrForbidden, db) := by
  unfold Repository.Delete
  rw [queryRowScan_selectOwner]
  cases db.findMessage id with
  | none => simp [GoError.Is]
  | some m => by_cases h : m.UserID = userID <;> simp [h]

theorem find?_map_of_pred_comp {α : Type} (p : α → Bool) (f : α → α)
    (hf : ∀ a, p (f a) = p a) (l : List α) :
    (l.map f).find? p = (l.find? p).map f := by
  induction l with
  | nil => rfl
  | cons a t ih =>
    by_cases h : p a = true
    · simp [List.find?_cons, hf, h]
    · simp only [Bool.not_eq_true] at h
      simp [List.find?_cons, hf, h, ih]

theorem findMessage_execUpdate (db : DB) (now : Int) (content id : String) :
    (execUpdate db now content id).2.findMessage id =
      (db.findMessage id).map
        (fun m => { m with Content := content, UpdatedAt := now }) := by
  unfold execUpdate DB.findMessage
  simp only
  rw [find?_map_of_pred_comp]
  · cases h : List.find? (fun m : Message => m.ID == id) db.messages with
    | none => rfl
    | some m =>
      have hid : (m.ID == id) = true :=
        List.find?_some (p := fun m : Message => m.ID == id) h
      have hid2 : m.ID = id := by simpa using hid
      simp [hid2]
  · intro a
    by_cases h : (a.ID == id) = true <;> simp [h]

theorem findMessage_execDelete (db : DB) (id : String) :
    (execDelete db id).2.findMessage id = none := by
  unfold execDelete DB.findMessage
  simp [List.find?_eq_none]

theorem filter_ne_eq_erase (l : List Message) (m : Message) (hm : m ∈ l)
    (hnd : (l.map (fun x => x.ID)).Nodup) :
    l.filter (fun x => !(x.ID == m.ID)) = l.erase m := by
  induction l with
  | nil => simp at hm
  | cons a t ih =>
    simp only [List.map_cons, List.nodup_cons, List.mem_map, not_exists, not_and] at hnd
    by_cases hma : a = m
    · subst hma
      have hall : ∀ x ∈ t, (!(x.ID == a.ID)) = true := by
        intro x hx
        have := hnd.1 x hx
        simpa using this
      simp [List.filter_cons, List.filter_eq_self.mpr hall]
    · have hmt : m ∈ t := by
        rcases List.mem_cons.mp hm with h | h
        · exact absurd h.symm hma
        · exact h
      have hne : a.ID ≠ m.ID := fun h => hnd.1 m hmt h.symm
      have hbeq : (a == m) = false := by simpa using hma
      simp [List.filter_cons, hne, List.erase_cons, hbeq, ih hmt hnd.2]

/-- C1. `Update` of a message: `ErrMessageNotFound` when no message with the id is
stored, `ErrForbidden` when the stored message with the id has another owner, and
otherwise success, after which the message stored under the id has the given content
(and the database's clock reading as update time). In the two failing cases the
database is the one the call started from. -/
theorem C1_update_outcomes (db : DB) (now : Int) (id userID content : String) :
    ((∀ m ∈ db.messages, m.ID ≠ id) →
      Service.Update db now id userID content = (some .ErrMessageNotFound, db)) ∧
    (∀ m, db.findMessage id = some m → m.UserID ≠ userID →
      Service.Update db now id userID content = (some .ErrForbidden, db)) ∧
    (∀ m, db.findMessage id = some m → m.UserID = userID →
      (Service.Update db now id userID content).1 = none ∧
      Service.GetByID (Service.Update db now id userID content).2 id =
        .ok { m with Content := content, UpdatedAt := now } ∧
      ∀ x ∈ (Service.Update db now id userID content).2.messages,
        x.ID = id → x.Content = content) := by
  refine ⟨?_, ?_, ?_⟩
  · intro h
    have hnone := (findMessage_eq_none_iff db id).mpr h
    simp [Service.Update, Update_eq, hnone]
  · intro m hm hne
    simp [Service.Update, Update_eq, hm, hne]
  · intro m hm ho
    have hupd : Service.Update db now id userID content = execUpdate db now content id := by
      simp [Service.Update, Update_eq, hm, ho]
    rw [hupd]
    refine ⟨rfl, ?_, ?_⟩
    · simp [Service.GetByID, GetByID_eq, findMessage_execUpdate, hm]
    · intro x hx hxid
      simp only [execUpdate, List.mem_map] at hx
      obtain ⟨y, _, rfl⟩ := hx
      by_cases hy : (y.ID == id) = true
      · simp [hy]
      · simp only [hy] at hxid
        simp at hxid hy
        exact absurd hxid hy

/-- Witness of C1 on `sampleDB`: an absent id, a foreign message and an own message. -/
theorem C1_update_outcomes_witness :
    Service.Update sampleDB 50 "9" "u1" "new" = (some .ErrMessageNotFound, sampleDB) ∧
    Service.Update sampleDB 50 "2" "u1" "new" = (some .ErrForbidden, sampleDB) ∧
    (Service.Update sampleDB 50 "1" "u1" "new").1 = none ∧
    Service.GetByID (Service.Update sampleDB 50 "1" "u1" "new").2 "1" =
      .ok { ID := "1", UserID := "u1", Content := "new", CreatedAt := 30, UpdatedAt := 50 } :=
  ⟨(C1_update_outcomes sampleDB 50 "9" "u1" "new").1 (by decide),
   (C1_update_outcomes sampleDB 50 "2" "u1" "new").2.1 sampleMessage2 (by decide) (by decide),
   ((C1_update_outcomes sampleDB 50 "1" "u1" "new").2.2 sampleMessage1
      (by decide) (by decide)).1,
   ((C1_update_outcomes sampleDB 50 "1" "u1" "new").2.2 sampleMessage1
      (by decide) (by decide)).2.1⟩

/-- C2. Mutation of a message is reserved to its owner. `Update` and `Delete` called
with an id that is not stored return `ErrMessageNotFound`, called with an acting user
that is not the owner of the stored message return `ErrForbidden`; the two errors are
different values, and in both cases the database is left exactly as it was. Conversely a
call that returns no error was made by the owner of the stored message. -/
theorem C2_mutation_only_by_owner (db : DB) (now : Int) (id userID content : String) :
    ((∀ m ∈ db.messages, m.ID ≠ id) →
      Service.Update db now id userID content = (some .ErrMessageNotFound, db) ∧
      Service.Delete db id userID = (some .ErrMessageNotFound, db)) ∧
    (∀ m, db.findMessage id = some m → m.UserID ≠ userID →
      Service.Update db now id userID content = (some .ErrForbidden, db) ∧
      Service.Delete db id userID = (some .ErrForbidden, db)) ∧
    GoError.ErrForbidden ≠ GoError.ErrMessageNotFound ∧
    ((Service.Update db now id userID content).1 = none →
      ∃ m, db.findMessage id = some m ∧ m.UserID = userID) ∧
    ((Service.Delete db id userID).1 = none →
      ∃ m, db.findMessage id = some m ∧ m.UserID = userID) := by
  refine ⟨?_, ?_, by decide, ?_, ?_⟩
  · intro h
    have hnone := (findMessage_eq_none_iff db id).mpr h
    simp [Service.Update, Service.Delete, Update_eq, Delete_eq, hnone]
  · intro m hm hne
    simp [Service.Update, Service.Delete, Update_eq, Delete_eq, hm, hne]
  · intro h
    simp only [Service.Update, Update_eq] at h
    cases hf : db.findMessage id with
    | none => simp [hf] at h
    | some m =>
      by_cases ho : m.UserID = userID
      · exact ⟨m, rfl, ho⟩
      · simp [hf, ho] at h
  · intro h
    simp only [Service.Delete, Delete_eq] at h
    cases hf : db.findMessage id with
    | none => simp [hf] at h
    | some m =>
      by_cases ho : m.UserID = userID
      · exact ⟨m, rfl, ho⟩
      · simp [hf, ho] at h

/-- Witness of C2 on `sampleDB`: an absent id and a message of another user. -/
theorem C2_mutation_only_by_owner_witness :
    (Service.Update sampleDB 50 "9" "u1" "new" = (some .ErrMessageNotFound, sampleDB) ∧
      Service.Delete sampleDB "9" "u1" = (some .ErrMessageNotFound, sampleDB)) ∧
    (Service.Update sampleDB 50 "2" "u1" "new" = (some .ErrForbidden, sampleDB) ∧
      Service.Delete sampleDB "2" "u1" = (some .ErrForbidden, sampleDB)) :=
  ⟨(C2_mutation_only_by_owner sampleDB 50 "9" "u1" "new").1 (by decide),
   (C2_mutation_only_by_owner sampleDB 50 "2" "u1" "new").2.1 sampleMessage2
      (by decide) (by decide)⟩

/-- C3. `Delete` of a stored message by its owner succeeds and removes the rows with
that id and no other row (with a primary key on `id`: exactly that record), after which
`GetByID` of the id fails with `ErrMessageNotFound`; the table of users is untouched.
The checks are those of `Update`: `ErrMessageNotFound` for an absent id, `ErrForbidden`
for a non-owner, and in every state the two calls return the same error value. -/
theorem C3_delete_removes_record (db : DB) (now : Int) (id userID content : String) :
    (∀ m, db.findMessage id = some m → m.UserID = userID →
      (Service.Delete db id userID).1 = none ∧
      (Service.Delete db id userID).2.messages =
        db.messages.filter (fun x => !(x.ID == id)) ∧
      (Service.Delete db id userID).2.users = db.users ∧
      ((db.messages.map (fun x => x.ID)).Nodup →
        (Service.Delete db id userID).2.messages = db.messages.erase m) ∧
      Service.GetByID (Service.Delete db id userID).2 id = .error .ErrMessageNotFound) ∧
    ((∀ m ∈ db.messages, m.ID ≠ id) →
      Service.Delete db id userID = (some .ErrMessageNotFound, db)) ∧
    (∀ m, db.findMessage id = some m → m.UserID ≠ userID →
      Service.Delete db id userID = (some .ErrForbidden, db)) ∧
    (Service.Delete db id userID).1 = (Service.Update db now id userID content).1 := by
  refine ⟨?_, ?_, ?_, ?_⟩
  · intro m hm ho
    have hdel : Service.Delete db id userID = execDelete db id := by
      simp [Service.Delete, Delete_eq, hm, ho]
    rw [hdel]
    refine ⟨rfl, rfl, rfl, ?_, ?_⟩
    · intro hnd
      have hid := findMessage_some_id hm
      subst hid
      exact filter_ne_eq_erase db.messages m (findMessage_some_mem hm) hnd
    · simp [Service.GetByID, GetByID_eq, findMessage_execDelete]
  · intro h
    have hnone := (findMessage_eq_none_iff db id).mpr h
    simp [Service.Delete, Delete_eq, hnone]
  · intro m hm hne
    simp [Service.Delete, Delete_eq, hm, hne]
  · simp only [Service.Delete, Service.Update, Delete_eq, Update_eq]
    cases hf : db.findMessage id with
    | none => rfl
    | some m => by_cases ho : m.UserID = userID <;> simp [ho, execDelete, execUpdate]

/-- Witness of C3 on `sampleDB`: user `u1` deletes the own message `1`. -/
theorem C3_delete_removes_record_witness :
    (Service.Delete sampleDB "1" "u1").1 = none ∧
    (Service.Delete sampleDB "1" "u1").2.messages = sampleDB.messages.erase sampleMessage1 ∧
    Service.GetByID (Service.Delete sampleDB "1" "u1").2 "1" = .error .ErrMessageNotFound :=
  have h := (C3_delete_removes_record sampleDB 50 "1" "u1" "new").1 sampleMessage1
    (by decide) (by decide)
  ⟨h.1, h.2.2.2.1 (by decide), h.2.2.2.2⟩

/-! ### User store and authentication service -/

open core.auth

theorem GetByEmail_eq (db : DB) (email : String) :
    Repository.GetByEmail db email =
      match db.findUser email with
      | none => .error .ErrUserNotFound
      | some u => .ok u := by
  unfold Repository.GetByEmail core.auth.selectByEmail DB.findUser
  have key := queryRowScan_filter_eq_find (fun u : User => u.Email == email) db.users
  cases h : List.find? (fun u : User => u.Email == email) db.users <;>
    simp only [h] at key ⊢ <;> simp [key, GoError.Is]

theorem findUser_eq_none_iff (db : DB) (email : String) :
    db.findUser email = none ↔ ∀ u ∈ db.users, u.Email ≠ email := by
  simp [DB.findUser, List.find?_eq_none]

theorem Login_unknown_email (B : Bcrypt) (J : pkg.auth.JWTLib) (getenv : String → String)
    (jwt : JWTConfig) (db : DB) (nowExp nowIat nowNbf : Int) (email password : String)
    (h : ∀ u ∈ db.users, u.Email ≠ email) :
    Service.Login B J getenv jwt db nowExp nowIat nowNbf email password =
      ("", some .ErrInvalidCredentials) := by
  have hnone := (findUser_eq_none_iff db email).mpr h
  simp [Service.Login, GetByEmail_eq, hnone, GoError.Is]

theorem Login_wrong_password (B : Bcrypt) (J : pkg.auth.JWTLib) (getenv : String → String)
    (jwt : JWTConfig) (db : DB) (nowExp nowIat nowNbf : Int) (email password : String)
    (u : User) (hu : db.findUser email = some u)
    (hpw : User.ComparePassword B u password = false) :
    Service.Login B J getenv jwt db nowExp nowIat nowNbf email password =
      ("", some .ErrInvalidCredentials) := by
  simp [Service.Login, GetByEmail_eq, hu, hpw]

theorem bindLoginRequest_ok (c : gin.Context) (email password : String)
    (he : email ≠ "") (hp : password ≠ "") :
    handlers.http.auth.bindLoginRequest
        { c with Body := some [("email", email), ("password", password)] } =
      .ok { Email := email, Password := password } := by
  have h1 : keyMatches "email" "email" = true := by decide
  have h2 : keyMatches "password" "email" = false := by decide
  have h3 : keyMatches "password" "password" = true := by decide
  simp [handlers.http.auth.bindLoginRequest, jsonField, List.find?_cons, h1, h2, h3, he,
    hp]

theorem Handler_Login_of_invalid_credentials (rt : Runtime)
    (next : gin.Context × DB → gin.Context × DB) (c : gin.Context) (db : DB)
    (email password : String) (he : email ≠ "") (hp : password ≠ "")
    (hlogin : Service.Login rt.bcrypt rt.jwtlib rt.getenv rt.jwt db
      rt.nowExp rt.nowIat rt.nowNbf email password = ("", some .ErrInvalidCredentials)) :
    handlers.http.auth.Handler.Login rt next
        ({ c with Body := some [("email", email), ("password", password)] }, db) =
      (({ c with Body := some [("email", email), ("password", password)] } :
          gin.Context).JSON 401 (.ofError { Error := "invalid email or password" }), db) := by
  unfold handlers.http.auth.Handler.Login
  simp only [bindLoginRequest_ok c email password he hp]
  simp [transport.http.LoginRequest.Validate, he, hp, hlogin, GoError.Is, GoError.Error,
    http.StatusUnauthorized]

/-- C4. Non-enumeration at login. `Login` with an email no stored user has, and `Login`
with the email of a stored user (the row the lookup by email returns) and a password
that user's hash does not match, both return the empty token with
`ErrInvalidCredentials`, whatever the password. For requests that bind (non-empty email
and password) the HTTP handler answers both with one and the same response, status 401
and body `ErrorResponse` "invalid email or password", and leaves the database as it
was. -/
theorem C4_login_non_enumeration (rt : Runtime) (db : DB) (emailUnknown emailKnown
    password : String) (u : User)
    (hunknown : ∀ v ∈ db.users, v.Email ≠ emailUnknown)
    (hknown : db.findUser emailKnown = some u)
    (hpw : User.ComparePassword rt.bcrypt u password = false) :
    Service.Login rt.bcrypt rt.jwtlib rt.getenv rt.jwt db rt.nowExp rt.nowIat rt.nowNbf
        emailUnknown password = ("", some .ErrInvalidCredentials) ∧
    Service.Login rt.bcrypt rt.jwtlib rt.getenv rt.jwt db rt.nowExp rt.nowIat rt.nowNbf
        emailKnown password = ("", some .ErrInvalidCredentials) ∧
    (emailUnknown ≠ "" → emailKnown ≠ "" → password ≠ "" →
      ∀ (next : gin.Context × DB → gin.Context × DB) (c : gin.Context),
        (handlers.http.auth.Handler.Login rt next
            ({ c with Body := some [("email", emailUnknown), ("password", password)] },
              db)).1.Written =
          c.Written ++ [(401, .ofError { Error := "invalid email or password" })] ∧
        (handlers.http.auth.Handler.Login rt next
            ({ c with Body := some [("email", emailKnown), ("password", password)] },
              db)).1.Written =
          c.Written ++ [(401, .ofError { Error := "invalid email or password" })] ∧
        (handlers.http.auth.Handler.Login rt next
            ({ c with Body := some [("email", emailUnknown), ("password", password)] },
              db)).2 = db ∧
        (handlers.http.auth.Handler.Login rt next
            ({ c with Body := some [("email", emailKnown), ("password", password)] },
              db)).2 = db) := by
  have h1 := Login_unknown_email rt.bcrypt rt.jwtlib rt.getenv rt.jwt db
    rt.nowExp rt.nowIat rt.nowNbf emailUnknown password hunknown
  have h2 := Login_wrong_password rt.bcrypt rt.jwtlib rt.getenv rt.jwt db
    rt.nowExp rt.nowIat rt.nowNbf emailKnown password u hknown hpw
  refine ⟨h1, h2, ?_⟩
  intro he1 he2 hp next c
  rw [Handler_Login_of_invalid_credentials rt next c db emailUnknown password he1 hp h1,
    Handler_Login_of_invalid_credentials rt next c db emailKnown password he2 hp h2]
  simp [gin.Context.JSON]

/-- Witness of C4 on `sampleDB`: an unknown email, and the email of user `u1` with a
password that is not theirs. -/
theorem C4_login_non_enumeration_witness :
    Service.Login tagBcrypt sampleRuntime.jwtlib sampleRuntime.getenv sampleRuntime.jwt
        sampleDB 1000000000000 1000000000000 1000000000000 "x@y.zz" "wrong1" =
      ("", some .ErrInvalidCredentials) ∧
    Service.Login tagBcrypt sampleRuntime.jwtlib sampleRuntime.getenv sampleRuntime.jwt
        sampleDB 1000000000000 1000000000000 1000000000000 "a@b.com" "wrong1" =
      ("", some .ErrInvalidCredentials) :=
  have h := C4_login_non_enumeration sampleRuntime sampleDB "x@y.zz" "a@b.com" "wrong1"
    { ID := "u1", Email := "a@b.com", PasswordHash := "h:secret1", Name := "Al",
      CreatedAt := 10, UpdatedAt := 10 }
    (by decide) (by decide) (by decide)
  ⟨h.1, h.2.1⟩

theorem Create_of_free (db : DB) (newID : String) (user : User)
    (h : ∀ v ∈ db.users, v.Email ≠ user.Email) :
    core.auth.Repository.Create db newID user =
      (none, { db with users := db.users ++ [{ user with ID := newID }] },
        { user with ID := newID }) := by
  have hf : db.users.filter (fun u => u.Email == user.Email) = [] := by
    simpa [List.filter_eq_nil_iff] using h
  simp [core.auth.Repository.Create, selectCountEmail, hf, queryRowScan, insertUser]

theorem Create_of_taken (db : DB) (newID : String) (user : User) (v : User)
    (hv : v ∈ db.users) (he : v.Email = user.Email) :
    core.auth.Repository.Create db newID user = (some .ErrEmailAlreadyExists, db, user) := by
  have hmem : v ∈ db.users.filter (fun u => u.Email == user.Email) := by
    simp [List.mem_filter, hv, he]
  have hpos : 0 < (db.users.filter (fun u => u.Email == user.Email)).length :=
    List.length_pos_of_mem hmem
  simp [core.auth.Repository.Create, selectCountEmail, queryRowScan, hpos]

theorem Register_users (B : Bcrypt) (db : DB) (rand : Nat) (now : Int)
    (newID email password name : String) :
    (Service.Register B db rand now newID email password name).2 = db ∨
    ((∀ v ∈ db.users, v.Email ≠ email) ∧
      ∃ u : User, u.Email = email ∧
        (Service.Register B db rand now newID email password name).2 =
          { db with users := db.users ++ [u] }) := by
  unfold Service.Register NewUser
  cases hh : B.GenerateFromPassword password Bcrypt.DefaultCost rand with
  | error err => exact Or.inl rfl
  | ok hashed =>
    by_cases hfree : ∀ v ∈ db.users, v.Email ≠ email
    · right
      refine ⟨hfree, ?_⟩
      simp only
      rw [Create_of_free db newID _ hfree]
      exact ⟨_, rfl, rfl⟩
    · left
      simp only [not_forall, not_not, exists_prop] at hfree
      obtain ⟨v, hv, he⟩ := hfree
      simp only
      rw [Create_of_taken db newID _ v hv he]

theorem Register_preserves_unique (B : Bcrypt) (db : DB) (rand : Nat) (now : Int)
    (newID email password name : String) (h : db.UniqueEmails) :
    (Service.Register B db rand now newID email password name).2.UniqueEmails := by
  rcases Register_users B db rand now newID email password name with h1 | ⟨hfree, u, hu, h2⟩
  · rw [h1]; exact h
  · rw [h2]
    unfold DB.UniqueEmails at h ⊢
    simp only [List.map_append, List.map_cons, List.map_nil]
    rw [List.nodup_append]
    refine ⟨h, by simp, ?_⟩
    intro a ha hb
    simp only [List.mem_singleton] at hb
    simp only [List.mem_map] at ha
    obtain ⟨v, hv, rfl⟩ := ha
    exact hfree v hv (hb.trans hu)

theorem registerAll_preserves_unique (B : Bcrypt) (calls : List RegisterCall) :
    ∀ db : DB, db.UniqueEmails → (registerAll B db calls).UniqueEmails := by
  induction calls with
  | nil => intro db h; exact h
  | cons call calls ih =>
    intro db h
    exact ih _ (Register_preserves_unique B db call.rand call.now call.newID
      call.email call.password call.name h)

/-- C5, counterexample. On `sampleDB`, where no user has the email `new@b.com`, with a
bcrypt that refuses passwords of more than 72 bytes as the library does: `Register` with
the password of 73 bytes fails and stores no user; and after a successful `Register` of
the email, a `Register` of the same email with the password of 73 bytes fails with the
error of bcrypt, which is not `ErrEmailAlreadyExists`. -/
theorem C5_long_password_fails_in_bcrypt :
    (∀ v ∈ sampleDB.users, v.Email ≠ "new@b.com") ∧
    longPassword.utf8ByteSize = 73 ∧
    Service.Register tagBcrypt sampleDB 7 50 "u3" "new@b.com" longPassword "Cy" =
      (.error (.other "bcrypt: password length exceeds 72 bytes"), sampleDB) ∧
    (Service.Register tagBcrypt sampleDB 7 50 "u3" "new@b.com" "secret1" "Cy").1 =
      .ok { ID := "u3", Email := "new@b.com", PasswordHash := "h:secret1", Name := "Cy",
            CreatedAt := 50, UpdatedAt := 50 } ∧
    (Service.Register tagBcrypt
        (Service.Register tagBcrypt sampleDB 7 50 "u3" "new@b.com" "secret1" "Cy").2
        8 60 "u4" "new@b.com" longPassword "Di").1 =
      .error (.other "bcrypt: password length exceeds 72 bytes") ∧
    (Service.Register tagBcrypt
        (Service.Register tagBcrypt sampleDB 7 50 "u3" "new@b.com" "secret1" "Cy").2
        8 60 "u4" "new@b.com" longPassword "Di").1 ≠ .error .ErrEmailAlreadyExists := by
  refine ⟨by decide, by decide, rfl, rfl, rfl, ?_⟩
  intro h
  have h2 : (Service.Register tagBcrypt
      (Service.Register tagBcrypt sampleDB 7 50 "u3" "new@b.com" "secret1" "Cy").2
      8 60 "u4" "new@b.com" longPassword "Di").1 =
      .error (.other "bcrypt: password length exceeds 72 bytes") := rfl
  rw [h2] at h
  cases h

/-- C5, amended. `Register` with an email that no stored user has succeeds when bcrypt
hashes the password: it returns the user with the identifier the database assigned and
stores that user after the existing ones. A following `Register` with the same email
never adds a user and never succeeds, whatever its password and name: it fails with
`ErrEmailAlreadyExists` when bcrypt hashes its password, and with the error of bcrypt
when bcrypt refuses it (the hash is computed before the store is asked). -/
theorem C5_register_duplicate_email (B : Bcrypt) (db : DB) (email : String)
    (rand1 : Nat) (now1 : Int) (newID1 password1 name1 hashed1 : String)
    (rand2 : Nat) (now2 : Int) (newID2 password2 name2 : String)
    (hfree : ∀ v ∈ db.users, v.Email ≠ email)
    (hhash1 : B.GenerateFromPassword password1 Bcrypt.DefaultCost rand1 = .ok hashed1) :
    Service.Register B db rand1 now1 newID1 email password1 name1 =
      (.ok { ID := newID1, Email := email, PasswordHash := hashed1, Name := name1,
             CreatedAt := now1, UpdatedAt := now1 },
        { db with users := db.users ++
            [{ ID := newID1, Email := email, PasswordHash := hashed1, Name := name1,
               CreatedAt := now1, UpdatedAt := now1 }] }) ∧
    (Service.Register B (Service.Register B db rand1 now1 newID1 email password1 name1).2
        rand2 now2 newID2 email password2 name2).2 =
      (Service.Register B db rand1 now1 newID1 email password1 name1).2 ∧
    (∃ err, (Service.Register B
        (Service.Register B db rand1 now1 newID1 email password1 name1).2
        rand2 now2 newID2 email password2 name2).1 = .error err) ∧
    (∀ hashed2, B.GenerateFromPassword password2 Bcrypt.DefaultCost rand2 = .ok hashed2 →
      (Service.Register B (Service.Register B db rand1 now1 newID1 email password1 name1).2
        rand2 now2 newID2 email password2 name2).1 = .error .ErrEmailAlreadyExists) ∧
    (∀ err, B.GenerateFromPassword password2 Bcrypt.DefaultCost rand2 = .error err →
      (Service.Register B (Service.Register B db rand1 now1 newID1 email password1 name1).2
        rand2 now2 newID2 email password2 name2).1 = .error err) := by
  have hfirst : Service.Register B db rand1 now1 newID1 email password1 name1 =
      (.ok { ID := newID1, Email := email, PasswordHash := hashed1, Name := name1,
             CreatedAt := now1, UpdatedAt := now1 },
        { db with users := db.users ++
            [{ ID := newID1, Email := email, PasswordHash := hashed1, Name := name1,
               CreatedAt := now1, UpdatedAt := now1 }] }) := by
    unfold Service.Register NewUser
    simp only [hhash1]
    rw [Create_of_free db newID1 _ hfree]
  refine ⟨hfirst, ?_⟩
  rw [hfirst]
  simp only
  unfold Service.Register NewUser
  cases hh : B.GenerateFromPassword password2 Bcrypt.DefaultCost rand2 with
  | error err =>
    refine ⟨rfl, ⟨err, rfl⟩, fun _ hc => by simp at hc, fun e he => ?_⟩
    cases he
    rfl
  | ok hashed =>
    simp only
    rw [Create_of_taken _ newID2
      { ID := "", Email := email, PasswordHash := hashed, Name := name2,
        CreatedAt := now2, UpdatedAt := now2 }
      { ID := newID1, Email := email, PasswordHash := hashed1, Name := name1,
        CreatedAt := now1, UpdatedAt := now1 } (by simp) rfl]
    exact ⟨rfl, ⟨_, rfl⟩, fun _ _ => rfl, fun _ hc => by simp at hc⟩

/-- Witness of C5 (amended): two registrations of `new@b.com` on `sampleDB`. -/
theorem C5_register_duplicate_email_witness :
    (Service.Register tagBcrypt sampleDB 7 50 "u3" "new@b.com" "secret1" "Cy").1 =
      .ok { ID := "u3", Email := "new@b.com", PasswordHash := "h:secret1", Name := "Cy",
            CreatedAt := 50, UpdatedAt := 50 } ∧
    (Service.Register tagBcrypt
        (Service.Register tagBcrypt sampleDB 7 50 "u3" "new@b.com" "secret1" "Cy").2
        8 60 "u4" "new@b.com" "other22" "Di").1 = .error .ErrEmailAlreadyExists ∧
    (Service.Register tagBcrypt
        (Service.Register tagBcrypt sampleDB 7 50 "u3" "new@b.com" "secret1" "Cy").2
        8 60 "u4" "new@b.com" "other22" "Di").2 =
      (Service.Register tagBcrypt sampleDB 7 50 "u3" "new@b.com" "secret1" "Cy").2 :=
  have h := C5_register_duplicate_email tagBcrypt sampleDB "new@b.com"
    7 50 "u3" "secret1" "Cy" "h:secret1" 8 60 "u4" "other22" "Di" (by decide) rfl
  ⟨congrArg Prod.fst h.1, h.2.2.2.1 "h:other22" rfl, h.2.1⟩

/-- C6. Email uniqueness is an invariant of the user store: a call of `Register`,
successful or failing, keeps it, and every database reached from one without users by a
sequence of calls of `Register` has no two stored users with the same email. -/
theorem C6_email_uniqueness_invariant (B : Bcrypt) (messages : List Message)
    (calls : List RegisterCall) :
    (registerAll B { users := [], messages := messages } calls).UniqueEmails ∧
    (∀ u ∈ (registerAll B { users := [], messages := messages } calls).users,
      ∀ v ∈ (registerAll B { users := [], messages := messages } calls).users,
        u.Email = v.Email → u = v) ∧
    (∀ (db : DB) (call : RegisterCall), db.UniqueEmails →
      (Service.Register B db call.rand call.now call.newID
        call.email call.password call.name).2.UniqueEmails) := by
  have hu : (registerAll B { users := [], messages := messages } calls).UniqueEmails :=
    registerAll_preserves_unique B calls _ (by simp [DB.UniqueEmails])
  refine ⟨hu, ?_, ?_⟩
  · intro u hu1 v hv he
    exact List.inj_on_of_nodup_map hu hu1 hv he
  · intro db call h
    exact Register_preserves_unique B db call.rand call.now call.newID
      call.email call.password call.name h

/-! ### Splitting of the authorization value -/

theorem splitChars_ne_nil (sep : Char) (l : List Char) : splitChars sep l ≠ [] := by
  cases l with
  | nil => simp [splitChars]
  | cons c cs =>
    unfold splitChars
    by_cases h : c = sep
    · simp [h]
    · simp only [h, if_false]
      cases splitChars sep cs <;> simp

theorem splitChars_eq_singleton (sep : Char) (l b : List Char) :
    splitChars sep l = [b] ↔ l = b ∧ sep ∉ l := by
  induction l generalizing b with
  | nil => simp [splitChars, eq_comm]
  | cons c cs ih =>
    unfold splitChars
    by_cases h : c = sep
    · subst h
      simp [splitChars_ne_nil]
    · simp only [h, if_false]
      cases hs : splitChars sep cs with
      | nil => exact absurd hs (splitChars_ne_nil sep cs)
      | cons p ps =>
        constructor
        · intro heq
          simp only [List.cons.injEq] at heq
          obtain ⟨h1, h2⟩ := heq
          subst h2
          have := (ih p).mp hs
          subst h1
          refine ⟨by rw [this.1], ?_⟩
          simp only [List.mem_cons, not_or]
          exact ⟨fun hc => h hc.symm, this.2⟩
        · rintro ⟨h1, h2⟩
          simp only [List.mem_cons, not_or] at h2
          have := (ih cs).mpr ⟨rfl, h2.2⟩
          rw [hs] at this
          simp only [List.cons.injEq] at this
          rw [← h1, this.1, this.2]

theorem splitChars_eq_pair (sep : Char) (l a b : List Char) :
    splitChars sep l = [a, b] ↔ l = a ++ sep :: b ∧ sep ∉ a ∧ sep ∉ b := by
  induction l generalizing a with
  | nil => simp [splitChars]
  | cons c cs ih =>
    unfold splitChars
    by_cases h : c = sep
    · subst h
      simp only [if_true, List.cons.injEq]
      constructor
      · rintro ⟨h1, h2⟩
        have := (splitChars_eq_singleton c cs b).mp h2
        subst h1
        exact ⟨by simp [this.1], by simp, this.1 ▸ this.2⟩
      · rintro ⟨h1, h2, h3⟩
        cases a with
        | nil =>
          simp only [List.nil_append, List.cons.injEq, true_and] at h1
          exact ⟨rfl, (splitChars_eq_singleton c cs b).mpr ⟨h1, h1 ▸ h3⟩⟩
        | cons x xs =>
          simp only [List.cons_append, List.cons.injEq] at h1
          exact absurd (by simp [h1.1]) h2
    · simp only [h, if_false]
      cases hs : splitChars sep cs with
      | nil => exact absurd hs (splitChars_ne_nil sep cs)
      | cons p ps =>
        constructor
        · intro heq
          simp only [List.cons.injEq] at heq
          obtain ⟨h1, h2⟩ := heq
          subst h2 h1
          have := (ih p).mp hs
          refine ⟨by simp [this.1], ?_, this.2.2⟩
          simp only [List.mem_cons, not_or]
          exact ⟨fun hc => h hc.symm, this.2.1⟩
        · rintro ⟨h1, h2, h3⟩
          cases a with
          | nil =>
            simp only [List.nil_append, List.cons.injEq] at h1
            exact absurd h1.1 h
          | cons x xs =>
            simp only [List.cons_append, List.cons.injEq] at h1
            simp only [List.mem_cons, not_or] at h2
            have := (ih xs).mpr ⟨h1.2, h2.2, h3⟩
            rw [hs] at this
            simp only [List.cons.injEq] at this
            rw [h1.1, this.1, this.2]

theorem stringsSplit_eq_bearer_pair (header tok : String) :
    stringsSplit header ' ' = ["Bearer", tok] ↔
      header = "Bearer " ++ tok ∧ ' ' ∉ tok.toList := by
  have hmk : ∀ l : List (List Char),
      l.map String.mk = ["Bearer", tok] ↔ l = ["Bearer".toList, tok.toList] := by
    intro l
    constructor
    · intro h
      have h2 := congrArg (List.map String.toList) h
      simpa [List.map_map, Function.comp_def] using h2
    · rintro rfl
      rfl
  unfold stringsSplit
  rw [hmk, splitChars_eq_pair]
  constructor
  · rintro ⟨h1, _, h3⟩
    refine ⟨?_, h3⟩
    apply String.ext
    simpa using h1
  · rintro ⟨h1, h3⟩
    refine ⟨?_, by decide, h3⟩
    rw [h1]
    simp

theorem bearer_parts_iff (parts : List String) :
    (parts.length != 2 || parts.getD 0 "" != "Bearer") = false ↔
      ∃ tok, parts = ["Bearer", tok] := by
  constructor
  · intro h
    simp only [Bool.or_eq_false_iff, bne_eq_false_iff_eq] at h
    obtain ⟨h1, h2⟩ := h
    match parts, h1, h2 with
    | [a, b], _, h2 =>
      simp only [List.getD_cons_zero] at h2
      exact ⟨b, by rw [h2]⟩
  · rintro ⟨tok, rfl⟩
    simp

theorem bearer_ne_empty (tok : String) : "Bearer " ++ tok ≠ "" := by
  intro h
  have := congrArg String.length h
  simp only [String.length_append] at this
  have h7 : "Bearer ".length = 7 := by decide
  rw [h7] at this
  have hlen : ("" : String).length = 0 := rfl
  rw [hlen] at this
  omega

/-! ### HTTP authentication middleware -/

theorem AuthMiddleware_no_header (rt : Runtime)
    (next : gin.Context × DB → gin.Context × DB) (c : gin.Context) (db : DB)
    (h : c.GetHeader "Authorization" = "") :
    middleware.AuthMiddleware rt next (c, db) =
      (c.AbortWithStatusJSON 401 (.H [("error", "Authorization header is required")]),
        db) := by
  simp [middleware.AuthMiddleware, h, http.StatusUnauthorized]

theorem AuthMiddleware_malformed (rt : Runtime)
    (next : gin.Context × DB → gin.Context × DB) (c : gin.Context) (db : DB)
    (h : c.GetHeader "Authorization" ≠ "")
    (hform : ¬ ∃ tok, c.GetHeader "Authorization" = "Bearer " ++ tok ∧ ' ' ∉ tok.toList) :
    middleware.AuthMiddleware rt next (c, db) =
      (c.AbortWithStatusJSON 401
        (.H [("error", "Authorization header format must be Bearer \x7btoken\x7d")]),
        db) := by
  have hparts : (((stringsSplit (c.GetHeader "Authorization") ' ').length != 2 ||
      (stringsSplit (c.GetHeader "Authorization") ' ').getD 0 "" != "Bearer")) = true := by
    rw [← Bool.not_eq_false, bearer_parts_iff]
    rintro ⟨tok, htok⟩
    exact hform ⟨tok, (stringsSplit_eq_bearer_pair _ tok).mp htok⟩
  unfold middleware.AuthMiddleware
  simp only [beq_iff_eq, h, if_false, hparts, if_true, http.StatusUnauthorized]

theorem AuthMiddleware_bearer (rt : Runtime)
    (next : gin.Context × DB → gin.Context × DB) (c : gin.Context) (db : DB)
    (tok : String) (h : c.GetHeader "Authorization" = "Bearer " ++ tok)
    (hsp : ' ' ∉ tok.toList) :
    middleware.AuthMiddleware rt next (c, db) =
      match pkg.auth.ValidateToken rt.jwtlib rt.getenv rt.now tok with
      | .error _ =>
        (c.AbortWithStatusJSON 401 (.H [("error", "Invalid or expired token")]), db)
      | .ok claims => next (c.Set "user_id" (.str claims.UserID), db) := by
  have hsplit : stringsSplit (c.GetHeader "Authorization") ' ' = ["Bearer", tok] :=
    (stringsSplit_eq_bearer_pair _ tok).mpr ⟨h, hsp⟩
  have hne : c.GetHeader "Authorization" ≠ "" := h ▸ bearer_ne_empty tok
  unfold middleware.AuthMiddleware
  simp only [beq_iff_eq, hne, if_false, hsplit, http.StatusUnauthorized]
  simp only [List.length_cons, List.length_nil, List.getD_cons_zero, bne_self_eq_false,
    Bool.or_self, Bool.false_eq_true, if_false, List.getD_cons_succ]

theorem runChain_of_abort (h : gin.HandlerFunc) (rest : List gin.HandlerFunc)
    (c : gin.Context) (db : DB) (status : Nat) (body : gin.ResponseBody)
    (hidx : c.index + 1 ≠ gin.abortIndex)
    (hh : h (gin.runChain rest) ({ c with index := c.index + 1 }, db) =
      (({ c with index := c.index + 1 } : gin.Context).AbortWithStatusJSON status body,
        db)) :
    gin.runChain (h :: rest) (c, db) =
      (({ c with index := c.index + 1 } : gin.Context).AbortWithStatusJSON status body,
        db) := by
  by_cases hp : c.Panicked.isSome = true
  · simp [gin.runChain, hh, gin.Context.AbortWithStatusJSON, gin.Context.JSON,
      gin.Context.Abort, hp]
  · have hne : ¬ (gin.abortIndex = c.index + 1) := fun h => hidx h.symm
    simp [gin.runChain, hh, gin.Context.AbortWithStatusJSON, gin.Context.JSON,
      gin.Context.Abort, hp, hne]

/-- C7. The HTTP `AuthMiddleware`. A request without `Authorization` header, with a
header that is not `Bearer ` followed by a token free of spaces, or with a token that
`ValidateToken` rejects, is aborted with status 401 (`c.Next()` is not called, and in a
chain the handlers after the middleware do not run: the outcome is the same for every
rest of the chain). A request whose token `ValidateToken` accepts goes on to the
following handlers with `user_id` set to the user identifier of the token's claims. -/
theorem C7_http_auth_middleware (rt : Runtime) (c : gin.Context) (db : DB) :
    (c.GetHeader "Authorization" = "" →
      ∀ next, middleware.AuthMiddleware rt next (c, db) =
        (c.AbortWithStatusJSON 401 (.H [("error", "Authorization header is required")]),
          db)) ∧
    (c.GetHeader "Authorization" ≠ "" →
      (¬ ∃ tok, c.GetHeader "Authorization" = "Bearer " ++ tok ∧ ' ' ∉ tok.toList) →
      ∀ next, middleware.AuthMiddleware rt next (c, db) =
        (c.AbortWithStatusJSON 401
          (.H [("error", "Authorization header format must be Bearer \x7btoken\x7d")]),
          db)) ∧
    (∀ tok err, c.GetHeader "Authorization" = "Bearer " ++ tok → ' ' ∉ tok.toList →
      pkg.auth.ValidateToken rt.jwtlib rt.getenv rt.now tok = .error err →
      ∀ next, middleware.AuthMiddleware rt next (c, db) =
        (c.AbortWithStatusJSON 401 (.H [("error", "Invalid or expired token")]), db)) ∧
    (∀ tok claims, c.GetHeader "Authorization" = "Bearer " ++ tok → ' ' ∉ tok.toList →
      pkg.auth.ValidateToken rt.jwtlib rt.getenv rt.now tok = .ok claims →
      (∀ next, middleware.AuthMiddleware rt next (c, db) =
        next (c.Set "user_id" (.str claims.UserID), db)) ∧
      (c.Set "user_id" (.str claims.UserID)).Get "user_id" = some (.str claims.UserID)) ∧
    ((¬ ∃ tok claims, c.GetHeader "Authorization" = "Bearer " ++ tok ∧ ' ' ∉ tok.toList ∧
        pkg.auth.ValidateToken rt.jwtlib rt.getenv rt.now tok = .ok claims) →
      c.index + 1 ≠ gin.abortIndex →
      ∃ body, ∀ rest, gin.runChain (middleware.AuthMiddleware rt :: rest) (c, db) =
        (({ c with index := c.index + 1 } : gin.Context).AbortWithStatusJSON 401 body, db) ∧
        (({ c with index := c.index + 1 } : gin.Context).AbortWithStatusJSON 401
          body).IsAborted = true) := by
  refine ⟨?_, ?_, ?_, ?_, ?_⟩
  · intro h next
    exact AuthMiddleware_no_header rt next c db h
  · intro h hform next
    exact AuthMiddleware_malformed rt next c db h hform
  · intro tok err h hsp hv next
    rw [AuthMiddleware_bearer rt next c db tok h hsp, hv]
  · intro tok claims h hsp hv
    refine ⟨fun next => ?_, ?_⟩
    · rw [AuthMiddleware_bearer rt next c db tok h hsp, hv]
    · simp [gin.Context.Set, gin.Context.Get, List.lookup]
  · intro hrej hidx
    have habort : ∀ body, (({ c with index := c.index + 1 } :
        gin.Context).AbortWithStatusJSON 401 body).IsAborted = true := by
      intro body
      simp [gin.Context.AbortWithStatusJSON, gin.Context.JSON, gin.Context.Abort,
        gin.Context.IsAborted]
    have hhdr : ∀ k, ({ c with index := c.index + 1 } : gin.Context).GetHeader k =
        c.GetHeader k := fun _ => rfl
    by_cases h0 : c.GetHeader "Authorization" = ""
    · refine ⟨_, fun rest => ⟨runChain_of_abort _ rest c db 401 _ hidx
        (AuthMiddleware_no_header rt _ _ db (by rw [hhdr]; exact h0)), habort _⟩⟩
    · by_cases hform : ∃ tok, c.GetHeader "Authorization" = "Bearer " ++ tok ∧
          ' ' ∉ tok.toList
      · obtain ⟨tok, htok, hsp⟩ := hform
        cases hv : pkg.auth.ValidateToken rt.jwtlib rt.getenv rt.now tok with
        | ok claims => exact absurd ⟨tok, claims, htok, hsp, hv⟩ hrej
        | error err =>
          refine ⟨.H [("error", "Invalid or expired token")],
            fun rest => ⟨runChain_of_abort _ rest c db 401 _ hidx ?_, habort _⟩⟩
          rw [AuthMiddleware_bearer rt _ _ db tok (by rw [hhdr]; exact htok) hsp, hv]
      · refine ⟨_, fun rest => ⟨runChain_of_abort _ rest c db 401 _ hidx
          (AuthMiddleware_malformed rt _ _ db (by rw [hhdr]; exact h0)
            (by rw [hhdr]; exact hform)), habort _⟩⟩

/-- Witness of C7: a request without header is aborted, a request with the token of
user `u1` goes on with `user_id` set to `u1`. -/
theorem C7_http_auth_middleware_witness :
    (∀ next, middleware.AuthMiddleware sampleRuntime next
        (sampleRequest "GET" "/api/v1/auth/me" [], sampleDB) =
      ((sampleRequest "GET" "/api/v1/auth/me" []).AbortWithStatusJSON 401
        (.H [("error", "Authorization header is required")]), sampleDB)) ∧
    (∀ next, middleware.AuthMiddleware sampleRuntime next
        (sampleRequest "GET" "/api/v1/auth/me" [("Authorization", "Bearer tok-u1")],
          sampleDB) =
      next ((sampleRequest "GET" "/api/v1/auth/me"
        [("Authorization", "Bearer tok-u1")]).Set "user_id" (.str "u1"), sampleDB)) :=
  ⟨(C7_http_auth_middleware sampleRuntime
      (sampleRequest "GET" "/api/v1/auth/me" []) sampleDB).1 (by decide),
   ((C7_http_auth_middleware sampleRuntime
      (sampleRequest "GET" "/api/v1/auth/me" [("Authorization", "Bearer tok-u1")])
      sampleDB).2.2.2.1 "tok-u1" sampleClaims (by decide) (by decide) rfl).1⟩

/-! ### gRPC authentication interceptor -/

theorem isPublicMethod_iff (method : String) :
    middleware.isPublicMethod method = true ↔
      method = "/auth.AuthService/Register" ∨ method = "/auth.AuthService/Login" := by
  simp only [middleware.isPublicMethod, List.any_cons, List.any_nil, Bool.or_false,
    Bool.or_eq_true, beq_iff_eq]
  constructor
  · rintro (h | h)
    · exact Or.inr h.symm
    · exact Or.inl h.symm
  · rintro (h | h)
    · exact Or.inr h.symm
    · exact Or.inl h.symm

theorem GRPCAuth_bearer (rt : Runtime) {Req Resp : Type} (ctx : grpc.Context) (req : Req)
    (fullMethod : String) (handler : grpc.Context → Req → Option Resp × Option GoError)
    (md : grpc.MD) (header : String) (rest : List String) (tok : String)
    (hpub : middleware.isPublicMethod fullMethod = false)
    (hmd : ctx.incomingMD = some md) (hval : md.Get "authorization" = header :: rest)
    (hhdr : header = "Bearer " ++ tok) (hsp : ' ' ∉ tok.toList) :
    middleware.GRPCAuth rt ctx req fullMethod handler =
      match pkg.auth.ValidateToken rt.jwtlib rt.getenv rt.now tok with
      | .error err =>
        (none, some (.status .Unauthenticated ("invalid token: " ++ err.Error)))
      | .ok claims =>
        handler (ctx.WithValue middleware.UserIDKey (.str claims.UserID)) req := by
  have hsplit : stringsSplit header ' ' = ["Bearer", tok] :=
    (stringsSplit_eq_bearer_pair _ tok).mpr ⟨hhdr, hsp⟩
  unfold middleware.GRPCAuth
  simp only [hpub, Bool.false_eq_true, if_false, hmd, hval, List.length_cons,
    List.getD_cons_zero, hsplit]
  simp

theorem GRPCAuth_rejects (rt : Runtime) {Req Resp : Type} (ctx : grpc.Context) (req : Req)
    (fullMethod : String)
    (hpub : middleware.isPublicMethod fullMethod = false)
    (hrej : ¬ ∃ md header rest tok claims, ctx.incomingMD = some md ∧
      md.Get "authorization" = header :: rest ∧ header = "Bearer " ++ tok ∧
      ' ' ∉ tok.toList ∧
      pkg.auth.ValidateToken rt.jwtlib rt.getenv rt.now tok = .ok claims) :
    ∃ msg, ∀ handler : grpc.Context → Req → Option Resp × Option GoError,
      middleware.GRPCAuth rt ctx req fullMethod handler =
        (none, some (.status .Unauthenticated msg)) := by
  cases hmd : ctx.incomingMD with
  | none =>
    refine ⟨"metadata is required", fun handler => ?_⟩
    simp [middleware.GRPCAuth, hpub, hmd]
  | some md =>
    cases hval : md.Get "authorization" with
    | nil =>
      refine ⟨"authorization token is required", fun handler => ?_⟩
      simp [middleware.GRPCAuth, hpub, hmd, hval]
    | cons header rest =>
      by_cases hform : ∃ tok, header = "Bearer " ++ tok ∧ ' ' ∉ tok.toList
      · obtain ⟨tok, hhdr, hsp⟩ := hform
        cases hv : pkg.auth.ValidateToken rt.jwtlib rt.getenv rt.now tok with
        | ok claims => exact absurd ⟨md, header, rest, tok, claims, hmd, hval, hhdr, hsp, hv⟩ hrej
        | error err =>
          refine ⟨"invalid token: " ++ err.Error, fun handler => ?_⟩
          rw [GRPCAuth_bearer rt ctx req fullMethod handler md header rest tok hpub hmd hval
            hhdr hsp, hv]
      · have hparts : (((stringsSplit header ' ').length != 2 ||
            (stringsSplit header ' ').getD 0 "" != "Bearer")) = true := by
          rw [← Bool.not_eq_false, bearer_parts_iff]
          rintro ⟨tok, htok⟩
          exact hform ⟨tok, (stringsSplit_eq_bearer_pair _ tok).mp htok⟩
        refine ⟨"invalid authorization format, expected \'Bearer \x7btoken\x7d\'",
          fun handler => ?_⟩
        unfold middleware.GRPCAuth
        simp only [hpub, Bool.false_eq_true, if_false, hmd, hval, List.length_cons,
          List.getD_cons_zero, hparts, if_true]
        simp

/-- C8. On the RPC transport `isPublicMethod` is true exactly for
`/auth.AuthService/Register` and `/auth.AuthService/Login`. For these `GRPCAuth` calls
the handler on the unchanged context, whatever the metadata. For every other method it
calls the handler only when the first `authorization` value of the metadata is `Bearer `
followed by a token free of spaces that `ValidateToken` accepts, on the context extended
with the user identifier of the claims (which `GetUserIDFromContext` reads back), and
otherwise returns an `Unauthenticated` status without response, the same for every
handler. -/
theorem C8_grpc_auth (rt : Runtime) (Req Resp : Type) (ctx : grpc.Context) (req : Req)
    (fullMethod : String) :
    (middleware.isPublicMethod fullMethod = true ↔
      fullMethod = "/auth.AuthService/Register" ∨ fullMethod = "/auth.AuthService/Login") ∧
    (middleware.isPublicMethod fullMethod = true →
      ∀ handler : grpc.Context → Req → Option Resp × Option GoError,
        middleware.GRPCAuth rt ctx req fullMethod handler = handler ctx req) ∧
    (middleware.isPublicMethod fullMethod = false →
      ∀ md header rest tok claims, ctx.incomingMD = some md →
        md.Get "authorization" = header :: rest → header = "Bearer " ++ tok →
        ' ' ∉ tok.toList →
        pkg.auth.ValidateToken rt.jwtlib rt.getenv rt.now tok = .ok claims →
        (∀ handler : grpc.Context → Req → Option Resp × Option GoError,
          middleware.GRPCAuth rt ctx req fullMethod handler =
            handler (ctx.WithValue middleware.UserIDKey (.str claims.UserID)) req) ∧
        middleware.GetUserIDFromContext
            (ctx.WithValue middleware.UserIDKey (.str claims.UserID)) =
          (claims.UserID, none)) ∧
    (middleware.isPublicMethod fullMethod = false →
      (¬ ∃ md header rest tok claims, ctx.incomingMD = some md ∧
        md.Get "authorization" = header :: rest ∧ header = "Bearer " ++ tok ∧
        ' ' ∉ tok.toList ∧
        pkg.auth.ValidateToken rt.jwtlib rt.getenv rt.now tok = .ok claims) →
      ∃ msg, ∀ handler : grpc.Context → Req → Option Resp × Option GoError,
        middleware.GRPCAuth rt ctx req fullMethod handler =
          (none, some (.status .Unauthenticated msg))) := by
  refine ⟨isPublicMethod_iff fullMethod, ?_, ?_, ?_⟩
  · intro hpub handler
    simp [middleware.GRPCAuth, hpub]
  · intro hpub md header rest tok claims hmd hval hhdr hsp hv
    refine ⟨fun handler => ?_, ?_⟩
    · rw [GRPCAuth_bearer rt ctx req fullMethod handler md header rest tok hpub hmd hval
        hhdr hsp, hv]
    · simp [middleware.GetUserIDFromContext, grpc.Context.WithValue, grpc.Context.Value,
        List.lookup]
  · intro hpub hrej
    exact GRPCAuth_rejects rt ctx req fullMethod hpub hrej

/-- Witness of C8: `Login` is public; `GetCurrentUser` with the token of user `u1` reaches
the handler with the identifier attached, and without metadata is refused. -/
theorem C8_grpc_auth_witness :
    (∀ handler : grpc.Context → Unit → Option String × Option GoError,
      middleware.GRPCAuth sampleRuntime { incomingMD := none, values := [] } ()
        "/auth.AuthService/Login" handler =
      handler { incomingMD := none, values := [] } ()) ∧
    (∀ handler : grpc.Context → Unit → Option String × Option GoError,
      middleware.GRPCAuth sampleRuntime
        { incomingMD := some [("authorization", ["Bearer tok-u1"])], values := [] } ()
        "/auth.AuthService/GetCurrentUser" handler =
      handler ((⟨some [("authorization", ["Bearer tok-u1"])], []⟩ :
        grpc.Context).WithValue middleware.UserIDKey (.str "u1")) ()) :=
  ⟨(C8_grpc_auth sampleRuntime Unit String { incomingMD := none, values := [] } ()
      "/auth.AuthService/Login").2.1 (by decide),
   ((C8_grpc_auth sampleRuntime Unit String
      { incomingMD := some [("authorization", ["Bearer tok-u1"])], values := [] } ()
      "/auth.AuthService/GetCurrentUser").2.2.1 (by decide)
      [("authorization", ["Bearer tok-u1"])] "Bearer tok-u1" [] "tok-u1" sampleClaims
      rfl (by decide) (by decide) (by decide) rfl).1⟩

/-! ### HTTP routes -/

theorem findRoute_list (rt : Runtime) :
    app.findRoute (app.registerHTTPRoutes rt) "GET" "/api/v1/messages" =
      some ({ Method := "GET", Path := "/api/v1/messages",
              Handlers := [handlers.http.message.Handler.GetAll rt] }, []) := by
  rfl

theorem findRoute_get_by_id (rt : Runtime) (path id : String)
    (hpath : stringsSplit path '/' = ["", "api", "v1", "messages", id]) (hid : id ≠ "") :
    app.findRoute (app.registerHTTPRoutes rt) "GET" path =
      some ({ Method := "GET", Path := "/api/v1/messages/:id",
              Handlers := [middleware.AuthMiddleware rt,
                handlers.http.message.Handler.Get rt] }, [("id", id)]) := by
  have h1 : stringsSplit "/api/v1/auth/me" '/' = ["", "api", "v1", "auth", "me"] := by
    decide
  have h2 : stringsSplit "/api/v1/messages" '/' = ["", "api", "v1", "messages"] := by
    decide
  have h3 : stringsSplit "/api/v1/messages/:id" '/' =
      ["", "api", "v1", "messages", ":id"] := by decide
  have hpost : ("POST" == "GET") = false := by decide
  have hparam : ∀ segs : List String, app.matchSegments [":id"] segs =
      match segs with
      | [seg] => if seg == "" then none else some [("id", seg)]
      | _ => none := by
    intro segs
    match segs with
    | [] => rfl
    | [seg] =>
      show (if seg == "" then none
        else (app.matchSegments [] []).map (fun ps => (String.mk ['i', 'd'], seg) :: ps)) = _
      by_cases hs : seg = "" <;> simp [hs, app.matchSegments]
    | seg :: seg2 :: rest =>
      show (if seg == "" then none
        else (app.matchSegments [] (seg2 :: rest)).map
          (fun ps => (String.mk ['i', 'd'], seg) :: ps)) = _
      by_cases hs : seg = "" <;> simp [hs, app.matchSegments]
  have hlit : ∀ (a : String) (pats segs : List String) (b : String),
      a.toList.head? ≠ some ':' →
      app.matchSegments (a :: pats) (b :: segs) =
        if a == b then app.matchSegments pats segs else none := by
    intro a pats segs b hne
    rw [app.matchSegments]
    split
    · rename_i name hname
      exact absurd (by rw [hname]; rfl) hne
    · rfl
  have hme : app.matchSegments ["", "api", "v1", "auth", "me"]
      ["", "api", "v1", "messages", id] = none := by
    rw [hlit _ _ _ _ (by decide), hlit _ _ _ _ (by decide), hlit _ _ _ _ (by decide),
      hlit _ _ _ _ (by decide)]
    simp
  have hlist : app.matchSegments ["", "api", "v1", "messages"]
      ["", "api", "v1", "messages", id] = none := by
    rw [hlit _ _ _ _ (by decide), hlit _ _ _ _ (by decide), hlit _ _ _ _ (by decide),
      hlit _ _ _ _ (by decide)]
    simp [app.matchSegments]
  have hid2 : app.matchSegments ["", "api", "v1", "messages", ":id"]
      ["", "api", "v1", "messages", id] = some [("id", id)] := by
    rw [hlit _ _ _ _ (by decide), hlit _ _ _ _ (by decide), hlit _ _ _ _ (by decide),
      hlit _ _ _ _ (by decide), hparam]
    simp [hid]
  simp only [app.findRoute, app.registerHTTPRoutes, List.findSome?, hpost, app.matchPath,
    hpath, h1, h2, h3, hme, hlist, hid2, Bool.false_eq_true, if_false, beq_self_eq_true,
    if_true, Option.map_none', Option.map_some']

/-- C9, counterexample. `GET /api/v1/messages/1` without bearer token on `sampleDB`: the
message is stored, so the lookup of the handler `Get` would succeed, but the request is
rejected with 401 by the `AuthMiddleware` of the route and the handler writes nothing. -/
theorem C9_get_by_id_requires_token :
    core.message.Service.GetByID sampleDB "1" = .ok sampleMessage1 ∧
    (app.ServeHTTP sampleRuntime (sampleRequest "GET" "/api/v1/messages/1" [])
        sampleDB).1.Written =
      [(401, .H [("error", "Authorization header is required")])] ∧
    (app.ServeHTTP sampleRuntime (sampleRequest "GET" "/api/v1/messages/1" [])
        sampleDB).1.IsAborted = true := by
  refine ⟨rfl, ?_, ?_⟩
  · decide
  · decide

theorem runChain_auth_accept (rt : Runtime) (c : gin.Context) (db : DB)
    (tok : String) (claims : pkg.auth.Claims) (rest : List gin.HandlerFunc)
    (hhdr : c.GetHeader "Authorization" = "Bearer " ++ tok) (hsp : ' ' ∉ tok.toList)
    (hv : pkg.auth.ValidateToken rt.jwtlib rt.getenv rt.now tok = .ok claims) :
    gin.runChain (middleware.AuthMiddleware rt :: rest) (c, db) =
      if (gin.runChain rest (({ c with index := c.index + 1 } : gin.Context).Set "user_id"
          (.str claims.UserID), db)).1.Panicked.isSome then
        gin.runChain rest (({ c with index := c.index + 1 } : gin.Context).Set "user_id"
          (.str claims.UserID), db)
      else if (gin.runChain rest (({ c with index := c.index + 1 } : gin.Context).Set
          "user_id" (.str claims.UserID), db)).1.index == c.index + 1 then
        gin.runChain rest (gin.runChain rest (({ c with index := c.index + 1 } :
          gin.Context).Set "user_id" (.str claims.UserID), db))
      else
        gin.runChain rest (({ c with index := c.index + 1 } : gin.Context).Set "user_id"
          (.str claims.UserID), db) := by
  rw [gin.runChain]
  simp only
  rw [AuthMiddleware_bearer rt _ { c with index := c.index + 1 } db tok hhdr hsp, hv]

/-- C9, amended. Listing is public and getting by id is protected. Every `GET
/api/v1/messages`, with or without token, reaches `GetAll` and is answered 200 with all
stored messages. A `GET /api/v1/messages/<id>` without `Authorization` header is aborted
with 401 by `AuthMiddleware` and `Get` does not run; with a token `ValidateToken` accepts
it reaches `Get`, which answers 200 with the message when the lookup succeeds. The
database is unchanged in each case. -/
theorem C9_list_public_get_protected (rt : Runtime) (c : gin.Context) (db : DB) :
    (c.Method = "GET" → c.Path = "/api/v1/messages" →
      (app.ServeHTTP rt c db).1.Written =
        c.Written ++ [(200, .ofMessages
          ((core.message.selectAll db).map handlers.http.message.toResponse))] ∧
      (app.ServeHTTP rt c db).2 = db) ∧
    (∀ id, c.Method = "GET" →
      stringsSplit c.Path '/' = ["", "api", "v1", "messages", id] → id ≠ "" →
      c.GetHeader "Authorization" = "" →
      app.ServeHTTP rt c db =
        (({ c with Params := [("id", id)], index := 0 } : gin.Context).AbortWithStatusJSON
          401 (.H [("error", "Authorization header is required")]), db)) ∧
    (∀ id tok claims m, c.Method = "GET" →
      stringsSplit c.Path '/' = ["", "api", "v1", "messages", id] → id ≠ "" →
      c.GetHeader "Authorization" = "Bearer " ++ tok → ' ' ∉ tok.toList →
      pkg.auth.ValidateToken rt.jwtlib rt.getenv rt.now tok = .ok claims →
      core.message.Service.GetByID db id = .ok m →
      (app.ServeHTTP rt c db).1.Written =
        c.Written ++ [(200, .ofMessage (handlers.http.message.toResponse m))] ∧
      (app.ServeHTTP rt c db).2 = db) := by
  refine ⟨?_, ?_, ?_⟩
  · intro hm hp
    unfold app.ServeHTTP
    rw [hm, hp, findRoute_list]
    cases hpan : c.Panicked <;>
      simp [gin.runChain, handlers.http.message.Handler.GetAll, core.message.Service.GetAll,
        core.message.Repository.GetAll, gin.Context.JSON, hpan, http.StatusOK]
  · intro id hm hsplit hid hhdr
    have hfr := findRoute_get_by_id rt c.Path id hsplit hid
    rw [← hm] at hfr
    unfold app.ServeHTTP
    rw [hfr]
    simp only
    have hidx : ({ c with Params := [("id", id)], index := -1 } : gin.Context).index + 1 ≠
        gin.abortIndex := by
      simp [gin.abortIndex]
    have := runChain_of_abort (middleware.AuthMiddleware rt)
      [handlers.http.message.Handler.Get rt]
      { c with Params := [("id", id)], index := -1 } db 401
      (.H [("error", "Authorization header is required")]) hidx
      (AuthMiddleware_no_header rt _ _ db hhdr)
    simpa using this
  · intro id tok claims m hm hsplit hid hhdr hsp hv hget
    have hfr := findRoute_get_by_id rt c.Path id hsplit hid
    rw [← hm] at hfr
    unfold app.ServeHTTP
    rw [hfr]
    simp only
    rw [runChain_auth_accept rt { c with Params := [("id", id)], index := -1 } db tok claims
      _ hhdr hsp hv]
    have hget2 : core.message.Service.GetByID db id = .ok m := hget
    cases hpan : c.Panicked <;>
      simp [gin.runChain, handlers.http.message.Handler.Get, gin.Context.Param,
        gin.Context.Set, List.lookup, hget2, gin.Context.JSON, hpan, http.StatusOK]

/-- Witness of C9 (amended) on `sampleDB`: `GET /api/v1/messages` without token lists the
three messages, newest first. -/
theorem C9_list_public_get_protected_witness :
    (app.ServeHTTP sampleRuntime (sampleRequest "GET" "/api/v1/messages" [])
        sampleDB).1.Written =
      [(200, .ofMessages
        [ { ID := "3", UserID := "u1", Content := "re", CreatedAt := 45, UpdatedAt := 45 },
          { ID := "2", UserID := "u2", Content := "yo", CreatedAt := 40, UpdatedAt := 40 },
          { ID := "1", UserID := "u1", Content := "hi", CreatedAt := 30, UpdatedAt := 30 } ])] :=
  ((C9_list_public_get_protected sampleRuntime
    (sampleRequest "GET" "/api/v1/messages" []) sampleDB).1 rfl rfl).1

/-! ### Token round trip -/

theorem singleTokenJWT_lawful (token : String) (claims : pkg.auth.Claims) (key : String) :
    (pkg.auth.singleTokenJWT token claims key).Lawful := by
  refine ⟨?_, ?_, ?_⟩
  · intro t
    simp only [pkg.auth.singleTokenJWT]
    omega
  · intro c k tok now hsign hnbf hexp
    simp only [pkg.auth.singleTokenJWT] at hsign ⊢
    by_cases hc : c = claims ∧ k = key
    · obtain ⟨rfl, rfl⟩ := hc
      simp only [and_self, if_true, Except.ok.injEq] at hsign
      subst hsign
      have h1 : (match c.ExpiresAt with
          | some e => decide (e ≤ now)
          | none => false) = false := by
        cases he : c.ExpiresAt with
        | none => rfl
        | some e => simpa using hexp e he
      have h2 : (match c.NotBefore with
          | some n => decide (now < n)
          | none => false) = false := by
        cases hn : c.NotBefore with
        | none => rfl
        | some n => simpa using hnbf n hn
      simp [h1, h2]
    · simp [hc] at hsign
  · intro c k tok now e hsign he hle
    simp only [pkg.auth.singleTokenJWT] at hsign ⊢
    by_cases hc : c = claims ∧ k = key
    · obtain ⟨rfl, rfl⟩ := hc
      simp only [and_self, if_true, Except.ok.injEq] at hsign
      subst hsign
      simp [he, hle]
    · simp [hc] at hsign

theorem wrapInt64_hours (hours : Int) (hlo : 1 ≤ hours) (hhi : hours ≤ 2562047) :
    pkg.auth.wrapInt64 (hours * pkg.auth.Hour) = hours * pkg.auth.Hour := by
  unfold pkg.auth.wrapInt64 pkg.auth.Hour
  have h1 : (0 : Int) ≤ hours * 3600000000000 + 2 ^ 63 := by
    have : (0 : Int) ≤ hours * 3600000000000 := by positivity
    positivity
  have h2 : hours * 3600000000000 + 2 ^ 63 < (2 : Int) ^ 64 := by
    norm_num
    omega
  rw [Int.emod_eq_of_lt h1 h2]
  ring

theorem Login_success (B : Bcrypt) (J : pkg.auth.JWTLib) (getenv : String → String)
    (jwt : JWTConfig) (db : DB) (nowExp nowIat nowNbf : Int) (email password token : String)
    (h : Service.Login B J getenv jwt db nowExp nowIat nowNbf email password =
      (token, none)) :
    ∃ u, db.findUser email = some u ∧ User.ComparePassword B u password = true ∧
      J.SignedString
        (pkg.auth.tokenClaims J nowExp nowIat nowNbf u.ID u.Email jwt.ExpirationHours)
        (pkg.auth.secretKey getenv) = .ok token := by
  simp only [Service.Login, GetByEmail_eq] at h
  cases hf : db.findUser email with
  | none => simp [hf, GoError.Is] at h
  | some u =>
    simp only [hf] at h
    by_cases hc : User.ComparePassword B u password = true
    · refine ⟨u, rfl, hc, ?_⟩
      simp only [hc, Bool.not_true, Bool.false_eq_true, if_false, User.GenerateToken,
        pkg.auth.GenerateToken] at h
      cases hs : J.SignedString
          (pkg.auth.tokenClaims J nowExp nowIat nowNbf u.ID u.Email jwt.ExpirationHours)
          (pkg.auth.secretKey getenv) with
      | error err => simp [hs] at h
      | ok tok =>
        simp only [hs, Prod.mk.injEq, and_true] at h
        rw [h]
    · simp [hc] at h

/-- C10, counterexample. With a configured expiry of 2562048 hours the product
`time.Duration(expirationHours) * time.Hour` leaves the range of `int64` and wraps to a
negative duration: the login of user `u1` at instant `1000000000000` succeeds and returns
a token whose expiry lies before the issue time, and `ValidateToken` at the issue time
rejects it with `ErrExpiredToken`. The JWT library is a lawful one. -/
theorem C10_expiry_overflow :
    (1 : Int) ≤ 2562048 ∧
    pkg.auth.wrapInt64 (2562048 * pkg.auth.Hour) = -9223371273709551616 ∧
    overflowJWT.Lawful ∧
    Service.Login tagBcrypt overflowJWT (fun _ => "")
        { Secret := "", ExpirationHours := 2562048 } sampleDB
        1000000000000 1000000000000 1000000000000 "a@b.com" "secret1" =
      ("tok-long", none) ∧
    overflowClaims.ExpiresAt = some (-9223370274000000000) ∧
    pkg.auth.ValidateToken overflowJWT (fun _ => "") 1000000000000 "tok-long" =
      .error .ErrExpiredToken := by
  refine ⟨by decide, by decide, singleTokenJWT_lawful _ _ _, ?_, by decide, ?_⟩
  · rfl
  · rfl

/-- C10, amended. Token round trip for a configured expiry between 1 and 2562047 hours
(the values for which the expiry in nanoseconds fits `int64`). The token of a successful
`Login` is accepted by `ValidateToken` at every instant from the last clock reading of
`GenerateToken` up to one second before the expiry, the issue time among them, and the
claims it yields carry the identifier and the email of the logged-in user and, as expiry,
the numeric date of the issue time plus the configured number of hours. The JWT library
is any lawful one. -/
theorem C10_token_round_trip (B : Bcrypt) (J : pkg.auth.JWTLib) (getenv : String → String)
    (jwt : JWTConfig) (db : DB) (nowExp nowIat nowNbf now : Int)
    (email password token : String)
    (hJ : J.Lawful)
    (hlo : 1 ≤ jwt.ExpirationHours) (hhi : jwt.ExpirationHours ≤ 2562047)
    (hnbf : nowNbf ≤ now)
    (hnow : now + 1000000000 ≤ nowExp + jwt.ExpirationHours * pkg.auth.Hour)
    (hlogin : Service.Login B J getenv jwt db nowExp nowIat nowNbf email password =
      (token, none)) :
    ∃ u claims, db.findUser email = some u ∧ u.Email = email ∧
      pkg.auth.ValidateToken J getenv now token = .ok claims ∧
      claims.UserID = u.ID ∧ claims.Email = u.Email ∧
      claims.ExpiresAt =
        some (J.NewNumericDate (nowExp + jwt.ExpirationHours * pkg.auth.Hour)) := by
  obtain ⟨u, hu, _, hsign⟩ :=
    Login_success B J getenv jwt db nowExp nowIat nowNbf email password token hlogin
  obtain ⟨htrunc, hround, _⟩ := hJ
  have hemail : u.Email = email := by
    have := List.find?_some (p := fun v : User => v.Email == email) hu
    simpa using this
  have hwrap := wrapInt64_hours jwt.ExpirationHours hlo hhi
  have hparse := hround _ _ _ now hsign
    (by
      intro n hn
      simp only [pkg.auth.tokenClaims, Option.some.injEq] at hn
      have := (htrunc nowNbf).1
      omega)
    (by
      intro e he
      simp only [pkg.auth.tokenClaims, Option.some.injEq, hwrap] at he
      have := (htrunc (nowExp + jwt.ExpirationHours * pkg.auth.Hour)).2
      omega)
  refine ⟨u, pkg.auth.tokenClaims J nowExp nowIat nowNbf u.ID u.Email jwt.ExpirationHours,
    hu, hemail, ?_, rfl, rfl, ?_⟩
  · simp only [pkg.auth.ValidateToken, hparse]
    rfl
  · simp only [pkg.auth.tokenClaims, hwrap]

/-- Witness of C10 (amended): the login of user `u1` with an expiry of 24 hours, and the
validation of the token at the issue time. -/
theorem C10_token_round_trip_witness :
    ∃ u claims, sampleDB.findUser "a@b.com" = some u ∧ u.Email = "a@b.com" ∧
      pkg.auth.ValidateToken sampleRuntime.jwtlib (fun _ => "") 1000000000000 "tok-u1" =
        .ok claims ∧
      claims.UserID = u.ID ∧ claims.Email = u.Email ∧
      claims.ExpiresAt = some (sampleRuntime.jwtlib.NewNumericDate
        (1000000000000 + 24 * pkg.auth.Hour)) :=
  C10_token_round_trip tagBcrypt sampleRuntime.jwtlib (fun _ => "")
    { Secret := "", ExpirationHours := 24 } sampleDB
    1000000000000 1000000000000 1000000000000 1000000000000 "a@b.com" "secret1" "tok-u1"
    (singleTokenJWT_lawful _ _ _) (by decide) (by decide) (by decide) (by decide) rfl

/-! ### Registration followed by login -/

theorem Register_ok (B : Bcrypt) (db : DB) (rand : Nat) (now : Int)
    (newID email password name : String) (user : User) (db' : DB)
    (h : Service.Register B db rand now newID email password name = (.ok user, db')) :
    ∃ hashed, B.GenerateFromPassword password Bcrypt.DefaultCost rand = .ok hashed ∧
      (∀ v ∈ db.users, v.Email ≠ email) ∧
      user = { ID := newID, Email := email, PasswordHash := hashed, Name := name,
               CreatedAt := now, UpdatedAt := now } ∧
      db' = { db with users := db.users ++ [user] } := by
  unfold Service.Register NewUser at h
  cases hh : B.GenerateFromPassword password Bcrypt.DefaultCost rand with
  | error err => simp [hh] at h
  | ok hashed =>
    simp only [hh] at h
    by_cases hfree : ∀ v ∈ db.users, v.Email ≠ email
    · rw [Create_of_free db newID _ hfree] at h
      simp only [Prod.mk.injEq, Except.ok.injEq] at h
      exact ⟨hashed, rfl, hfree, h.1.symm, by rw [← h.2, ← h.1]⟩
    · simp only [not_forall, not_not, exists_prop] at hfree
      obtain ⟨v, hv, he⟩ := hfree
      rw [Create_of_taken db newID
        { ID := "", Email := email, PasswordHash := hashed, Name := name,
          CreatedAt := now, UpdatedAt := now } v hv he] at h
      simp at h

theorem findUser_append_new (db : DB) (user : User)
    (hfree : ∀ v ∈ db.users, v.Email ≠ user.Email) :
    ({ db with users := db.users ++ [user] } : DB).findUser user.Email = some user := by
  have hnone : db.users.find? (fun u => u.Email == user.Email) = none := by
    simpa [List.find?_eq_none] using hfree
  simp [DB.findUser, List.find?_append, hnone]

/-- C11. Registration followed by login, for a bcrypt whose comparison accepts the hashes
it generates. When `Register` succeeds, the user it returns is the one the lookup by
email finds in the database it leaves, `ComparePassword` accepts the registering password
for the stored hash, and `Login` with the same email and password is the outcome of
signing the token: it returns the token with no error when the JWT library signs, so the
credentials are not refused. -/
theorem C11_register_then_login (B : Bcrypt) (J : pkg.auth.JWTLib)
    (getenv : String → String) (jwt : JWTConfig) (db : DB) (rand : Nat) (now : Int)
    (newID email password name : String) (nowExp nowIat nowNbf : Int)
    (user : User) (db' : DB) (token : String)
    (hB : B.Lawful)
    (hreg : Service.Register B db rand now newID email password name = (.ok user, db'))
    (hsign : J.SignedString
      (pkg.auth.tokenClaims J nowExp nowIat nowNbf user.ID user.Email jwt.ExpirationHours)
      (pkg.auth.secretKey getenv) = .ok token) :
    db'.findUser email = some user ∧
    User.ComparePassword B user password = true ∧
    Service.Login B J getenv jwt db' nowExp nowIat nowNbf email password = (token, none) ∧
    Service.Login B J getenv jwt db' nowExp nowIat nowNbf email password =
      User.GenerateToken J getenv nowExp nowIat nowNbf user jwt.ExpirationHours := by
  obtain ⟨hashed, hh, hfree, huser, hdb⟩ :=
    Register_ok B db rand now newID email password name user db' hreg
  have hemail : user.Email = email := by rw [huser]
  have hfind : db'.findUser email = some user := by
    rw [hdb, ← hemail]
    exact findUser_append_new db user (by rw [hemail]; exact hfree)
  have hcmp : User.ComparePassword B user password = true := by
    have := hB password Bcrypt.DefaultCost rand hashed hh
    simp [User.ComparePassword, huser, this]
  have hgen : User.GenerateToken J getenv nowExp nowIat nowNbf user jwt.ExpirationHours =
      (token, none) := by
    simp [User.GenerateToken, pkg.auth.GenerateToken, hsign]
  refine ⟨hfind, hcmp, ?_, ?_⟩
  · simp [Service.Login, GetByEmail_eq, hfind, hcmp, hgen]
  · simp [Service.Login, GetByEmail_eq, hfind, hcmp, hgen]

theorem tagBcrypt_lawful : tagBcrypt.Lawful := by
  intro password cost rand hashed h
  simp only [tagBcrypt] at h ⊢
  by_cases hlen : password.utf8ByteSize ≤ 72
  · simp only [hlen, if_true, Except.ok.injEq] at h
    simp [h]
  · simp [hlen] at h

/-- Witness of C11: user `u1` registers on the empty database and logs in. -/
theorem C11_register_then_login_witness :
    Service.Login tagBcrypt sampleRuntime.jwtlib (fun _ => "")
        { Secret := "", ExpirationHours := 24 }
        { users := [{ ID := "u1", Email := "a@b.com", PasswordHash := "h:secret1",
                      Name := "Al", CreatedAt := 10, UpdatedAt := 10 }], messages := [] }
        1000000000000 1000000000000 1000000000000 "a@b.com" "secret1" = ("tok-u1", none) :=
  (C11_register_then_login tagBcrypt sampleRuntime.jwtlib (fun _ => "")
    { Secret := "", ExpirationHours := 24 } emptyDB 7 10 "u1" "a@b.com" "secret1" "Al"
    1000000000000 1000000000000 1000000000000
    { ID := "u1", Email := "a@b.com", PasswordHash := "h:secret1", Name := "Al",
      CreatedAt := 10, UpdatedAt := 10 }
    { users := [{ ID := "u1", Email := "a@b.com", PasswordHash := "h:secret1",
                  Name := "Al", CreatedAt := 10, UpdatedAt := 10 }], messages := [] }
    "tok-u1" tagBcrypt_lawful rfl rfl).2.2.1

/-! ### Creation and update of messages -/

theorem Service_Create_eq (db : DB) (now : Int) (newID userID content : String) :
    Service.Create db now newID userID content =
      (.ok { ID := newID, UserID := userID, Content := content, CreatedAt := now,
             UpdatedAt := now },
        { db with messages := db.messages ++
            [{ ID := newID, UserID := userID, Content := content, CreatedAt := now,
               UpdatedAt := now }] }) := by
  simp [Service.Create, core.message.Repository.Create, insertMessage, queryRowScan,
    NewMessage]

theorem findMessage_append_new (db : DB) (m : Message)
    (hfresh : ∀ x ∈ db.messages, x.ID ≠ m.ID) :
    ({ db with messages := db.messages ++ [m] } : DB).findMessage m.ID = some m := by
  have hnone : db.messages.find? (fun x => x.ID == m.ID) = none := by
    simpa [List.find?_eq_none] using hfresh
  simp [DB.findMessage, List.find?_append, hnone]

/-- C12. A created message is retrievable at once. When `Create` succeeds and returns
the message `m` under an identifier the store assigned that no stored message has,
`GetByID` of `m.ID` on the database `Create` left succeeds and returns `m`, whose content
and owning user are the ones passed to `Create`. -/
theorem C12_create_then_get (db : DB) (now : Int) (newID userID content : String)
    (m : Message) (db' : DB)
    (hfresh : ∀ x ∈ db.messages, x.ID ≠ newID)
    (hcreate : Service.Create db now newID userID content = (.ok m, db')) :
    Service.GetByID db' m.ID = .ok m ∧ m.Content = content ∧ m.UserID = userID ∧
      m.ID = newID := by
  rw [Service_Create_eq] at hcreate
  simp only [Prod.mk.injEq, Except.ok.injEq] at hcreate
  obtain ⟨hm, hdb⟩ := hcreate
  subst hm
  refine ⟨?_, rfl, rfl, rfl⟩
  rw [← hdb]
  simp only [Service.GetByID, GetByID_eq]
  rw [findMessage_append_new db _ hfresh]

/-- Witness of C12: user `u2` creates a message on `sampleDB` under the fresh
identifier `4`. -/
theorem C12_create_then_get_witness :
    Service.GetByID (Service.Create sampleDB 50 "4" "u2" "hello").2 "4" =
      .ok { ID := "4", UserID := "u2", Content := "hello", CreatedAt := 50,
            UpdatedAt := 50 } :=
  (C12_create_then_get sampleDB 50 "4" "u2" "hello"
    { ID := "4", UserID := "u2", Content := "hello", CreatedAt := 50, UpdatedAt := 50 }
    (Service.Create sampleDB 50 "4" "u2" "hello").2 (by decide) rfl).1

/-- C20, counterexample. A message is created when the clock of the program reads 100
(`NewMessage` stamps it with `time.Now()`), and its owner updates it when the clock of
the database reads 50 (`updated_at = NOW()`): the update succeeds and the update time of
the message goes from 100 back to 50. -/
theorem C20_update_time_goes_back :
    Service.Create emptyDB 100 "1" "u1" "hi" =
      (.ok { ID := "1", UserID := "u1", Content := "hi", CreatedAt := 100,
             UpdatedAt := 100 },
       { users := [],
         messages := [{ ID := "1", UserID := "u1", Content := "hi", CreatedAt := 100,
                        UpdatedAt := 100 }] }) ∧
    Service.Update (Service.Create emptyDB 100 "1" "u1" "hi").2 50 "1" "u1" "new" =
      (none,
       { users := [],
         messages := [{ ID := "1", UserID := "u1", Content := "new", CreatedAt := 100,
                        UpdatedAt := 50 }] }) ∧
    ¬ ((100 : Int) ≤ 50) := by
  refine ⟨rfl, rfl, by decide⟩

/-- C20, amended. Frame of a successful `Update` of message `id`, run when the database
clock reads `now`. The table of users is untouched; the table of messages keeps its
length and its order, and row by row: identifier, owner and creation time are unchanged,
a row with another identifier is unchanged, and a row with the identifier `id` has the
new content and `now` as update time, which is not earlier than its previous update time
when the reading `now` is not earlier than it. -/
theorem C20_update_frame (db : DB) (now : Int) (id userID content : String) (db' : DB)
    (hupd : Service.Update db now id userID content = (none, db')) :
    db'.users = db.users ∧
    db'.messages.length = db.messages.length ∧
    List.Forall₂ (fun x y : Message =>
        y.ID = x.ID ∧ y.UserID = x.UserID ∧ y.CreatedAt = x.CreatedAt ∧
        (x.ID ≠ id → y = x) ∧
        (x.ID = id → y.Content = content ∧ y.UpdatedAt = now) ∧
        (x.UpdatedAt ≤ now → x.UpdatedAt ≤ y.UpdatedAt))
      db.messages db'.messages := by
  have hexec : db' = (execUpdate db now content id).2 := by
    simp only [Service.Update, Update_eq] at hupd
    cases hf : db.findMessage id with
    | none => simp [hf] at hupd
    | some m =>
      by_cases ho : m.UserID = userID
      · simp only [hf, ho, if_true] at hupd
        rw [hupd]
      · simp [hf, ho] at hupd
  subst hexec
  refine ⟨rfl, by simp [execUpdate], ?_⟩
  simp only [execUpdate]
  rw [List.forall₂_map_right_iff]
  apply List.forall₂_same.mpr
  intro x hx
  by_cases hid : x.ID = id
  · simp [hid]
  · simp [hid]

/-- Witness of C20 (amended): user `u1` updates the own message `1` of `sampleDB` at
instant 50; the row `1` gets the content and the instant, the two other rows are as they
were. -/
theorem C20_update_frame_witness :
    Service.Update sampleDB 50 "1" "u1" "new" =
      (none, { sampleDB with messages :=
        [{ ID := "1", UserID := "u1", Content := "new", CreatedAt := 30, UpdatedAt := 50 },
         sampleMessage2,
         { ID := "3", UserID := "u1", Content := "re", CreatedAt := 45,
           UpdatedAt := 45 }] }) ∧
    List.Forall₂ (fun x y : Message =>
        y.ID = x.ID ∧ y.UserID = x.UserID ∧ y.CreatedAt = x.CreatedAt ∧
        (x.ID ≠ "1" → y = x) ∧
        (x.ID = "1" → y.Content = "new" ∧ y.UpdatedAt = 50) ∧
        (x.UpdatedAt ≤ 50 → x.UpdatedAt ≤ y.UpdatedAt))
      sampleDB.messages (Service.Update sampleDB 50 "1" "u1" "new").2.messages :=
  ⟨rfl,
   (C20_update_frame sampleDB 50 "1" "u1" "new" (Service.Update sampleDB 50 "1" "u1" "new").2
     rfl).2.2⟩

/-! ### Validation of the HTTP requests -/

open transport.http

theorem CreateValidate_isSome_iff (content : String) :
    (CreateMessageRequest.Validate { Content := content }).isSome = true ↔
      content = "" ∨ 1000 < content.utf8ByteSize := by
  unfold CreateMessageRequest.Validate
  by_cases h1 : content = ""
  · simp [h1]
  · by_cases h2 : 1000 < content.utf8ByteSize <;> simp [h1, h2]

theorem UpdateValidate_isSome_iff (content : String) :
    (UpdateMessageRequest.Validate { Content := content }).isSome = true ↔
      content = "" ∨ 1000 < content.utf8ByteSize := by
  unfold UpdateMessageRequest.Validate
  by_cases h1 : content = ""
  · simp [h1]
  · by_cases h2 : 1000 < content.utf8ByteSize <;> simp [h1, h2]

theorem utf8ByteSize_go_ascii (l : List Char) (h : ∀ ch ∈ l, ch.toNat < 128) :
    String.utf8ByteSize.go l = l.length := by
  induction l with
  | nil => rfl
  | cons a t ih =>
    have ha : a.toNat < 128 := h a (List.mem_cons_self a t)
    have hsize : a.utf8Size = 1 := by
      have hle : a.val ≤ 127 := by
        show a.val.toNat ≤ 127
        have : a.toNat = a.val.toNat := rfl
        omega
      simp [Char.utf8Size, hle]
    simp only [String.utf8ByteSize.go, List.length_cons, hsize]
    rw [ih (fun ch hch => h ch (List.mem_cons_of_mem a hch))]

theorem utf8ByteSize_ascii (content : String) (h : ∀ ch ∈ content.toList, ch.toNat < 128) :
    content.utf8ByteSize = content.length := by
  cases content with
  | mk l => exact utf8ByteSize_go_ascii l h

/-- C13, the code at a content of 334 euro signs. The content is not empty and has 334
characters, which is at most 1000; both validations reject it with the text `content
must be less than 1000 characters`, because `len` counts the 1002 bytes of its encoding,
and the handler `Create` answers the request of the authenticated user `u1` with 400 and
that text, leaving the database as it is. -/
theorem C13_multibyte_content_rejected :
    euroContent ≠ "" ∧ euroContent.length = 334 ∧ euroContent.utf8ByteSize = 1002 ∧
    CreateMessageRequest.Validate { Content := euroContent } =
      some (.other "content must be less than 1000 characters") ∧
    UpdateMessageRequest.Validate { Content := euroContent } =
      some (.other "content must be less than 1000 characters") ∧
    handlers.http.message.Handler.Create sampleRuntime id
        ({ sampleRequest "POST" "/api/v1/messages" [] with
            Body := some [("content", euroContent)], Keys := [("user_id", .str "u1")] },
          sampleDB) =
      (({ sampleRequest "POST" "/api/v1/messages" [] with
            Body := some [("content", euroContent)], Keys := [("user_id", .str "u1")] } :
          gin.Context).JSON 400
        (.ofError { Error := "content must be less than 1000 characters" }), sampleDB) := by
  have hlen : euroContent.length = 334 := by
    show (List.replicate 334 (Char.ofNat 8364)).length = 334
    exact List.length_replicate 334 (Char.ofNat 8364)
  have hne : euroContent ≠ "" := by
    intro h
    rw [h] at hlen
    exact absurd hlen (by decide)
  have hgo : ∀ n : Nat, String.utf8ByteSize.go (List.replicate n (Char.ofNat 8364)) =
      3 * n := by
    intro n
    induction n with
    | zero => rfl
    | succ k ih =>
      have h3 : (Char.ofNat 8364).utf8Size = 3 := by decide
      simp only [List.replicate_succ, String.utf8ByteSize.go, ih, h3]
      omega
  have hsize : euroContent.utf8ByteSize = 1002 := by
    show String.utf8ByteSize.go (List.replicate 334 (Char.ofNat 8364)) = 1002
    rw [hgo]
  have hkey : keyMatches "content" "content" = true := by decide
  refine ⟨hne, hlen, hsize, ?_, ?_, ?_⟩
  · simp [CreateMessageRequest.Validate, hne, hsize]
  · simp [UpdateMessageRequest.Validate, hne, hsize]
  · simp [handlers.http.message.Handler.Create,
      handlers.http.message.bindCreateMessageRequest, sampleRequest, jsonField,
      List.find?_cons, hkey, hne, hsize, CreateMessageRequest.Validate,
      http.StatusBadRequest, GoError.Error]

theorem RegisterValidate_none_iff (email password name : String) :
    RegisterRequest.Validate { Email := email, Password := password, Name := name } = none ↔
      5 ≤ email.utf8ByteSize ∧ 6 ≤ password.utf8ByteSize ∧ 2 ≤ name.utf8ByteSize := by
  unfold RegisterRequest.Validate
  by_cases h1 : email.utf8ByteSize < 5
  · simp [h1]
  · by_cases h2 : password.utf8ByteSize < 6
    · simp [h1, h2]
    · by_cases h3 : name.utf8ByteSize < 2
      · simp [h1, h2, h3]
      · simp only [h1, h2, h3, if_false, true_iff]
        omega

/-- C14, the code at a name of one character. The request with email `new@b.com`,
password `secret1` and a name of the single character U+00E9 violates the bound of two
characters on the name; `RegisterRequest.Validate` accepts it, because `len` counts the
two bytes of the encoding, and the handler `Register` registers the user and answers
201 where the bound asks for 400. -/
theorem C14_one_character_name_accepted :
    accentName.length = 1 ∧ accentName.utf8ByteSize = 2 ∧
    RegisterRequest.Validate
      { Email := "new@b.com", Password := "secret1", Name := accentName } = none ∧
    (handlers.http.auth.Handler.Register sampleRuntime id
        ({ sampleRequest "POST" "/api/v1/auth/register" [] with
            Body := some [("email", "new@b.com"), ("password", "secret1"),
              ("name", accentName)] }, sampleDB)).1.Written =
      [(201, .ofUser { ID := "u3", Email := "new@b.com", Name := accentName,
                       CreatedAt := 1000000000000 })] ∧
    (handlers.http.auth.Handler.Register sampleRuntime id
        ({ sampleRequest "POST" "/api/v1/auth/register" [] with
            Body := some [("email", "new@b.com"), ("password", "secret1"),
              ("name", accentName)] }, sampleDB)).2.users.length =
      sampleDB.users.length + 1 := by
  decide

/-! ### Validation of the gRPC requests -/

theorem longContent_size : longContent.utf8ByteSize = 1001 ∧ longContent.length = 1001 := by
  have hlen : longContent.length = 1001 := by
    show (List.replicate 1001 'a').length = 1001
    exact List.length_replicate 1001 'a'
  refine ⟨?_, hlen⟩
  rw [utf8ByteSize_ascii longContent ?_, hlen]
  intro ch hch
  have hch2 : ch ∈ List.replicate 1001 'a' := hch
  rw [List.eq_of_mem_replicate hch2]
  decide

theorem longContent_ne_empty : longContent ≠ "" := by
  intro h
  have := longContent_size.2
  rw [h] at this
  exact absurd this (by decide)

theorem Server_CreateMessage_of_nonempty (rt : Runtime) (formatRFC3339 : Int → String)
    (ctx : grpc.Context) (userID content : String) (db : DB)
    (hctx : middleware.GetUserIDFromContext ctx = (userID, none))
    (hne : content ≠ "") :
    handlers.grpc.message.Server.CreateMessage rt formatRFC3339 ctx
        { Content := content } db =
      ((some (handlers.grpc.message.toResponse formatRFC3339
          { ID := rt.newID, UserID := userID, Content := content, CreatedAt := rt.now,
            UpdatedAt := rt.now }), none),
        { db with messages := db.messages ++
            [{ ID := rt.newID, UserID := userID, Content := content, CreatedAt := rt.now,
               UpdatedAt := rt.now }] }) := by
  simp [handlers.grpc.message.Server.CreateMessage, hne, hctx, Service_Create_eq]

theorem Server_UpdateMessage_of_nonempty (rt : Runtime) (ctx : grpc.Context)
    (userID id content : String) (db : DB)
    (hctx : middleware.GetUserIDFromContext ctx = (userID, none))
    (hid : id ≠ "") (hne : content ≠ "") :
    handlers.grpc.message.Server.UpdateMessage rt ctx { Id := id, Content := content } db =
      match core.message.Service.Update db rt.now id userID content with
      | (some err, db') =>
        ((none, some (.status (handlers.grpc.message.mutationCode err) err.Error)), db')
      | (none, db') => ((some {}, none), db') := by
  simp only [handlers.grpc.message.Server.UpdateMessage, beq_iff_eq, hid, hne, if_false,
    hctx]

/-- C15, the code at the failing input. The content of 1001 letters `a` is rejected by
the HTTP validations of create and update, and the RPC adapter takes it: `CreateMessage`
of user `u1` on `sampleDB` returns no error and stores a message with that content, and
`UpdateMessage` of the own message `1` returns no error and stores the content. -/
theorem C15_rpc_accepts_long_content :
    longContent.utf8ByteSize = 1001 ∧ longContent.length = 1001 ∧
    (CreateMessageRequest.Validate { Content := longContent }).isSome = true ∧
    (UpdateMessageRequest.Validate { Content := longContent }).isSome = true ∧
    (handlers.grpc.message.Server.CreateMessage sampleRuntime sampleFormat sampleGrpcContext
      { Content := longContent } sampleDB).1.2 = none ∧
    (handlers.grpc.message.Server.CreateMessage sampleRuntime sampleFormat sampleGrpcContext
      { Content := longContent } sampleDB).2.messages =
      sampleDB.messages ++
        [{ ID := "u3", UserID := "u1", Content := longContent,
           CreatedAt := 1000000000000, UpdatedAt := 1000000000000 }] ∧
    (handlers.grpc.message.Server.UpdateMessage sampleRuntime sampleGrpcContext
      { Id := "1", Content := longContent } sampleDB).1.2 = none ∧
    core.message.Service.GetByID
      (handlers.grpc.message.Server.UpdateMessage sampleRuntime sampleGrpcContext
        { Id := "1", Content := longContent } sampleDB).2 "1" =
      .ok { ID := "1", UserID := "u1", Content := longContent, CreatedAt := 30,
            UpdatedAt := 1000000000000 } := by
  have hsize := longContent_size
  have hctx : middleware.GetUserIDFromContext sampleGrpcContext = ("u1", none) := rfl
  have hcreate := Server_CreateMessage_of_nonempty sampleRuntime sampleFormat
    sampleGrpcContext "u1" longContent sampleDB hctx longContent_ne_empty
  have hupdate := Server_UpdateMessage_of_nonempty sampleRuntime sampleGrpcContext
    "u1" "1" longContent sampleDB hctx (by decide) longContent_ne_empty
  have hfind : sampleDB.findMessage "1" = some sampleMessage1 := by decide
  have hsvc : core.message.Service.Update sampleDB sampleRuntime.now "1" "u1" longContent =
      execUpdate sampleDB sampleRuntime.now longContent "1" := by
    simp [Service.Update, Update_eq, hfind, sampleMessage1]
  rw [hsvc] at hupdate
  refine ⟨hsize.1, hsize.2, ?_, ?_, ?_, ?_, ?_, ?_⟩
  · exact (CreateValidate_isSome_iff longContent).mpr (Or.inr (by rw [hsize.1]; decide))
  · exact (UpdateValidate_isSome_iff longContent).mpr (Or.inr (by rw [hsize.1]; decide))
  · rw [hcreate]
  · rw [hcreate]
    rfl
  · rw [hupdate]
    rfl
  · have hres : (handlers.grpc.message.Server.UpdateMessage sampleRuntime sampleGrpcContext
        { Id := "1", Content := longContent } sampleDB).2 =
        (execUpdate sampleDB sampleRuntime.now longContent "1").2 := by
      rw [hupdate]
      rfl
    rw [hres]
    simp only [Service.GetByID, GetByID_eq, findMessage_execUpdate, hfind]
    rfl

/-- C16, the code at the failing input. The request with email `a@b`, password `pw` and
name `x` violates the three bounds and is rejected by the HTTP validation, and the RPC
adapter takes it: `Register` on `sampleDB` returns no error and stores the user. -/
theorem C16_rpc_accepts_short_fields :
    RegisterRequest.Validate { Email := "a@b", Password := "pw", Name := "x" } =
      some (.other "email must be at least 5 characters") ∧
    (handlers.grpc.auth.Server.Register sampleRuntime sampleFormat sampleGrpcContext
      { Email := "a@b", Password := "pw", Name := "x" } sampleDB).1.2 = none ∧
    (handlers.grpc.auth.Server.Register sampleRuntime sampleFormat sampleGrpcContext
      { Email := "a@b", Password := "pw", Name := "x" } sampleDB).2.users =
      sampleDB.users ++
        [{ ID := "u3", Email := "a@b", PasswordHash := "h:pw", Name := "x",
           CreatedAt := 1000000000000, UpdatedAt := 1000000000000 }] := by
  refine ⟨by decide, ?_, ?_⟩
  · rfl
  · rfl

/-! ### Conversion of application errors -/

/-- C19, counterexample. An error that is no `ApplicationError` and wraps none, here one
with the text `connection refused`, is mapped to the code `Unknown` with its text, not to
`Internal`; `Unknown` is none of the six codes of the taxonomy. -/
theorem C19_plain_error_is_unknown :
    pkg.errors.ToGRPCError (.plain (.other "connection refused")) =
      .status .Unknown "connection refused" ∧
    codes.Code.Unknown ∉ specTaxonomy ∧
    codes.Code.Unknown ≠ codes.Code.Internal := by
  refine ⟨rfl, by decide, by decide⟩

/-- C19, amended. `ToGRPCError` maps an error whose chain holds an `ApplicationError`
(the error itself or one it wraps; the first one counts) to a status with the
`ApplicationError`'s `Message`: `InvalidArgument` for code 400, `Unauthenticated` for
401, `PermissionDenied` for 403, `NotFound` for 404, `AlreadyExists` for 409 and
`Internal` for every other code. An error whose chain holds no `ApplicationError` is
mapped to `Unknown` with the text of the error. So the code is one of the six codes of
the taxonomy or `Unknown`. -/
theorem C19_ToGRPCError (err : pkg.errors.Err) :
    (∀ code message, pkg.errors.errorsAs err = some (code, message) →
      (code = 400 → pkg.errors.ToGRPCError err = .status .InvalidArgument message) ∧
      (code = 401 → pkg.errors.ToGRPCError err = .status .Unauthenticated message) ∧
      (code = 403 → pkg.errors.ToGRPCError err = .status .PermissionDenied message) ∧
      (code = 404 → pkg.errors.ToGRPCError err = .status .NotFound message) ∧
      (code = 409 → pkg.errors.ToGRPCError err = .status .AlreadyExists message) ∧
      (code ≠ 400 → code ≠ 401 → code ≠ 403 → code ≠ 404 → code ≠ 409 →
        pkg.errors.ToGRPCError err = .status .Internal message)) ∧
    (pkg.errors.errorsAs err = none →
      pkg.errors.ToGRPCError err = .status .Unknown err.Error) ∧
    (∀ code message inner,
      pkg.errors.errorsAs (.application code message inner) = some (code, message)) ∧
    (∀ text, (pkg.errors.errorsAs err).isSome = true →
      pkg.errors.ToGRPCError (.wrapping text err) = pkg.errors.ToGRPCError err) ∧
    (∃ code message, pkg.errors.ToGRPCError err = .status code message ∧
      (code ∈ specTaxonomy ∨ (code = .Unknown ∧ pkg.errors.errorsAs err = none))) := by
  refine ⟨?_, ?_, ?_, ?_, ?_⟩
  · intro code message h
    refine ⟨?_, ?_, ?_, ?_, ?_, ?_⟩
    · intro hc
      simp [pkg.errors.ToGRPCError, h, hc]
    · intro hc
      simp [pkg.errors.ToGRPCError, h, hc]
    · intro hc
      simp [pkg.errors.ToGRPCError, h, hc]
    · intro hc
      simp [pkg.errors.ToGRPCError, h, hc]
    · intro hc
      simp [pkg.errors.ToGRPCError, h, hc]
    · intro h1 h2 h3 h4 h5
      simp [pkg.errors.ToGRPCError, h, h1, h2, h3, h4, h5]
  · intro h
    simp [pkg.errors.ToGRPCError, h]
  · intro code message inner
    rfl
  · intro text hsome
    simp only [pkg.errors.ToGRPCError, pkg.errors.errorsAs]
    cases h : pkg.errors.errorsAs err with
    | none => simp [h] at hsome
    | some cm => rfl
  · cases h : pkg.errors.errorsAs err with
    | none =>
      exact ⟨.Unknown, err.Error, by simp [pkg.errors.ToGRPCError, h], Or.inr ⟨rfl, rfl⟩⟩
    | some cm =>
      obtain ⟨code, message⟩ := cm
      simp only [pkg.errors.ToGRPCError, h]
      by_cases h1 : code = 400
      · exact ⟨.InvalidArgument, message, by simp [h1], Or.inl (by decide)⟩
      by_cases h2 : code = 401
      · exact ⟨.Unauthenticated, message, by simp [h1, h2], Or.inl (by decide)⟩
      by_cases h3 : code = 403
      · exact ⟨.PermissionDenied, message, by simp [h1, h2, h3], Or.inl (by decide)⟩
      by_cases h4 : code = 404
      · exact ⟨.NotFound, message, by simp [h1, h2, h3, h4], Or.inl (by decide)⟩
      by_cases h5 : code = 409
      · exact ⟨.AlreadyExists, message, by simp [h1, h2, h3, h4, h5], Or.inl (by decide)⟩
      exact ⟨.Internal, message, by simp [h1, h2, h3, h4, h5], Or.inl (by decide)⟩

/-- Witness of C19 (amended): a not-found application error inside a wrapping error. -/
theorem C19_ToGRPCError_witness :
    pkg.errors.ToGRPCError
        (.wrapping "get message: message not found"
          (pkg.errors.NewNotFoundError "message not found" none)) =
      .status .NotFound "message not found" :=
  ((C19_ToGRPCError (.wrapping "get message: message not found"
      (pkg.errors.NewNotFoundError "message not found" none))).1
    404 "message not found" rfl).2.2.2.1 rfl

/-! ### The adapters are the functions of the result applied to the service -/

theorem Handler_Register_factors (rt : Runtime)
    (next : gin.Context × DB → gin.Context × DB) (c : gin.Context) (db : DB)
    (req : RegisterRequest) (hbind : handlers.http.auth.bindRegisterRequest c = .ok req)
    (hval : req.Validate = none) :
    handlers.http.auth.Handler.Register rt next (c, db) =
      handlers.http.auth.respondRegister c
        (core.auth.Service.Register rt.bcrypt db rt.rand rt.now rt.newID
          req.Email req.Password req.Name) := by
  simp only [handlers.http.auth.Handler.Register, hbind, hval]
  rfl

theorem Handler_Login_factors (rt : Runtime)
    (next : gin.Context × DB → gin.Context × DB) (c : gin.Context) (db : DB)
    (req : LoginRequest) (hbind : handlers.http.auth.bindLoginRequest c = .ok req)
    (hval : req.Validate = none) :
    handlers.http.auth.Handler.Login rt next (c, db) =
      handlers.http.auth.respondLogin c db
        (core.auth.Service.Login rt.bcrypt rt.jwtlib rt.getenv rt.jwt db
          rt.nowExp rt.nowIat rt.nowNbf req.Email req.Password) := by
  simp only [handlers.http.auth.Handler.Login, hbind, hval]
  rfl

theorem Handler_Me_factors (rt : Runtime)
    (next : gin.Context × DB → gin.Context × DB) (c : gin.Context) (db : DB)
    (userID : String) (hid : c.Get "user_id" = some (.str userID)) :
    handlers.http.auth.Handler.Me rt next (c, db) =
      handlers.http.auth.respondMe c db (core.auth.Service.GetUserByID db userID) := by
  simp only [handlers.http.auth.Handler.Me, hid]
  rfl

theorem Handler_GetAll_factors (rt : Runtime)
    (next : gin.Context × DB → gin.Context × DB) (c : gin.Context) (db : DB) :
    handlers.http.message.Handler.GetAll rt next (c, db) =
      handlers.http.message.respondGetAll c db (core.message.Service.GetAll db) := by
  rfl

theorem Handler_Get_factors (rt : Runtime)
    (next : gin.Context × DB → gin.Context × DB) (c : gin.Context) (db : DB) :
    handlers.http.message.Handler.Get rt next (c, db) =
      handlers.http.message.respondGet c db
        (core.message.Service.GetByID db (c.Param "id")) := by
  rfl

theorem Handler_Create_factors (rt : Runtime)
    (next : gin.Context × DB → gin.Context × DB) (c : gin.Context) (db : DB)
    (req : CreateMessageRequest) (userID : String)
    (hbind : handlers.http.message.bindCreateMessageRequest c = .ok req)
    (hval : req.Validate = none) (hid : c.Get "user_id" = some (.str userID)) :
    handlers.http.message.Handler.Create rt next (c, db) =
      handlers.http.message.respondCreate c
        (core.message.Service.Create db rt.now rt.newID userID req.Content) := by
  simp only [handlers.http.message.Handler.Create, hbind, hval, hid]
  rfl

theorem Handler_Update_factors (rt : Runtime)
    (next : gin.Context × DB → gin.Context × DB) (c : gin.Context) (db : DB)
    (req : UpdateMessageRequest) (userID : String)
    (hbind : handlers.http.message.bindUpdateMessageRequest c = .ok req)
    (hval : req.Validate = none) (hid : c.Get "user_id" = some (.str userID)) :
    handlers.http.message.Handler.Update rt next (c, db) =
      handlers.http.message.respondUpdate c
        (core.message.Service.Update db rt.now (c.Param "id") userID req.Content) := by
  simp only [handlers.http.message.Handler.Update, hbind, hval, hid]
  rfl

theorem Handler_Delete_factors (rt : Runtime)
    (next : gin.Context × DB → gin.Context × DB) (c : gin.Context) (db : DB)
    (userID : String) (hid : c.Get "user_id" = some (.str userID)) :
    handlers.http.message.Handler.Delete rt next (c, db) =
      handlers.http.message.respondDelete c
        (core.message.Service.Delete db (c.Param "id") userID) := by
  simp only [handlers.http.message.Handler.Delete, hid]
  rfl

theorem Server_Register_factors (rt : Runtime) (formatRFC3339 : Int → String)
    (ctx : grpc.Context) (req : handlers.grpc.auth.RegisterRequest) (db : DB)
    (he : req.Email ≠ "") (hp : req.Password ≠ "") (hn : req.Name ≠ "") :
    handlers.grpc.auth.Server.Register rt formatRFC3339 ctx req db =
      handlers.grpc.auth.respondRegister formatRFC3339
        (core.auth.Service.Register rt.bcrypt db rt.rand rt.now rt.newID
          req.Email req.Password req.Name) := by
  have hc : (req.Email == "" || req.Password == "" || req.Name == "") = false := by
    simp [he, hp, hn]
  simp only [handlers.grpc.auth.Server.Register, hc, Bool.false_eq_true, if_false]
  rfl

theorem Server_Login_factors (rt : Runtime) (ctx : grpc.Context)
    (req : handlers.grpc.auth.LoginRequest) (db : DB)
    (he : req.Email ≠ "") (hp : req.Password ≠ "") :
    handlers.grpc.auth.Server.Login rt ctx req db =
      handlers.grpc.auth.respondLogin db
        (core.auth.Service.Login rt.bcrypt rt.jwtlib rt.getenv rt.jwt db
          rt.nowExp rt.nowIat rt.nowNbf req.Email req.Password) := by
  have hc : (req.Email == "" || req.Password == "") = false := by
    simp [he, hp]
  simp only [handlers.grpc.auth.Server.Login, hc, Bool.false_eq_true, if_false]
  rfl

theorem Server_GetCurrentUser_factors (rt : Runtime) (formatRFC3339 : Int → String)
    (ctx : grpc.Context) (db : DB) (userID : String)
    (hctx : middleware.GetUserIDFromContext ctx = (userID, none)) :
    handlers.grpc.auth.Server.GetCurrentUser rt formatRFC3339 ctx db =
      handlers.grpc.auth.respondGetCurrentUser formatRFC3339 db
        (core.auth.Service.GetUserByID db userID) := by
  simp only [handlers.grpc.auth.Server.GetCurrentUser, hctx]
  rfl

theorem Server_CreateMessage_factors (rt : Runtime) (formatRFC3339 : Int → String)
    (ctx : grpc.Context) (req : handlers.grpc.message.CreateMessageRequest) (db : DB)
    (userID : String) (hne : req.Content ≠ "")
    (hctx : middleware.GetUserIDFromContext ctx = (userID, none)) :
    handlers.grpc.message.Server.CreateMessage rt formatRFC3339 ctx req db =
      handlers.grpc.message.respondCreateMessage formatRFC3339
        (core.message.Service.Create db rt.now rt.newID userID req.Content) := by
  simp only [handlers.grpc.message.Server.CreateMessage, beq_iff_eq, hne, if_false, hctx]
  rfl

theorem Server_GetMessage_factors (rt : Runtime) (formatRFC3339 : Int → String)
    (ctx : grpc.Context) (req : handlers.grpc.message.GetMessageRequest) (db : DB)
    (hid : req.Id ≠ "") :
    handlers.grpc.message.Server.GetMessage rt formatRFC3339 ctx req db =
      handlers.grpc.message.respondGetMessage formatRFC3339 db
        (core.message.Service.GetByID db req.Id) := by
  simp only [handlers.grpc.message.Server.GetMessage, beq_iff_eq, hid, if_false]
  rfl

theorem Server_UpdateMessage_factors (rt : Runtime) (ctx : grpc.Context)
    (req : handlers.grpc.message.UpdateMessageRequest) (db : DB) (userID : String)
    (hid : req.Id ≠ "") (hne : req.Content ≠ "")
    (hctx : middleware.GetUserIDFromContext ctx = (userID, none)) :
    handlers.grpc.message.Server.UpdateMessage rt ctx req db =
      handlers.grpc.message.respondUpdateMessage
        (core.message.Service.Update db rt.now req.Id userID req.Content) := by
  simp only [handlers.grpc.message.Server.UpdateMessage, beq_iff_eq, hid, hne, if_false,
    hctx]
  rfl

theorem Server_DeleteMessage_factors (rt : Runtime) (ctx : grpc.Context)
    (req : handlers.grpc.message.DeleteMessageRequest) (db : DB) (userID : String)
    (hid : req.Id ≠ "")
    (hctx : middleware.GetUserIDFromContext ctx = (userID, none)) :
    handlers.grpc.message.Server.DeleteMessage rt ctx req db =
      handlers.grpc.message.respondDeleteMessage
        (core.message.Service.Delete db req.Id userID) := by
  simp only [handlers.grpc.message.Server.DeleteMessage, beq_iff_eq, hid, if_false, hctx]
  rfl

theorem Server_ListMessages_factors (rt : Runtime) (formatRFC3339 : Int → String)
    (ctx : grpc.Context) (db : DB) :
    handlers.grpc.message.Server.ListMessages rt formatRFC3339 ctx db =
      handlers.grpc.message.respondListMessages formatRFC3339 db
        (core.message.Service.GetAll db) := by
  rfl

/-! ### Errors of the services in the responses -/

theorem respond_unexpected_error (err : GoError)
    (h1 : err ≠ .ErrMessageNotFound) (h2 : err ≠ .ErrForbidden)
    (h3 : err ≠ .ErrEmailAlreadyExists) (h4 : err ≠ .ErrInvalidCredentials)
    (h5 : err ≠ .ErrUserNotFound) :
    (∀ (c : gin.Context) (db token),
      handlers.http.auth.respondRegister c (.error err, db) =
        (c.JSON 500 (.ofError { Error := err.Error }), db) ∧
      handlers.http.auth.respondLogin c db (token, some err) =
        (c.JSON 500 (.ofError { Error := err.Error }), db) ∧
      handlers.http.auth.respondMe c db (.error err) =
        (c.JSON 500 (.ofError { Error := err.Error }), db) ∧
      handlers.http.message.respondGetAll c db (.error err) =
        (c.JSON 500 (.ofError { Error := err.Error }), db) ∧
      handlers.http.message.respondGet c db (.error err) =
        (c.JSON 500 (.ofError { Error := err.Error }), db) ∧
      handlers.http.message.respondCreate c (.error err, db) =
        (c.JSON 500 (.ofError { Error := err.Error }), db) ∧
      handlers.http.message.respondUpdate c (some err, db) =
        (c.JSON 500 (.ofError { Error := err.Error }), db) ∧
      handlers.http.message.respondDelete c (some err, db) =
        (c.JSON 500 (.ofError { Error := err.Error }), db)) ∧
    (∀ (formatRFC3339 : Int → String) (db token),
      handlers.grpc.auth.respondRegister formatRFC3339 (.error err, db) =
        ((none, some (.status .Internal err.Error)), db) ∧
      handlers.grpc.auth.respondLogin db (token, some err) =
        ((none, some (.status .Internal err.Error)), db) ∧
      handlers.grpc.auth.respondGetCurrentUser formatRFC3339 db (.error err) =
        ((none, some (.status .Internal err.Error)), db) ∧
      handlers.grpc.message.respondCreateMessage formatRFC3339 (.error err, db) =
        ((none, some (.status .Internal err.Error)), db) ∧
      handlers.grpc.message.respondGetMessage formatRFC3339 db (.error err) =
        ((none, some (.status .Internal err.Error)), db) ∧
      handlers.grpc.message.respondUpdateMessage (some err, db) =
        ((none, some (.status .Internal err.Error)), db) ∧
      handlers.grpc.message.respondDeleteMessage (some err, db) =
        ((none, some (.status .Internal err.Error)), db) ∧
      handlers.grpc.message.respondListMessages formatRFC3339 db (.error err) =
        ((none, some (.status .Internal err.Error)), db)) := by
  refine ⟨fun c db token => ?_, fun formatRFC3339 db token => ?_⟩
  · simp [handlers.http.auth.respondRegister, handlers.http.auth.respondLogin,
      handlers.http.auth.respondMe, handlers.http.message.respondGetAll,
      handlers.http.message.respondGet, handlers.http.message.respondCreate,
      handlers.http.message.respondUpdate, handlers.http.message.respondDelete,
      handlers.http.message.mutationStatus, GoError.Is, h1, h2, h3, h4, h5,
      http.StatusInternalServerError]
  · simp [handlers.grpc.auth.respondRegister, handlers.grpc.auth.respondLogin,
      handlers.grpc.auth.respondGetCurrentUser, handlers.grpc.message.respondCreateMessage,
      handlers.grpc.message.respondGetMessage, handlers.grpc.message.respondUpdateMessage,
      handlers.grpc.message.respondDeleteMessage, handlers.grpc.message.respondListMessages,
      handlers.grpc.message.mutationCode, GoError.Is, h1, h2, h3, h4, h5]

theorem adapters_factor (rt : Runtime) :
    (∀ (next : gin.Context × DB → gin.Context × DB) (c : gin.Context) (db : DB),
      (∀ req, handlers.http.auth.bindRegisterRequest c = .ok req → req.Validate = none →
        handlers.http.auth.Handler.Register rt next (c, db) =
          handlers.http.auth.respondRegister c
            (core.auth.Service.Register rt.bcrypt db rt.rand rt.now rt.newID
              req.Email req.Password req.Name)) ∧
      (∀ req, handlers.http.auth.bindLoginRequest c = .ok req → req.Validate = none →
        handlers.http.auth.Handler.Login rt next (c, db) =
          handlers.http.auth.respondLogin c db
            (core.auth.Service.Login rt.bcrypt rt.jwtlib rt.getenv rt.jwt db
              rt.nowExp rt.nowIat rt.nowNbf req.Email req.Password)) ∧
      (∀ userID, c.Get "user_id" = some (.str userID) →
        handlers.http.auth.Handler.Me rt next (c, db) =
          handlers.http.auth.respondMe c db (core.auth.Service.GetUserByID db userID)) ∧
      handlers.http.message.Handler.GetAll rt next (c, db) =
        handlers.http.message.respondGetAll c db (core.message.Service.GetAll db) ∧
      handlers.http.message.Handler.Get rt next (c, db) =
        handlers.http.message.respondGet c db
          (core.message.Service.GetByID db (c.Param "id")) ∧
      (∀ req userID, handlers.http.message.bindCreateMessageRequest c = .ok req →
        req.Validate = none → c.Get "user_id" = some (.str userID) →
        handlers.http.message.Handler.Create rt next (c, db) =
          handlers.http.message.respondCreate c
            (core.message.Service.Create db rt.now rt.newID userID req.Content)) ∧
      (∀ req userID, handlers.http.message.bindUpdateMessageRequest c = .ok req →
        req.Validate = none → c.Get "user_id" = some (.str userID) →
        handlers.http.message.Handler.Update rt next (c, db) =
          handlers.http.message.respondUpdate c
            (core.message.Service.Update db rt.now (c.Param "id") userID req.Content)) ∧
      (∀ userID, c.Get "user_id" = some (.str userID) →
        handlers.http.message.Handler.Delete rt next (c, db) =
          handlers.http.message.respondDelete c
            (core.message.Service.Delete db (c.Param "id") userID))) ∧
    (∀ (formatRFC3339 : Int → String) (ctx : grpc.Context) (db : DB),
      (∀ req : handlers.grpc.auth.RegisterRequest,
        req.Email ≠ "" → req.Password ≠ "" → req.Name ≠ "" →
        handlers.grpc.auth.Server.Register rt formatRFC3339 ctx req db =
          handlers.grpc.auth.respondRegister formatRFC3339
            (core.auth.Service.Register rt.bcrypt db rt.rand rt.now rt.newID
              req.Email req.Password req.Name)) ∧
      (∀ req : handlers.grpc.auth.LoginRequest, req.Email ≠ "" → req.Password ≠ "" →
        handlers.grpc.auth.Server.Login rt ctx req db =
          handlers.grpc.auth.respondLogin db
            (core.auth.Service.Login rt.bcrypt rt.jwtlib rt.getenv rt.jwt db
              rt.nowExp rt.nowIat rt.nowNbf req.Email req.Password)) ∧
      (∀ userID, middleware.GetUserIDFromContext ctx = (userID, none) →
        handlers.grpc.auth.Server.GetCurrentUser rt formatRFC3339 ctx db =
          handlers.grpc.auth.respondGetCurrentUser formatRFC3339 db
            (core.auth.Service.GetUserByID db userID)) ∧
      (∀ (req : handlers.grpc.message.CreateMessageRequest) userID, req.Content ≠ "" →
        middleware.GetUserIDFromContext ctx = (userID, none) →
        handlers.grpc.message.Server.CreateMessage rt formatRFC3339 ctx req db =
          handlers.grpc.message.respondCreateMessage formatRFC3339
            (core.message.Service.Create db rt.now rt.newID userID req.Content)) ∧
      (∀ req : handlers.grpc.message.GetMessageRequest, req.Id ≠ "" →
        handlers.grpc.message.Server.GetMessage rt formatRFC3339 ctx req db =
          handlers.grpc.message.respondGetMessage formatRFC3339 db
            (core.message.Service.GetByID db req.Id)) ∧
      (∀ (req : handlers.grpc.message.UpdateMessageRequest) userID, req.Id ≠ "" →
        req.Content ≠ "" → middleware.GetUserIDFromContext ctx = (userID, none) →
        handlers.grpc.message.Server.UpdateMessage rt ctx req db =
          handlers.grpc.message.respondUpdateMessage
            (core.message.Service.Update db rt.now req.Id userID req.Content)) ∧
      (∀ (req : handlers.grpc.message.DeleteMessageRequest) userID, req.Id ≠ "" →
        middleware.GetUserIDFromContext ctx = (userID, none) →
        handlers.grpc.message.Server.DeleteMessage rt ctx req db =
          handlers.grpc.message.respondDeleteMessage
            (core.message.Service.Delete db req.Id userID)) ∧
      handlers.grpc.message.Server.ListMessages rt formatRFC3339 ctx db =
        handlers.grpc.message.respondListMessages formatRFC3339 db
          (core.message.Service.GetAll db)) := by
  refine ⟨fun next c db => ⟨?_, ?_, ?_, ?_, ?_, ?_, ?_, ?_⟩,
    fun f ctx db => ⟨?_, ?_, ?_, ?_, ?_, ?_, ?_, ?_⟩⟩
  · exact fun req hb hv => Handler_Register_factors rt next c db req hb hv
  · exact fun req hb hv => Handler_Login_factors rt next c db req hb hv
  · exact fun userID hid => Handler_Me_factors rt next c db userID hid
  · exact Handler_GetAll_factors rt next c db
  · exact Handler_Get_factors rt next c db
  · exact fun req userID hb hv hid => Handler_Create_factors rt next c db req userID hb hv hid
  · exact fun req userID hb hv hid => Handler_Update_factors rt next c db req userID hb hv hid
  · exact fun userID hid => Handler_Delete_factors rt next c db userID hid
  · exact fun req he hp hn => Server_Register_factors rt f ctx req db he hp hn
  · exact fun req he hp => Server_Login_factors rt ctx req db he hp
  · exact fun userID hctx => Server_GetCurrentUser_factors rt f ctx db userID hctx
  · exact fun req userID hne hctx =>
      Server_CreateMessage_factors rt f ctx req db userID hne hctx
  · exact fun req hid => Server_GetMessage_factors rt f ctx req db hid
  · exact fun req userID hid hne hctx =>
      Server_UpdateMessage_factors rt ctx req db userID hid hne hctx
  · exact fun req userID hid hctx => Server_DeleteMessage_factors rt ctx req db userID hid hctx
  · exact Server_ListMessages_factors rt f ctx db

/-- C17, counterexample. The registration of `new@b.com` with the password of 73 bytes,
which bcrypt refuses: the error the service returns is none of the domain errors, the
HTTP handler `Register` answers 500 and the gRPC method `Register` answers `Internal`,
and the message of each response is the text of the error of bcrypt, not a generic
message. -/
theorem C17_error_text_in_response :
    longPassword.utf8ByteSize = 73 ∧
    core.auth.Service.Register sampleRuntime.bcrypt sampleDB sampleRuntime.rand
        sampleRuntime.now sampleRuntime.newID "new@b.com" longPassword "Cy" =
      (.error (.other "bcrypt: password length exceeds 72 bytes"), sampleDB) ∧
    handlers.http.auth.Handler.Register sampleRuntime id
        (longPasswordRequest, sampleDB) =
      (longPasswordRequest.JSON 500
        (.ofError { Error := "bcrypt: password length exceeds 72 bytes" }), sampleDB) ∧
    handlers.grpc.auth.Server.Register sampleRuntime sampleFormat sampleGrpcContext
        { Email := "new@b.com", Password := longPassword, Name := "Cy" } sampleDB =
      ((none, some (.status .Internal "bcrypt: password length exceeds 72 bytes")),
        sampleDB) ∧
    (GoError.other "bcrypt: password length exceeds 72 bytes").Error =
      "bcrypt: password length exceeds 72 bytes" := by
  refine ⟨by decide, rfl, by decide, by decide, rfl⟩

/-- C17, amended. Every HTTP handler and every gRPC method is its response function
applied to the result of the service call it makes, once the request has passed binding,
validation and the reading of the user identifier. For an error that is none of the
domain errors (message not found, forbidden, email already exists, invalid credentials,
user not found), every response function of an HTTP handler gives 500 and every response
function of a gRPC method gives `Internal`, whatever the text of the error, and the
message of the response is the text of the error (`err.Error()`): two such errors get
the same status and code, and the same response exactly when they have the same text.
The database is the one the service left. -/
theorem C17_unexpected_error_responses (rt : Runtime) (err : GoError)
    (h1 : err ≠ .ErrMessageNotFound) (h2 : err ≠ .ErrForbidden)
    (h3 : err ≠ .ErrEmailAlreadyExists) (h4 : err ≠ .ErrInvalidCredentials)
    (h5 : err ≠ .ErrUserNotFound) :
    (∀ (next : gin.Context × DB → gin.Context × DB) (c : gin.Context) (db : DB),
      (∀ req, handlers.http.auth.bindRegisterRequest c = .ok req → req.Validate = none →
        handlers.http.auth.Handler.Register rt next (c, db) =
          handlers.http.auth.respondRegister c
            (core.auth.Service.Register rt.bcrypt db rt.rand rt.now rt.newID
              req.Email req.Password req.Name)) ∧
      (∀ req, handlers.http.auth.bindLoginRequest c = .ok req → req.Validate = none →
        handlers.http.auth.Handler.Login rt next (c, db) =
          handlers.http.auth.respondLogin c db
            (core.auth.Service.Login rt.bcrypt rt.jwtlib rt.getenv rt.jwt db
              rt.nowExp rt.nowIat rt.nowNbf req.Email req.Password)) ∧
      (∀ userID, c.Get "user_id" = some (.str userID) →
        handlers.http.auth.Handler.Me rt next (c, db) =
          handlers.http.auth.respondMe c db (core.auth.Service.GetUserByID db userID)) ∧
      handlers.http.message.Handler.GetAll rt next (c, db) =
        handlers.http.message.respondGetAll c db (core.message.Service.GetAll db) ∧
      handlers.http.message.Handler.Get rt next (c, db) =
        handlers.http.message.respondGet c db
          (core.message.Service.GetByID db (c.Param "id")) ∧
      (∀ req userID, handlers.http.message.bindCreateMessageRequest c = .ok req →
        req.Validate = none → c.Get "user_id" = some (.str userID) →
        handlers.http.message.Handler.Create rt next (c, db) =
          handlers.http.message.respondCreate c
            (core.message.Service.Create db rt.now rt.newID userID req.Content)) ∧
      (∀ req userID, handlers.http.message.bindUpdateMessageRequest c = .ok req →
        req.Validate = none → c.Get "user_id" = some (.str userID) →
        handlers.http.message.Handler.Update rt next (c, db) =
          handlers.http.message.respondUpdate c
            (core.message.Service.Update db rt.now (c.Param "id") userID req.Content)) ∧
      (∀ userID, c.Get "user_id" = some (.str userID) →
        handlers.http.message.Handler.Delete rt next (c, db) =
          handlers.http.message.respondDelete c
            (core.message.Service.Delete db (c.Param "id") userID))) ∧
    (∀ (formatRFC3339 : Int → String) (ctx : grpc.Context) (db : DB),
      (∀ req : handlers.grpc.auth.RegisterRequest,
        req.Email ≠ "" → req.Password ≠ "" → req.Name ≠ "" →
        handlers.grpc.auth.Server.Register rt formatRFC3339 ctx req db =
          handlers.grpc.auth.respondRegister formatRFC3339
            (core.auth.Service.Register rt.bcrypt db rt.rand rt.now rt.newID
              req.Email req.Password req.Name)) ∧
      (∀ req : handlers.grpc.auth.LoginRequest, req.Email ≠ "" → req.Password ≠ "" →
        handlers.grpc.auth.Server.Login rt ctx req db =
          handlers.grpc.auth.respondLogin db
            (core.auth.Service.Login rt.bcrypt rt.jwtlib rt.getenv rt.jwt db
              rt.nowExp rt.nowIat rt.nowNbf req.Email req.Password)) ∧
      (∀ userID, middleware.GetUserIDFromContext ctx = (userID, none) →
        handlers.grpc.auth.Server.GetCurrentUser rt formatRFC3339 ctx db =
          handlers.grpc.auth.respondGetCurrentUser formatRFC3339 db
            (core.auth.Service.GetUserByID db userID)) ∧
      (∀ (req : handlers.grpc.message.CreateMessageRequest) userID, req.Content ≠ "" →
        middleware.GetUserIDFromContext ctx = (userID, none) →
        handlers.grpc.message.Server.CreateMessage rt formatRFC3339 ctx req db =
          handlers.grpc.message.respondCreateMessage formatRFC3339
            (core.message.Service.Create db rt.now rt.newID userID req.Content)) ∧
      (∀ req : handlers.grpc.message.GetMessageRequest, req.Id ≠ "" →
        handlers.grpc.message.Server.GetMessage rt formatRFC3339 ctx req db =
          handlers.grpc.message.respondGetMessage formatRFC3339 db
            (core.message.Service.GetByID db req.Id)) ∧
      (∀ (req : handlers.grpc.message.UpdateMessageRequest) userID, req.Id ≠ "" →
        req.Content ≠ "" → middleware.GetUserIDFromContext ctx = (userID, none) →
        handlers.grpc.message.Server.UpdateMessage rt ctx req db =
          handlers.grpc.message.respondUpdateMessage
            (core.message.Service.Update db rt.now req.Id userID req.Content)) ∧
      (∀ (req : handlers.grpc.message.DeleteMessageRequest) userID, req.Id ≠ "" →
        middleware.GetUserIDFromContext ctx = (userID, none) →
        handlers.grpc.message.Server.DeleteMessage rt ctx req db =
          handlers.grpc.message.respondDeleteMessage
            (core.message.Service.Delete db req.Id userID)) ∧
      handlers.grpc.message.Server.ListMessages rt formatRFC3339 ctx db =
        handlers.grpc.message.respondListMessages formatRFC3339 db
          (core.message.Service.GetAll db)) ∧
    (∀ (c : gin.Context) (db : DB) (token : String),
      handlers.http.auth.respondRegister c (.error err, db) =
        (c.JSON 500 (.ofError { Error := err.Error }), db) ∧
      handlers.http.auth.respondLogin c db (token, some err) =
        (c.JSON 500 (.ofError { Error := err.Error }), db) ∧
      handlers.http.auth.respondMe c db (.error err) =
        (c.JSON 500 (.ofError { Error := err.Error }), db) ∧
      handlers.http.message.respondGetAll c db (.error err) =
        (c.JSON 500 (.ofError { Error := err.Error }), db) ∧
      handlers.http.message.respondGet c db (.error err) =
        (c.JSON 500 (.ofError { Error := err.Error }), db) ∧
      handlers.http.message.respondCreate c (.error err, db) =
        (c.JSON 500 (.ofError { Error := err.Error }), db) ∧
      handlers.http.message.respondUpdate c (some err, db) =
        (c.JSON 500 (.ofError { Error := err.Error }), db) ∧
      handlers.http.message.respondDelete c (some err, db) =
        (c.JSON 500 (.ofError { Error := err.Error }), db)) ∧
    (∀ (formatRFC3339 : Int → String) (db : DB) (token : String),
      handlers.grpc.auth.respondRegister formatRFC3339 (.error err, db) =
        ((none, some (.status .Internal err.Error)), db) ∧
      handlers.grpc.auth.respondLogin db (token, some err) =
        ((none, some (.status .Internal err.Error)), db) ∧
      handlers.grpc.auth.respondGetCurrentUser formatRFC3339 db (.error err) =
        ((none, some (.status .Internal err.Error)), db) ∧
      handlers.grpc.message.respondCreateMessage formatRFC3339 (.error err, db) =
        ((none, some (.status .Internal err.Error)), db) ∧
      handlers.grpc.message.respondGetMessage formatRFC3339 db (.error err) =
        ((none, some (.status .Internal err.Error)), db) ∧
      handlers.grpc.message.respondUpdateMessage (some err, db) =
        ((none, some (.status .Internal err.Error)), db) ∧
      handlers.grpc.message.respondDeleteMessage (some err, db) =
        ((none, some (.status .Internal err.Error)), db) ∧
      handlers.grpc.message.respondListMessages formatRFC3339 db (.error err) =
        ((none, some (.status .Internal err.Error)), db)) := by
  have hA := adapters_factor rt
  have hB := respond_unexpected_error err h1 h2 h3 h4 h5
  exact ⟨hA.1, hA.2, hB.1, hB.2⟩

/-- Witness of C17 (amended): the registration of `new@b.com` with the password of 73
bytes, through the HTTP handler and through the gRPC method. -/
theorem C17_unexpected_error_responses_witness :
    handlers.http.auth.Handler.Register sampleRuntime id
        (longPasswordRequest, sampleDB) =
      (longPasswordRequest.JSON 500
        (.ofError { Error := "bcrypt: password length exceeds 72 bytes" }), sampleDB) ∧
    handlers.grpc.auth.Server.Register sampleRuntime sampleFormat sampleGrpcContext
        { Email := "new@b.com", Password := longPassword, Name := "Cy" } sampleDB =
      ((none, some (.status .Internal "bcrypt: password length exceeds 72 bytes")),
        sampleDB) :=
  have h := C17_unexpected_error_responses sampleRuntime
    (.other "bcrypt: password length exceeds 72 bytes")
    (by decide) (by decide) (by decide) (by decide) (by decide)
  have hs : core.auth.Service.Register sampleRuntime.bcrypt sampleDB sampleRuntime.rand
      sampleRuntime.now sampleRuntime.newID "new@b.com" longPassword "Cy" =
      (.error (.other "bcrypt: password length exceeds 72 bytes"), sampleDB) := rfl
  ⟨((h.1 id longPasswordRequest sampleDB).1
      { Email := "new@b.com", Password := longPassword, Name := "Cy" } rfl (by decide)).trans
      ((congrArg _ hs).trans (h.2.2.1 longPasswordRequest sampleDB "").1),
   ((h.2.1 sampleFormat sampleGrpcContext sampleDB).1
      { Email := "new@b.com", Password := longPassword, Name := "Cy" }
      (by decide) (by decide) (by decide)).trans
      ((congrArg _ hs).trans (h.2.2.2 sampleFormat sampleDB "").1)⟩

theorem respond_codes_mirror (err : GoError) :
    (∃ code status, specStatusOfCode code = some status ∧
      (err = .ErrEmailAlreadyExists → code = .AlreadyExists ∧ status = 409) ∧
      ∀ (c : gin.Context) (formatRFC3339 : Int → String) (db : DB),
        handlers.http.auth.respondRegister c (.error err, db) =
          (c.JSON status (.ofError { Error := err.Error }), db) ∧
        handlers.grpc.auth.respondRegister formatRFC3339 (.error err, db) =
          ((none, some (.status code err.Error)), db)) ∧
    (∃ code status, specStatusOfCode code = some status ∧
      (err = .ErrInvalidCredentials → code = .Unauthenticated ∧ status = 401) ∧
      ∀ (c : gin.Context) (db : DB) (token : String),
        handlers.http.auth.respondLogin c db (token, some err) =
          (c.JSON status (.ofError { Error := err.Error }), db) ∧
        handlers.grpc.auth.respondLogin db (token, some err) =
          ((none, some (.status code err.Error)), db)) ∧
    (∃ code status, specStatusOfCode code = some status ∧
      (err = .ErrUserNotFound → code = .NotFound ∧ status = 404) ∧
      ∀ (c : gin.Context) (formatRFC3339 : Int → String) (db : DB),
        handlers.http.auth.respondMe c db (.error err) =
          (c.JSON status (.ofError { Error := err.Error }), db) ∧
        handlers.grpc.auth.respondGetCurrentUser formatRFC3339 db (.error err) =
          ((none, some (.status code err.Error)), db)) ∧
    (∃ code status, specStatusOfCode code = some status ∧
      ∀ (c : gin.Context) (formatRFC3339 : Int → String) (db : DB),
        handlers.http.message.respondCreate c (.error err, db) =
          (c.JSON status (.ofError { Error := err.Error }), db) ∧
        handlers.grpc.message.respondCreateMessage formatRFC3339 (.error err, db) =
          ((none, some (.status code err.Error)), db)) ∧
    (∃ code status, specStatusOfCode code = some status ∧
      (err = .ErrMessageNotFound → code = .NotFound ∧ status = 404) ∧
      ∀ (c : gin.Context) (formatRFC3339 : Int → String) (db : DB),
        handlers.http.message.respondGet c db (.error err) =
          (c.JSON status (.ofError { Error := err.Error }), db) ∧
        handlers.grpc.message.respondGetMessage formatRFC3339 db (.error err) =
          ((none, some (.status code err.Error)), db)) ∧
    (∃ code status, specStatusOfCode code = some status ∧
      (err = .ErrMessageNotFound → code = .NotFound ∧ status = 404) ∧
      (err = .ErrForbidden → code = .PermissionDenied ∧ status = 403) ∧
      ∀ (c : gin.Context) (db : DB),
        handlers.http.message.respondUpdate c (some err, db) =
          (c.JSON status (.ofError { Error := err.Error }), db) ∧
        handlers.grpc.message.respondUpdateMessage (some err, db) =
          ((none, some (.status code err.Error)), db) ∧
        handlers.http.message.respondDelete c (some err, db) =
          (c.JSON status (.ofError { Error := err.Error }), db) ∧
        handlers.grpc.message.respondDeleteMessage (some err, db) =
          ((none, some (.status code err.Error)), db)) ∧
    (∃ code status, specStatusOfCode code = some status ∧
      ∀ (c : gin.Context) (formatRFC3339 : Int → String) (db : DB),
        handlers.http.message.respondGetAll c db (.error err) =
          (c.JSON status (.ofError { Error := err.Error }), db) ∧
        handlers.grpc.message.respondListMessages formatRFC3339 db (.error err) =
          ((none, some (.status code err.Error)), db)) := by
  refine ⟨?_, ?_, ?_, ?_, ?_, ?_, ?_⟩
  · by_cases h : err = .ErrEmailAlreadyExists
    · refine ⟨.AlreadyExists, 409, rfl, fun _ => ⟨rfl, rfl⟩, fun c f db => ?_⟩
      simp [handlers.http.auth.respondRegister, handlers.grpc.auth.respondRegister,
        GoError.Is, h, http.StatusConflict]
    · refine ⟨.Internal, 500, rfl, fun hc => absurd hc h, fun c f db => ?_⟩
      simp [handlers.http.auth.respondRegister, handlers.grpc.auth.respondRegister,
        GoError.Is, h, http.StatusInternalServerError]
  · by_cases h : err = .ErrInvalidCredentials
    · refine ⟨.Unauthenticated, 401, rfl, fun _ => ⟨rfl, rfl⟩, fun c db token => ?_⟩
      simp [handlers.http.auth.respondLogin, handlers.grpc.auth.respondLogin,
        GoError.Is, h, http.StatusUnauthorized]
    · refine ⟨.Internal, 500, rfl, fun hc => absurd hc h, fun c db token => ?_⟩
      simp [handlers.http.auth.respondLogin, handlers.grpc.auth.respondLogin,
        GoError.Is, h, http.StatusInternalServerError]
  · by_cases h : err = .ErrUserNotFound
    · refine ⟨.NotFound, 404, rfl, fun _ => ⟨rfl, rfl⟩, fun c f db => ?_⟩
      simp [handlers.http.auth.respondMe, handlers.grpc.auth.respondGetCurrentUser,
        GoError.Is, h, http.StatusNotFound]
    · refine ⟨.Internal, 500, rfl, fun hc => absurd hc h, fun c f db => ?_⟩
      simp [handlers.http.auth.respondMe, handlers.grpc.auth.respondGetCurrentUser,
        GoError.Is, h, http.StatusInternalServerError]
  · refine ⟨.Internal, 500, rfl, fun c f db => ?_⟩
    simp [handlers.http.message.respondCreate, handlers.grpc.message.respondCreateMessage,
      http.StatusInternalServerError]
  · by_cases h : err = .ErrMessageNotFound
    · refine ⟨.NotFound, 404, rfl, fun _ => ⟨rfl, rfl⟩, fun c f db => ?_⟩
      simp [handlers.http.message.respondGet, handlers.grpc.message.respondGetMessage,
        GoError.Is, h, http.StatusNotFound]
    · refine ⟨.Internal, 500, rfl, fun hc => absurd hc h, fun c f db => ?_⟩
      simp [handlers.http.message.respondGet, handlers.grpc.message.respondGetMessage,
        GoError.Is, h, http.StatusInternalServerError]
  · by_cases h : err = .ErrMessageNotFound
    · refine ⟨.NotFound, 404, rfl, fun _ => ⟨rfl, rfl⟩, fun hc => ?_, fun c db => ?_⟩
      · rw [h] at hc
        exact absurd hc (by decide)
      · simp [handlers.http.message.respondUpdate, handlers.grpc.message.respondUpdateMessage,
          handlers.http.message.respondDelete, handlers.grpc.message.respondDeleteMessage,
          handlers.http.message.mutationStatus, handlers.grpc.message.mutationCode,
          GoError.Is, h, http.StatusNotFound]
    · by_cases hf : err = .ErrForbidden
      · refine ⟨.PermissionDenied, 403, rfl, fun hc => absurd hc h, fun _ => ⟨rfl, rfl⟩,
          fun c db => ?_⟩
        simp [handlers.http.message.respondUpdate,
          handlers.grpc.message.respondUpdateMessage, handlers.http.message.respondDelete,
          handlers.grpc.message.respondDeleteMessage, handlers.http.message.mutationStatus,
          handlers.grpc.message.mutationCode, GoError.Is, hf, http.StatusForbidden]
      · refine ⟨.Internal, 500, rfl, fun hc => absurd hc h, fun hc => absurd hc hf,
          fun c db => ?_⟩
        simp [handlers.http.message.respondUpdate,
          handlers.grpc.message.respondUpdateMessage, handlers.http.message.respondDelete,
          handlers.grpc.message.respondDeleteMessage, handlers.http.message.mutationStatus,
          handlers.grpc.message.mutationCode, GoError.Is, h, hf,
          http.StatusInternalServerError]
  · refine ⟨.Internal, 500, rfl, fun c f db => ?_⟩
    simp [handlers.http.message.respondGetAll, handlers.grpc.message.respondListMessages,
      http.StatusInternalServerError]

/-- C18. The RPC codes mirror the HTTP statuses. Every HTTP handler and every gRPC
method is its response function applied to the result of the service call it makes, once
the request has passed binding, validation and the reading of the user identifier. For
every operation and every error `err` of the service, the response function of the gRPC
method gives a status of some code with the text of the error and the response function
of the HTTP handler gives the HTTP status that corresponds to that code (404 `NotFound`,
403 `PermissionDenied`, 409 `AlreadyExists`, 401 `Unauthenticated`, 500 `Internal`) with
the same text. The named errors get the named pairs: message not found 404 and
`NotFound` in get, update and delete, forbidden 403 and `PermissionDenied` in update and
delete, email already exists 409 and `AlreadyExists` in registration, invalid
credentials 401 and `Unauthenticated` in login, user not found 404 and `NotFound` in the
lookup of the current user. -/
theorem C18_rpc_codes_mirror_http (rt : Runtime) (err : GoError) :
    (∀ (next : gin.Context × DB → gin.Context × DB) (c : gin.Context) (db : DB),
      (∀ req, handlers.http.auth.bindRegisterRequest c = .ok req → req.Validate = none →
        handlers.http.auth.Handler.Register rt next (c, db) =
          handlers.http.auth.respondRegister c
            (core.auth.Service.Register rt.bcrypt db rt.rand rt.now rt.newID
              req.Email req.Password req.Name)) ∧
      (∀ req, handlers.http.auth.bindLoginRequest c = .ok req → req.Validate = none →
        handlers.http.auth.Handler.Login rt next (c, db) =
          handlers.http.auth.respondLogin c db
            (core.auth.Service.Login rt.bcrypt rt.jwtlib rt.getenv rt.jwt db
              rt.nowExp rt.nowIat rt.nowNbf req.Email req.Password)) ∧
      (∀ userID, c.Get "user_id" = some (.str userID) →
        handlers.http.auth.Handler.Me rt next (c, db) =
          handlers.http.auth.respondMe c db (core.auth.Service.GetUserByID db userID)) ∧
      handlers.http.message.Handler.GetAll rt next (c, db) =
        handlers.http.message.respondGetAll c db (core.message.Service.GetAll db) ∧
      handlers.http.message.Handler.Get rt next (c, db) =
        handlers.http.message.respondGet c db
          (core.message.Service.GetByID db (c.Param "id")) ∧
      (∀ req userID, handlers.http.message.bindCreateMessageRequest c = .ok req →
        req.Validate = none → c.Get "user_id" = some (.str userID) →
        handlers.http.message.Handler.Create rt next (c, db) =
          handlers.http.message.respondCreate c
            (core.message.Service.Create db rt.now rt.newID userID req.Content)) ∧
      (∀ req userID, handlers.http.message.bindUpdateMessageRequest c = .ok req →
        req.Validate = none → c.Get "user_id" = some (.str userID) →
        handlers.http.message.Handler.Update rt next (c, db) =
          handlers.http.message.respondUpdate c
            (core.message.Service.Update db rt.now (c.Param "id") userID req.Content)) ∧
      (∀ userID, c.Get "user_id" = some (.str userID) →
        handlers.http.message.Handler.Delete rt next (c, db) =
          handlers.http.message.respondDelete c
            (core.message.Service.Delete db (c.Param "id") userID))) ∧
    (∀ (formatRFC3339 : Int → String) (ctx : grpc.Context) (db : DB),
      (∀ req : handlers.grpc.auth.RegisterRequest,
        req.Email ≠ "" → req.Password ≠ "" → req.Name ≠ "" →
        handlers.grpc.auth.Server.Register rt formatRFC3339 ctx req db =
          handlers.grpc.auth.respondRegister formatRFC3339
            (core.auth.Service.Register rt.bcrypt db rt.rand rt.now rt.newID
              req.Email req.Password req.Name)) ∧
      (∀ req : handlers.grpc.auth.LoginRequest, req.Email ≠ "" → req.Password ≠ "" →
        handlers.grpc.auth.Server.Login rt ctx req db =
          handlers.grpc.auth.respondLogin db
            (core.auth.Service.Login rt.bcrypt rt.jwtlib rt.getenv rt.jwt db
              rt.nowExp rt.nowIat rt.nowNbf req.Email req.Password)) ∧
      (∀ userID, middleware.GetUserIDFromContext ctx = (userID, none) →
        handlers.grpc.auth.Server.GetCurrentUser rt formatRFC3339 ctx db =
          handlers.grpc.auth.respondGetCurrentUser formatRFC3339 db
            (core.auth.Service.GetUserByID db userID)) ∧
      (∀ (req : handlers.grpc.message.CreateMessageRequest) userID, req.Content ≠ "" →
        middleware.GetUserIDFromContext ctx = (userID, none) →
        handlers.grpc.message.Server.CreateMessage rt formatRFC3339 ctx req db =
          handlers.grpc.message.respondCreateMessage formatRFC3339
            (core.message.Service.Create db rt.now rt.newID userID req.Content)) ∧
      (∀ req : handlers.grpc.message.GetMessageRequest, req.Id ≠ "" →
        handlers.grpc.message.Server.GetMessage rt formatRFC3339 ctx req db =
          handlers.grpc.message.respondGetMessage formatRFC3339 db
            (core.message.Service.GetByID db req.Id)) ∧
      (∀ (req : handlers.grpc.message.UpdateMessageRequest) userID, req.Id ≠ "" →
        req.Content ≠ "" → middleware.GetUserIDFromContext ctx = (userID, none) →
        handlers.grpc.message.Server.UpdateMessage rt ctx req db =
          handlers.grpc.message.respondUpdateMessage
            (core.message.Service.Update db rt.now req.Id userID req.Content)) ∧
      (∀ (req : handlers.grpc.message.DeleteMessageRequest) userID, req.Id ≠ "" →
        middleware.GetUserIDFromContext ctx = (userID, none) →
        handlers.grpc.message.Server.DeleteMessage rt ctx req db =
          handlers.grpc.message.respondDeleteMessage
            (core.message.Service.Delete db req.Id userID)) ∧
      handlers.grpc.message.Server.ListMessages rt formatRFC3339 ctx db =
        handlers.grpc.message.respondListMessages formatRFC3339 db
          (core.message.Service.GetAll db)) ∧
    (∃ code status, specStatusOfCode code = some status ∧
      (err = .ErrEmailAlreadyExists → code = .AlreadyExists ∧ status = 409) ∧
      ∀ (c : gin.Context) (formatRFC3339 : Int → String) (db : DB),
        handlers.http.auth.respondRegister c (.error err, db) =
          (c.JSON status (.ofError { Error := err.Error }), db) ∧
        handlers.grpc.auth.respondRegister formatRFC3339 (.error err, db) =
          ((none, some (.status code err.Error)), db)) ∧
    (∃ code status, specStatusOfCode code = some status ∧
      (err = .ErrInvalidCredentials → code = .Unauthenticated ∧ status = 401) ∧
      ∀ (c : gin.Context) (db : DB) (token : String),
        handlers.http.auth.respondLogin c db (token, some err) =
          (c.JSON status (.ofError { Error := err.Error }), db) ∧
        handlers.grpc.auth.respondLogin db (token, some err) =
          ((none, some (.status code err.Error)), db)) ∧
    (∃ code status, specStatusOfCode code = some status ∧
      (err = .ErrUserNotFound → code = .NotFound ∧ status = 404) ∧
      ∀ (c : gin.Context) (formatRFC3339 : Int → String) (db : DB),
        handlers.http.auth.respondMe c db (.error err) =
          (c.JSON status (.ofError { Error := err.Error }), db) ∧
        handlers.grpc.auth.respondGetCurrentUser formatRFC3339 db (.error err) =
          ((none, some (.status code err.Error)), db)) ∧
    (∃ code status, specStatusOfCode code = some status ∧
      ∀ (c : gin.Context) (formatRFC3339 : Int → String) (db : DB),
        handlers.http.message.respondCreate c (.error err, db) =
          (c.JSON status (.ofError { Error := err.Error }), db) ∧
        handlers.grpc.message.respondCreateMessage formatRFC3339 (.error err, db) =
          ((none, some (.status code err.Error)), db)) ∧
    (∃ code status, specStatusOfCode code = some status ∧
      (err = .ErrMessageNotFound → code = .NotFound ∧ status = 404) ∧
      ∀ (c : gin.Context) (formatRFC3339 : Int → String) (db : DB),
        handlers.http.message.respondGet c db (.error err) =
          (c.JSON status (.ofError { Error := err.Error }), db) ∧
        handlers.grpc.message.respondGetMessage formatRFC3339 db (.error err) =
          ((none, some (.status code err.Error)), db)) ∧
    (∃ code status, specStatusOfCode code = some status ∧
      (err = .ErrMessageNotFound → code = .NotFound ∧ status = 404) ∧
      (err = .ErrForbidden → code = .PermissionDenied ∧ status = 403) ∧
      ∀ (c : gin.Context) (db : DB),
        handlers.http.message.respondUpdate c (some err, db) =
          (c.JSON status (.ofError { Error := err.Error }), db) ∧
        handlers.grpc.message.respondUpdateMessage (some err, db) =
          ((none, some (.status code err.Error)), db) ∧
        handlers.http.message.respondDelete c (some err, db) =
          (c.JSON status (.ofError { Error := err.Error }), db) ∧
        handlers.grpc.message.respondDeleteMessage (some err, db) =
          ((none, some (.status code err.Error)), db)) ∧
    (∃ code status, specStatusOfCode code = some status ∧
      ∀ (c : gin.Context) (formatRFC3339 : Int → String) (db : DB),
        handlers.http.message.respondGetAll c db (.error err) =
          (c.JSON status (.ofError { Error := err.Error }), db) ∧
        handlers.grpc.message.respondListMessages formatRFC3339 db (.error err) =
          ((none, some (.status code err.Error)), db)) := by
  have hA := adapters_factor rt
  exact ⟨hA.1, hA.2, respond_codes_mirror err⟩

/-- Witness of C18 on `sampleDB`: user `u2` updates the message `1` of user `u1`, over
HTTP and over gRPC. The service refuses with `ErrForbidden`, the handler answers 403 and
the gRPC method `PermissionDenied`, each with the text of the error. -/
theorem C18_rpc_codes_mirror_http_witness :
    core.message.Service.Update sampleDB sampleRuntime.now "1" "u2" "mine" =
      (some .ErrForbidden, sampleDB) ∧
    handlers.http.message.Handler.Update sampleRuntime id (foreignUpdateRequest, sampleDB) =
      (foreignUpdateRequest.JSON 403 (.ofError { Error := "access forbidden" }),
        sampleDB) ∧
    handlers.grpc.message.Server.UpdateMessage sampleRuntime foreignGrpcContext
        { Id := "1", Content := "mine" } sampleDB =
      ((none, some (.status .PermissionDenied "access forbidden")), sampleDB) ∧
    specStatusOfCode .PermissionDenied = some 403 := by
  have hs : core.message.Service.Update sampleDB sampleRuntime.now "1" "u2" "mine" =
      (some .ErrForbidden, sampleDB) := rfl
  obtain ⟨hhttp, hgrpc, hB⟩ := C18_rpc_codes_mirror_http sampleRuntime .ErrForbidden
  obtain ⟨code, status, _, _, hforb, hresp⟩ := hB.2.2.2.2.2.1
  obtain ⟨rfl, rfl⟩ := hforb rfl
  refine ⟨hs, ?_, ?_, rfl⟩
  · rw [(hhttp id foreignUpdateRequest sampleDB).2.2.2.2.2.2.1 { Content := "mine" } "u2"
      rfl (by decide) (by decide)]
    exact (congrArg _ hs).trans (hresp foreignUpdateRequest sampleDB).1
  · rw [(hgrpc sampleFormat foreignGrpcContext sampleDB).2.2.2.2.2.1
      { Id := "1", Content := "mine" } "u2" (by decide) (by decide) rfl]
    exact (congrArg _ hs).trans (hresp foreignUpdateRequest sampleDB).2.1

/-! ### Reading messages -/

/-- C21. `GetByID` of a message. It fails with `ErrMessageNotFound` exactly when no
stored message has the identifier; when one has, it succeeds and returns a stored
message with that identifier, all fields as stored (with identifiers unique in the
table: any stored message is returned under its identifier). The method only reads: it
issues one `SELECT`, and its embedding takes the database and returns no database. -/
theorem C21_get_by_id (db : DB) (id : String) :
    (Service.GetByID db id = .error .ErrMessageNotFound ↔ ∀ m ∈ db.messages, m.ID ≠ id) ∧
    ((∃ m ∈ db.messages, m.ID = id) →
      ∃ m, Service.GetByID db id = .ok m ∧ m ∈ db.messages ∧ m.ID = id ∧
        db.findMessage id = some m) ∧
    (∀ err, Service.GetByID db id = .error err → err = .ErrMessageNotFound) ∧
    ((db.messages.map (fun x => x.ID)).Nodup →
      ∀ m ∈ db.messages, Service.GetByID db m.ID = .ok m) := by
  refine ⟨?_, ?_, ?_, ?_⟩
  · rw [← findMessage_eq_none_iff]
    simp only [Service.GetByID, GetByID_eq]
    cases db.findMessage id <;> simp
  · rintro ⟨m0, hm0, hid0⟩
    cases hf : db.findMessage id with
    | none => exact absurd hid0 ((findMessage_eq_none_iff db id).mp hf m0 hm0)
    | some m =>
      refine ⟨m, ?_, findMessage_some_mem hf, findMessage_some_id hf, rfl⟩
      simp [Service.GetByID, GetByID_eq, hf]
  · intro err h
    simp only [Service.GetByID, GetByID_eq] at h
    cases hf : db.findMessage id with
    | none =>
      simp only [hf, Except.error.injEq] at h
      exact h.symm
    | some m => simp [hf] at h
  · intro hnd m hm
    cases hf : db.findMessage m.ID with
    | none => exact absurd rfl ((findMessage_eq_none_iff db m.ID).mp hf m hm)
    | some m2 =>
      have hmem := findMessage_some_mem hf
      have hid := findMessage_some_id hf
      have heq : m2 = m := List.inj_on_of_nodup_map hnd hmem hm hid
      simp [Service.GetByID, GetByID_eq, hf, heq]

/-- Witness of C21 on `sampleDB`: the message `2` is returned as stored, the identifier
`9` is not found. -/
theorem C21_get_by_id_witness :
    Service.GetByID sampleDB "2" = .ok sampleMessage2 ∧
    Service.GetByID sampleDB "9" = .error .ErrMessageNotFound :=
  ⟨(C21_get_by_id sampleDB "2").2.2.2 (by decide) sampleMessage2 (by decide),
   (C21_get_by_id sampleDB "9").1.mpr (by decide)⟩

/-- C22. `GetAll` succeeds and returns every stored message exactly once (the result is
a permutation of the table: nothing is filtered out, nothing is cut off), ordered by
creation time from newest to oldest: each returned message is not older than every
message after it. -/
theorem C22_get_all (db : DB) :
    ∃ msgs, Service.GetAll db = .ok msgs ∧ msgs.Perm db.messages ∧
      msgs.length = db.messages.length ∧
      msgs.Pairwise (fun a b => b.CreatedAt ≤ a.CreatedAt) := by
  refine ⟨selectAll db, rfl, ?_, ?_, ?_⟩
  · exact List.perm_insertionSort _ _
  · exact (List.perm_insertionSort _ _).length_eq
  · haveI : IsTotal Message (fun a b => b.CreatedAt ≤ a.CreatedAt) :=
      ⟨fun a b => le_total b.CreatedAt a.CreatedAt⟩
    haveI : IsTrans Message (fun a b => b.CreatedAt ≤ a.CreatedAt) :=
      ⟨fun a b c hab hbc => le_trans hbc hab⟩
    exact List.sorted_insertionSort (fun a b : Message => b.CreatedAt ≤ a.CreatedAt)
      db.messages

/-- Witness of C22 on `sampleDB`: the three messages, newest first. -/
theorem C22_get_all_witness :
    Service.GetAll sampleDB =
      .ok [ { ID := "3", UserID := "u1", Content := "re", CreatedAt := 45, UpdatedAt := 45 },
            sampleMessage2, sampleMessage1 ] ∧
    ∃ msgs, Service.GetAll sampleDB = .ok msgs ∧ msgs.Perm sampleDB.messages ∧
      msgs.length = sampleDB.messages.length ∧
      msgs.Pairwise (fun a b => b.CreatedAt ≤ a.CreatedAt) :=
  ⟨by simp [Service.GetAll, core.message.Repository.GetAll, selectAll, sampleDB,
      sampleMessage1, sampleMessage2, List.insertionSort, List.orderedInsert],
    C22_get_all sampleDB⟩

/-! ### The password hash in the responses -/

/-- C23. The password hash is not in what the caller gets. For a user the service
returns, the HTTP handlers `Register` and `Me` write the `UserResponse` made of its
identifier, email, name and creation time, the gRPC methods `Register` and
`GetCurrentUser` return the `UserResponse` made of the same four fields, and the JSON
encoding of `User` has the fields `id`, `email`, `name`, `created_at`, `updated_at`.
Replacing the password hash of the user by any other one changes none of these. -/
theorem C23_password_hash_not_exposed (u : User) (hash : String) :
    (∀ (c : gin.Context) (db : DB),
      handlers.http.auth.respondRegister c (.ok u, db) =
        (c.JSON 201 (.ofUser { ID := u.ID, Email := u.Email, Name := u.Name,
                               CreatedAt := u.CreatedAt }), db) ∧
      handlers.http.auth.respondRegister c (.ok { u with PasswordHash := hash }, db) =
        handlers.http.auth.respondRegister c (.ok u, db) ∧
      handlers.http.auth.respondMe c db (.ok u) =
        (c.JSON 200 (.ofUser { ID := u.ID, Email := u.Email, Name := u.Name,
                               CreatedAt := u.CreatedAt }), db) ∧
      handlers.http.auth.respondMe c db (.ok { u with PasswordHash := hash }) =
        handlers.http.auth.respondMe c db (.ok u)) ∧
    (∀ (formatRFC3339 : Int → String) (db : DB),
      handlers.grpc.auth.respondRegister formatRFC3339 (.ok u, db) =
        ((some { Id := u.ID, Email := u.Email, Name := u.Name,
                 CreatedAt := formatRFC3339 u.CreatedAt }, none), db) ∧
      handlers.grpc.auth.respondRegister formatRFC3339
          (.ok { u with PasswordHash := hash }, db) =
        handlers.grpc.auth.respondRegister formatRFC3339 (.ok u, db) ∧
      handlers.grpc.auth.respondGetCurrentUser formatRFC3339 db
          (.ok { u with PasswordHash := hash }) =
        handlers.grpc.auth.respondGetCurrentUser formatRFC3339 db (.ok u)) ∧
    User.jsonEncoding { u with PasswordHash := hash } = User.jsonEncoding u ∧
    (User.jsonEncoding u).map Prod.fst =
      ["id", "email", "name", "created_at", "updated_at"] := by
  refine ⟨fun c db => ⟨rfl, rfl, rfl, rfl⟩, fun f db => ⟨rfl, rfl, rfl⟩, rfl, rfl⟩

/-- Witness of C23: the registration of `new@b.com` through the HTTP handler writes the
user without the hash `h:secret1` the database stores. -/
theorem C23_password_hash_not_exposed_witness :
    (handlers.http.auth.Handler.Register sampleRuntime id
        (sampleRegisterRequest, sampleDB)).1.Written =
      [(201, .ofUser { ID := "u3", Email := "new@b.com", Name := "Cy",
                       CreatedAt := 1000000000000 })] ∧
    handlers.http.auth.respondRegister sampleRegisterRequest
        (.ok { ID := "u3", Email := "new@b.com", PasswordHash := "another", Name := "Cy",
               CreatedAt := 1000000000000, UpdatedAt := 1000000000000 }, sampleDB) =
      handlers.http.auth.respondRegister sampleRegisterRequest
        (.ok { ID := "u3", Email := "new@b.com", PasswordHash := "h:secret1", Name := "Cy",
               CreatedAt := 1000000000000, UpdatedAt := 1000000000000 }, sampleDB) :=
  ⟨by decide,
   ((C23_password_hash_not_exposed
      { ID := "u3", Email := "new@b.com", PasswordHash := "h:secret1", Name := "Cy",
        CreatedAt := 1000000000000, UpdatedAt := 1000000000000 } "another").1
      sampleRegisterRequest sampleDB).2.1⟩

/-! ### Password validation -/

/-- C27, the code at a password of four characters. The password made of two letters
U+00E9, the digit `1` and the letter `a` has four characters, fewer than the six that the
text of `ErrWeakPassword` asks for, and `ValidatePassword` returns nil: `len` counts the
six bytes of its encoding. -/
theorem C27_four_character_password_accepted :
    accentPassword.length = 4 ∧ accentPassword.utf8ByteSize = 6 ∧
    pkg.validator.ValidatePassword accentPassword = none ∧
    pkg.validator.ErrWeakPassword.Error =
      "password must be at least 6 characters with at least one number and one letter" := by
  decide

/-! ### Cache -/

/-- C25, the code at the failing input. `cache.Set` issues the write of the client with
expiration 0 whatever its argument `expiration` is: the key is stored without time to
live and a read returns the value at every later instant. With the expiration 60 at
instant 0, the key is still read at instant 61, where a write that carried the
expiration 60 would have let it expire. -/
theorem C25_set_ignores_expiration (client : redis.Client) (now : Int)
    (key value : String) (expiration : Int) :
    cache.Set client now key value expiration = client.Set now key value 0 ∧
    (cache.Set client now key value expiration).2.head? =
      some { key := key, value := value, expireAt := none } ∧
    (∀ later : Int, cache.Get (cache.Set client now key value expiration).2 later key =
      (value, none)) ∧
    cache.Set [] 0 "k" "v" 60 =
      (none, [{ key := "k", value := "v", expireAt := none }]) ∧
    cache.Get (cache.Set [] 0 "k" "v" 60).2 61 "k" = ("v", none) ∧
    redis.Client.Get (redis.Client.Set [] 0 "k" "v" 60).2 61 "k" = ("", some redis.Nil) := by
  refine ⟨rfl, rfl, ?_, by decide, by decide, by decide⟩
  intro later
  simp [cache.Get, cache.Set, redis.Client.Get, redis.Client.Set, redis.Entry.alive,
    List.find?_cons]

/-! ### C24: configuration defaults -/

theorem godotenvLoad_unset (environ : String → Option String)
    (dotenvFile : Option (String → Option String))
    (henv : ∀ key, environ key = none)
    (hfile : ∀ vars, dotenvFile = some vars → ∀ key, vars key = none) (key : String) :
    config.godotenvLoad environ dotenvFile key = none := by
  unfold config.godotenvLoad
  rw [henv key]
  cases dotenvFile with
  | none => rfl
  | some vars => exact hfile vars rfl key

theorem getEnv_unset (env : String → Option String) (key d : String)
    (h : env key = none) : config.getEnv env key d = d := by
  simp [config.getEnv, config.osGetenv, h]

theorem getEnvAsInt_unset (P : config.Parsers) (hP : P.RejectEmpty)
    (env : String → Option String) (key : String) (d : Int) (h : env key = none) :
    config.getEnvAsInt P env key d = d := by
  obtain ⟨err, herr⟩ := hP.1
  simp [config.getEnvAsInt, getEnv_unset env key "" h, herr]

theorem getEnvAsDuration_unset (P : config.Parsers) (hP : P.RejectEmpty)
    (env : String → Option String) (key : String) (d : Int) (h : env key = none) :
    config.getEnvAsDuration P env key d = d := by
  obtain ⟨err, herr⟩ := hP.2
  simp [config.getEnvAsDuration, getEnv_unset env key "" h, herr]

/-- C24, counterexample: the process has none of the variables set, the file `.env` of
the working directory holds `PORT=3000`, and `Load` returns HTTP port 3000, not 8080. -/
theorem C24_dotenv_file_overrides_default :
    (∀ key, emptyEnviron key = none) ∧
    (config.Load config.digitParsers emptyEnviron (some portDotenv)).1.App.Port = 3000 ∧
    (config.Load config.digitParsers emptyEnviron (some portDotenv)).1.App.Port ≠ 8080 := by
  refine ⟨fun _ => rfl, ?_, ?_⟩ <;> decide

/-- C24, amended: `getEnv` returns the default when the variable is unset or empty and
the value of the variable otherwise; `getEnvAsInt` returns the parsed value when the
variable holds an integer and the default otherwise; `Load` never returns an error; and
when neither the process nor the file `.env` sets a variable, `Load` returns the
defaults, among them HTTP port 8080, RPC port 9090, database port 5432, cache port 6379,
token expiry 24 hours and external-call timeout 5 seconds. -/
theorem C24_configuration_defaults (P : config.Parsers) (hP : P.RejectEmpty) :
    (∀ (env : String → Option String) (key d : String),
      (env key = none ∨ env key = some "" → config.getEnv env key d = d) ∧
      (∀ value, env key = some value → value ≠ "" → config.getEnv env key d = value)) ∧
    (∀ (env : String → Option String) (key : String) (d : Int),
      (∀ value n, env key = some value → P.Atoi value = .ok n →
        config.getEnvAsInt P env key d = n) ∧
      ((∀ value n, env key = some value → P.Atoi value ≠ .ok n) →
        config.getEnvAsInt P env key d = d)) ∧
    (∀ environ dotenvFile, (config.Load P environ dotenvFile).2 = none) ∧
    (∀ (environ : String → Option String) (dotenvFile : Option (String → Option String)),
      (∀ key, environ key = none) →
      (∀ vars, dotenvFile = some vars → ∀ key, vars key = none) →
      (config.Load P environ dotenvFile).1 =
        { App := { Name := "go-api-template", Environment := "development",
                   Port := 8080, GRPCPort := 9090 }
          Database := { Host := "localhost", Port := 5432, User := "postgres",
                        Password := "postgres", Name := "api_db", SSLMode := "disable",
                        MigrationSource :=
                          "file://internal/infrastructure/database/migrations/postgres" }
          Redis := { Host := "localhost", Port := 6379, Password := "", DB := 0 }
          JWT := { Secret := "default-secret-key-for-development-only",
                   ExpirationHours := 24 }
          Telemetry := { ServiceName := "go-api-template",
                         ExporterEndpoint := "localhost:4317" }
          ExternalAPI := { Timeout := 5 * 1000000000 } }) := by
  obtain ⟨⟨errA, hA⟩, _⟩ := id hP
  refine ⟨?_, ?_, ?_, ?_⟩
  · intro env key d
    refine ⟨?_, ?_⟩
    · rintro (h | h) <;> simp [config.getEnv, config.osGetenv, h]
    · intro value h hne
      simp [config.getEnv, config.osGetenv, h, hne]
  · intro env key d
    refine ⟨?_, ?_⟩
    · intro value n h hn
      by_cases hv : value = ""
      · subst hv
        rw [hA] at hn
        cases hn
      · simp [config.getEnvAsInt, config.getEnv, config.osGetenv, h, hv, hn]
    · intro h
      unfold config.getEnvAsInt
      cases hv : env key with
      | none => simp [config.getEnv, config.osGetenv, hv, hA]
      | some value =>
        by_cases he : value = ""
        · subst he
          simp [config.getEnv, config.osGetenv, hv, hA]
        · have hg : config.getEnv env key "" = value := by
            simp [config.getEnv, config.osGetenv, hv, he]
          simp only [hg]
          cases hp : P.Atoi value with
          | error e => rfl
          | ok n => exact absurd hp (h value n hv)
  · intro environ dotenvFile
    rfl
  · intro environ dotenvFile henv hfile
    have hu := godotenvLoad_unset environ dotenvFile henv hfile
    simp only [config.Load, getEnv_unset _ _ _ (hu _), getEnvAsInt_unset P hP _ _ _ (hu _),
      getEnvAsDuration_unset P hP _ _ _ (hu _), config.Second]

theorem C24_configuration_defaults_witness :
    config.digitParsers.RejectEmpty ∧
    config.getEnv sampleEnviron "APP_NAME" "go-api-template" = "go-api-template" ∧
    config.getEnvAsInt config.digitParsers sampleEnviron "PORT" 8080 = 8443 ∧
    (config.Load config.digitParsers emptyEnviron none).1.App.Port = 8080 ∧
    (config.Load config.digitParsers emptyEnviron none).1.ExternalAPI.Timeout =
      5 * 1000000000 :=
  have hP : config.digitParsers.RejectEmpty := ⟨⟨_, rfl⟩, ⟨_, rfl⟩⟩
  have h := C24_configuration_defaults config.digitParsers hP
  ⟨hP,
   (h.1 sampleEnviron "APP_NAME" "go-api-template").1 (Or.inr (by decide)),
   (h.2.1 sampleEnviron "PORT" 8080).1 "8443" 8443 (by decide) (by rfl),
   by rw [h.2.2.2 emptyEnviron none (fun _ => rfl) (fun _ hv => by cases hv)],
   by rw [h.2.2.2 emptyEnviron none (fun _ => rfl) (fun _ hv => by cases hv)]⟩

/-! ### C28: the format of the authorization value -/

theorem not_bearer_pair_lower (t : String) :
    ¬ ∃ tok, stringsSplit ("bearer " ++ t) ' ' = ["Bearer", tok] := by
  rintro ⟨tok, h⟩
  have h1 := ((stringsSplit_eq_bearer_pair _ tok).mp h).1
  have h2 := congrArg String.data h1
  simp only [String.data_append] at h2
  have h3 := congrArg List.head? h2
  simp at h3

theorem not_bearer_pair_of_space (header rest : String)
    (h : header = "Bearer " ++ rest) (hsp : ' ' ∈ rest.toList) :
    ¬ ∃ tok, stringsSplit header ' ' = ["Bearer", tok] := by
  rintro ⟨tok, hs⟩
  obtain ⟨h1, h2⟩ := (stringsSplit_eq_bearer_pair _ tok).mp hs
  rw [h] at h1
  have h3 := congrArg String.data h1
  simp only [String.data_append, List.append_cancel_left_eq] at h3
  have hsp2 : ' ' ∈ rest.data := hsp
  rw [h3] at hsp2
  exact h2 hsp2

theorem not_bearer_pair_of_no_space (t : String) (hsp : ' ' ∉ t.toList) :
    ¬ ∃ tok, stringsSplit t ' ' = ["Bearer", tok] := by
  rintro ⟨tok, hs⟩
  obtain ⟨h1, _⟩ := (stringsSplit_eq_bearer_pair _ tok).mp hs
  apply hsp
  rw [h1]
  show ' ' ∈ ("Bearer " ++ tok).data
  simp [String.data_append]

theorem AuthMiddleware_not_pair (rt : Runtime)
    (next : gin.Context × DB → gin.Context × DB) (c : gin.Context) (db : DB)
    (h : c.GetHeader "Authorization" ≠ "")
    (hform : ¬ ∃ tok, stringsSplit (c.GetHeader "Authorization") ' ' = ["Bearer", tok]) :
    middleware.AuthMiddleware rt next (c, db) =
      (c.AbortWithStatusJSON 401
        (.H [("error", "Authorization header format must be Bearer \x7btoken\x7d")]),
        db) :=
  AuthMiddleware_malformed rt next c db h
    (fun ⟨tok, htok⟩ => hform ⟨tok, (stringsSplit_eq_bearer_pair _ tok).mpr htok⟩)

theorem GRPCAuth_not_pair (rt : Runtime) {Req Resp : Type} (ctx : grpc.Context) (req : Req)
    (fullMethod : String) (handler : grpc.Context → Req → Option Resp × Option GoError)
    (md : grpc.MD) (header : String) (rest : List String)
    (hpub : middleware.isPublicMethod fullMethod = false)
    (hmd : ctx.incomingMD = some md) (hval : md.Get "authorization" = header :: rest)
    (hform : ¬ ∃ tok, stringsSplit header ' ' = ["Bearer", tok]) :
    middleware.GRPCAuth rt ctx req fullMethod handler =
      (none, some (.status .Unauthenticated
        "invalid authorization format, expected 'Bearer \x7btoken\x7d'")) := by
  have hparts : (((stringsSplit header ' ').length != 2 ||
      (stringsSplit header ' ').getD 0 "" != "Bearer")) = true := by
    rw [← Bool.not_eq_false, bearer_parts_iff]
    exact hform
  unfold middleware.GRPCAuth
  simp only [hpub, Bool.false_eq_true, if_false, hmd, hval, List.length_cons,
    List.getD_cons_zero, hparts, if_true]
  simp

theorem AuthMiddleware_pair (rt : Runtime)
    (next : gin.Context × DB → gin.Context × DB) (c : gin.Context) (db : DB)
    (tok : String)
    (h : stringsSplit (c.GetHeader "Authorization") ' ' = ["Bearer", tok]) :
    (∀ err, pkg.auth.ValidateToken rt.jwtlib rt.getenv rt.now tok = .error err →
      middleware.AuthMiddleware rt next (c, db) =
        (c.AbortWithStatusJSON 401 (.H [("error", "Invalid or expired token")]), db)) ∧
    (∀ claims, pkg.auth.ValidateToken rt.jwtlib rt.getenv rt.now tok = .ok claims →
      middleware.AuthMiddleware rt next (c, db) =
        next (c.Set "user_id" (.str claims.UserID), db)) := by
  obtain ⟨h1, h2⟩ := (stringsSplit_eq_bearer_pair _ tok).mp h
  have key := AuthMiddleware_bearer rt next c db tok h1 h2
  refine ⟨fun err he => ?_, fun claims hc => ?_⟩
  · rw [key, he]
  · rw [key, hc]

theorem GRPCAuth_pair (rt : Runtime) {Req Resp : Type} (ctx : grpc.Context) (req : Req)
    (fullMethod : String) (handler : grpc.Context → Req → Option Resp × Option GoError)
    (md : grpc.MD) (header : String) (rest : List String) (tok : String)
    (hpub : middleware.isPublicMethod fullMethod = false)
    (hmd : ctx.incomingMD = some md) (hval : md.Get "authorization" = header :: rest)
    (h : stringsSplit header ' ' = ["Bearer", tok]) :
    (∀ err, pkg.auth.ValidateToken rt.jwtlib rt.getenv rt.now tok = .error err →
      middleware.GRPCAuth rt ctx req fullMethod handler =
        (none, some (.status .Unauthenticated ("invalid token: " ++ err.Error)))) ∧
    (∀ claims, pkg.auth.ValidateToken rt.jwtlib rt.getenv rt.now tok = .ok claims →
      middleware.GRPCAuth rt ctx req fullMethod handler =
        handler (ctx.WithValue middleware.UserIDKey (.str claims.UserID)) req) := by
  obtain ⟨h1, h2⟩ := (stringsSplit_eq_bearer_pair _ tok).mp h
  have key := GRPCAuth_bearer rt ctx req fullMethod handler md header rest tok hpub hmd hval
    h1 h2
  refine ⟨fun err he => ?_, fun claims hc => ?_⟩
  · rw [key, he]
  · rw [key, hc]

/-- C28: both middlewares hand a token to `ValidateToken` exactly when the authorization
value, split at the space, is the pair of `Bearer` and the token. The values `bearer t`,
`Bearer  t` with two spaces and `Bearer t x`, for all `t` and `x`, and `t` alone, for a
non-empty `t` without a space, are rejected as unauthenticated with a response that
depends neither on the token library nor on the rest of the chain; the value `Bearer `
is answered by the outcome of `ValidateToken` on the empty token. -/
theorem C28_bearer_format (t x header : String)
    (hbad : header = "bearer " ++ t ∨ header = "Bearer  " ++ t ∨
      header = "Bearer " ++ t ++ " " ++ x ∨ (header = t ∧ t ≠ "" ∧ ' ' ∉ t.toList)) :
    (¬ ∃ tok, stringsSplit header ' ' = ["Bearer", tok]) ∧
    (∀ (rt : Runtime) (next : gin.Context × DB → gin.Context × DB) (c : gin.Context)
      (db : DB), c.GetHeader "Authorization" = header →
      middleware.AuthMiddleware rt next (c, db) =
        (c.AbortWithStatusJSON 401
          (.H [("error", "Authorization header format must be Bearer \x7btoken\x7d")]),
          db)) ∧
    (∀ (rt : Runtime) (Req Resp : Type) (ctx : grpc.Context) (req : Req)
      (fullMethod : String) (handler : grpc.Context → Req → Option Resp × Option GoError)
      (md : grpc.MD) (rest : List String),
      middleware.isPublicMethod fullMethod = false → ctx.incomingMD = some md →
      md.Get "authorization" = header :: rest →
      middleware.GRPCAuth rt ctx req fullMethod handler =
        (none, some (.status .Unauthenticated
          "invalid authorization format, expected 'Bearer \x7btoken\x7d'"))) ∧
    stringsSplit "Bearer " ' ' = ["Bearer", ""] ∧
    (∀ (rt : Runtime) (next : gin.Context × DB → gin.Context × DB) (c : gin.Context)
      (db : DB) (value tok : String), c.GetHeader "Authorization" = value →
      stringsSplit value ' ' = ["Bearer", tok] →
      (∀ err, pkg.auth.ValidateToken rt.jwtlib rt.getenv rt.now tok = .error err →
        middleware.AuthMiddleware rt next (c, db) =
          (c.AbortWithStatusJSON 401 (.H [("error", "Invalid or expired token")]), db)) ∧
      (∀ claims, pkg.auth.ValidateToken rt.jwtlib rt.getenv rt.now tok = .ok claims →
        middleware.AuthMiddleware rt next (c, db) =
          next (c.Set "user_id" (.str claims.UserID), db))) ∧
    (∀ (rt : Runtime) (Req Resp : Type) (ctx : grpc.Context) (req : Req)
      (fullMethod : String) (handler : grpc.Context → Req → Option Resp × Option GoError)
      (md : grpc.MD) (value : String) (rest : List String) (tok : String),
      middleware.isPublicMethod fullMethod = false → ctx.incomingMD = some md →
      md.Get "authorization" = value :: rest →
      stringsSplit value ' ' = ["Bearer", tok] →
      (∀ err, pkg.auth.ValidateToken rt.jwtlib rt.getenv rt.now tok = .error err →
        middleware.GRPCAuth rt ctx req fullMethod handler =
          (none, some (.status .Unauthenticated ("invalid token: " ++ err.Error)))) ∧
      (∀ claims, pkg.auth.ValidateToken rt.jwtlib rt.getenv rt.now tok = .ok claims →
        middleware.GRPCAuth rt ctx req fullMethod handler =
          handler (ctx.WithValue middleware.UserIDKey (.str claims.UserID)) req)) ∧
    (∀ (c : gin.Context) (db : DB),
      (¬ ∃ tok, stringsSplit (c.GetHeader "Authorization") ' ' = ["Bearer", tok]) →
      ∃ body, ∀ (rt' : Runtime) (next' : gin.Context × DB → gin.Context × DB),
        middleware.AuthMiddleware rt' next' (c, db) =
          (c.AbortWithStatusJSON 401 body, db)) ∧
    (∀ (Req Resp : Type) (ctx : grpc.Context) (req : Req) (fullMethod : String)
      (md : grpc.MD) (value : String) (rest : List String),
      middleware.isPublicMethod fullMethod = false → ctx.incomingMD = some md →
      md.Get "authorization" = value :: rest →
      (¬ ∃ tok, stringsSplit value ' ' = ["Bearer", tok]) →
      ∃ msg, ∀ (rt' : Runtime)
        (handler' : grpc.Context → Req → Option Resp × Option GoError),
        middleware.GRPCAuth rt' ctx req fullMethod handler' =
          (none, some (.status .Unauthenticated msg))) := by
  have hform : ¬ ∃ tok, stringsSplit header ' ' = ["Bearer", tok] := by
    rcases hbad with h | h | h | ⟨h, _, hsp⟩
    · rw [h]
      exact not_bearer_pair_lower t
    · refine not_bearer_pair_of_space header (" " ++ t) ?_ ?_
      · rw [h]
        apply String.ext
        simp [String.data_append]
      · show ' ' ∈ (" " ++ t).data
        simp [String.data_append]
    · refine not_bearer_pair_of_space header (t ++ " " ++ x) ?_ ?_
      · rw [h]
        apply String.ext
        simp [String.data_append]
      · show ' ' ∈ (t ++ " " ++ x).data
        simp [String.data_append]
    · rw [h]
      exact not_bearer_pair_of_no_space t hsp
  have hne : header ≠ "" := by
    rcases hbad with h | h | h | ⟨h, hne, _⟩
    · rw [h]
      intro he
      have := congrArg String.length he
      simp only [String.length_append] at this
      have h7 : "bearer ".length = 7 := by decide
      have h0 : ("" : String).length = 0 := rfl
      omega
    · rw [h]
      intro he
      have := congrArg String.length he
      simp only [String.length_append] at this
      have h7 : "Bearer  ".length = 8 := by decide
      have h0 : ("" : String).length = 0 := rfl
      omega
    · rw [h]
      intro he
      have := congrArg String.length he
      simp only [String.length_append] at this
      have h7 : "Bearer ".length = 7 := by decide
      have h0 : ("" : String).length = 0 := rfl
      omega
    · rw [h]
      exact hne
  refine ⟨hform, ?_, ?_, by decide, ?_, ?_, ?_, ?_⟩
  · intro rt next c db hc
    exact AuthMiddleware_not_pair rt next c db (hc ▸ hne) (hc ▸ hform)
  · intro rt Req Resp ctx req fullMethod handler md rest hpub hmd hval
    exact GRPCAuth_not_pair rt ctx req fullMethod handler md header rest hpub hmd hval hform
  · intro rt next c db value tok hc hs
    exact AuthMiddleware_pair rt next c db tok (hc ▸ hs)
  · intro rt Req Resp ctx req fullMethod handler md value rest tok hpub hmd hval hs
    exact GRPCAuth_pair rt ctx req fullMethod handler md value rest tok hpub hmd hval hs
  · intro c db hn
    by_cases he : c.GetHeader "Authorization" = ""
    · exact ⟨_, fun rt' next' => AuthMiddleware_no_header rt' next' c db he⟩
    · exact ⟨_, fun rt' next' => AuthMiddleware_not_pair rt' next' c db he hn⟩
  · intro Req Resp ctx req fullMethod md value rest hpub hmd hval hn
    exact ⟨_, fun rt' handler' =>
      GRPCAuth_not_pair rt' ctx req fullMethod handler' md value rest hpub hmd hval hn⟩

theorem C28_bearer_format_witness :
    middleware.AuthMiddleware sampleRuntime id
        (sampleRequest "GET" "/api/v1/auth/me" [("Authorization", "bearer tok-u1")],
          sampleDB) =
      ((sampleRequest "GET" "/api/v1/auth/me"
          [("Authorization", "bearer tok-u1")]).AbortWithStatusJSON 401
        (.H [("error", "Authorization header format must be Bearer \x7btoken\x7d")]),
        sampleDB) :=
  (C28_bearer_format "tok-u1" "" "bearer tok-u1" (Or.inl (by decide))).2.1
    sampleRuntime id _ sampleDB (by decide)

/-! ### C29: the three authentication middlewares agree -/

theorem GRPCStreamAuth_not_pair (rt : Runtime) {Srv : Type} (srv : Srv)
    (ss : grpc.ServerStream) (fullMethod : String)
    (handler : Srv → grpc.ServerStream → Option GoError)
    (md : grpc.MD) (header : String) (rest : List String)
    (hpub : middleware.isPublicMethod fullMethod = false)
    (hmd : ss.Context.incomingMD = some md) (hval : md.Get "authorization" = header :: rest)
    (hform : ¬ ∃ tok, stringsSplit header ' ' = ["Bearer", tok]) :
    middleware.GRPCStreamAuth rt srv ss fullMethod handler =
      some (.status .Unauthenticated
        "invalid authorization format, expected 'Bearer \x7btoken\x7d'") := by
  have hparts : (((stringsSplit header ' ').length != 2 ||
      (stringsSplit header ' ').getD 0 "" != "Bearer")) = true := by
    rw [← Bool.not_eq_false, bearer_parts_iff]
    exact hform
  unfold middleware.GRPCStreamAuth
  simp only [hpub, Bool.false_eq_true, if_false, hmd, hval, List.length_cons,
    List.getD_cons_zero, hparts, if_true]
  simp

theorem GRPCStreamAuth_pair (rt : Runtime) {Srv : Type} (srv : Srv)
    (ss : grpc.ServerStream) (fullMethod : String)
    (handler : Srv → grpc.ServerStream → Option GoError)
    (md : grpc.MD) (header : String) (rest : List String) (tok : String)
    (hpub : middleware.isPublicMethod fullMethod = false)
    (hmd : ss.Context.incomingMD = some md) (hval : md.Get "authorization" = header :: rest)
    (h : stringsSplit header ' ' = ["Bearer", tok]) :
    (∀ err, pkg.auth.ValidateToken rt.jwtlib rt.getenv rt.now tok = .error err →
      middleware.GRPCStreamAuth rt srv ss fullMethod handler =
        some (.status .Unauthenticated ("invalid token: " ++ err.Error))) ∧
    (∀ claims, pkg.auth.ValidateToken rt.jwtlib rt.getenv rt.now tok = .ok claims →
      middleware.GRPCStreamAuth rt srv ss fullMethod handler =
        handler srv
          { ctx := ss.Context.WithValue middleware.UserIDKey (.str claims.UserID) }) := by
  refine ⟨fun err he => ?_, fun claims hc => ?_⟩
  · unfold middleware.GRPCStreamAuth
    simp only [hpub, Bool.false_eq_true, if_false, hmd, hval, List.length_cons,
      List.getD_cons_zero, h]
    simp [he]
  · unfold middleware.GRPCStreamAuth
    simp only [hpub, Bool.false_eq_true, if_false, hmd, hval, List.length_cons,
      List.getD_cons_zero, h]
    simp [hc, middleware.wrappedServerStream.asServerStream,
      middleware.wrappedServerStream.Context]

theorem GetUserIDFromContext_WithValue (ctx : grpc.Context) (uid : String) :
    middleware.GetUserIDFromContext (ctx.WithValue middleware.UserIDKey (.str uid)) =
      (uid, none) := by
  simp [middleware.GetUserIDFromContext, grpc.Context.WithValue, grpc.Context.Value,
    List.lookup]

/-- C29: for a method that is not public and an authorization value, read from the
header `Authorization` by the HTTP middleware and as the first value of the metadata
`authorization` by the two interceptors, the three make the same decision under the same
token library, secret and clock: either all three reject the request as unauthenticated,
whatever follows them, or all three continue with the same user identifier attached,
which `GetUserIDFromContext` returns on the RPC side. Without metadata or without a
value the interceptors reject, as the HTTP middleware does without a header. -/
theorem C29_middlewares_agree (rt : Runtime) (value fullMethod : String)
    (hpub : middleware.isPublicMethod fullMethod = false) :
    ((∃ body msg,
        (∀ (next : gin.Context × DB → gin.Context × DB) (c : gin.Context) (db : DB),
          c.GetHeader "Authorization" = value →
          middleware.AuthMiddleware rt next (c, db) =
            (c.AbortWithStatusJSON 401 body, db)) ∧
        (∀ (Req Resp : Type) (ctx : grpc.Context) (req : Req)
          (handler : grpc.Context → Req → Option Resp × Option GoError)
          (md : grpc.MD) (rest : List String),
          ctx.incomingMD = some md → md.Get "authorization" = value :: rest →
          middleware.GRPCAuth rt ctx req fullMethod handler =
            (none, some (.status .Unauthenticated msg))) ∧
        (∀ (Srv : Type) (srv : Srv) (ss : grpc.ServerStream)
          (handler : Srv → grpc.ServerStream → Option GoError)
          (md : grpc.MD) (rest : List String),
          ss.Context.incomingMD = some md → md.Get "authorization" = value :: rest →
          middleware.GRPCStreamAuth rt srv ss fullMethod handler =
            some (.status .Unauthenticated msg))) ∨
      (∃ uid,
        (∀ (next : gin.Context × DB → gin.Context × DB) (c : gin.Context) (db : DB),
          c.GetHeader "Authorization" = value →
          middleware.AuthMiddleware rt next (c, db) =
            next (c.Set "user_id" (.str uid), db) ∧
          (c.Set "user_id" (.str uid)).Get "user_id" = some (.str uid)) ∧
        (∀ (Req Resp : Type) (ctx : grpc.Context) (req : Req)
          (handler : grpc.Context → Req → Option Resp × Option GoError)
          (md : grpc.MD) (rest : List String),
          ctx.incomingMD = some md → md.Get "authorization" = value :: rest →
          middleware.GRPCAuth rt ctx req fullMethod handler =
            handler (ctx.WithValue middleware.UserIDKey (.str uid)) req ∧
          middleware.GetUserIDFromContext
            (ctx.WithValue middleware.UserIDKey (.str uid)) = (uid, none)) ∧
        (∀ (Srv : Type) (srv : Srv) (ss : grpc.ServerStream)
          (handler : Srv → grpc.ServerStream → Option GoError)
          (md : grpc.MD) (rest : List String),
          ss.Context.incomingMD = some md → md.Get "authorization" = value :: rest →
          ∃ wrapped : grpc.ServerStream,
            middleware.GRPCStreamAuth rt srv ss fullMethod handler = handler srv wrapped ∧
            middleware.GetUserIDFromContext wrapped.Context = (uid, none)))) ∧
    (∀ (next : gin.Context × DB → gin.Context × DB) (c : gin.Context) (db : DB),
      c.GetHeader "Authorization" = "" →
      middleware.AuthMiddleware rt next (c, db) =
        (c.AbortWithStatusJSON 401 (.H [("error", "Authorization header is required")]),
          db)) ∧
    (∀ (Req Resp : Type) (ctx : grpc.Context) (req : Req)
      (handler : grpc.Context → Req → Option Resp × Option GoError)
      (Srv : Type) (srv : Srv) (ss : grpc.ServerStream)
      (shandler : Srv → grpc.ServerStream → Option GoError),
      ss.Context = ctx →
      (ctx.incomingMD = none ∨ ∃ md, ctx.incomingMD = some md ∧ md.Get "authorization" = []) →
      ∃ msg,
        middleware.GRPCAuth rt ctx req fullMethod handler =
          (none, some (.status .Unauthenticated msg)) ∧
        middleware.GRPCStreamAuth rt srv ss fullMethod shandler =
          some (.status .Unauthenticated msg)) := by
  refine ⟨?_, ?_, ?_⟩
  · by_cases hform : ∃ tok, stringsSplit value ' ' = ["Bearer", tok]
    · obtain ⟨tok, hs⟩ := hform
      cases hv : pkg.auth.ValidateToken rt.jwtlib rt.getenv rt.now tok with
      | error err =>
        refine Or.inl ⟨.H [("error", "Invalid or expired token")],
          "invalid token: " ++ err.Error, ?_, ?_, ?_⟩
        · intro next c db hc
          exact (AuthMiddleware_pair rt next c db tok (hc ▸ hs)).1 err hv
        · intro Req Resp ctx req handler md rest hmd hval
          exact (GRPCAuth_pair rt ctx req fullMethod handler md value rest tok hpub hmd
            hval hs).1 err hv
        · intro Srv srv ss handler md rest hmd hval
          exact (GRPCStreamAuth_pair rt srv ss fullMethod handler md value rest tok hpub
            hmd hval hs).1 err hv
      | ok claims =>
        refine Or.inr ⟨claims.UserID, ?_, ?_, ?_⟩
        · intro next c db hc
          refine ⟨(AuthMiddleware_pair rt next c db tok (hc ▸ hs)).2 claims hv, ?_⟩
          simp [gin.Context.Set, gin.Context.Get, List.lookup]
        · intro Req Resp ctx req handler md rest hmd hval
          exact ⟨(GRPCAuth_pair rt ctx req fullMethod handler md value rest tok hpub hmd
            hval hs).2 claims hv, GetUserIDFromContext_WithValue ctx claims.UserID⟩
        · intro Srv srv ss handler md rest hmd hval
          exact ⟨{ ctx := ss.Context.WithValue middleware.UserIDKey (.str claims.UserID) },
            (GRPCStreamAuth_pair rt srv ss fullMethod handler md value rest tok
              hpub hmd hval hs).2 claims hv,
            GetUserIDFromContext_WithValue ss.Context claims.UserID⟩
    · by_cases he : value = ""
      · refine Or.inl ⟨.H [("error", "Authorization header is required")],
          "invalid authorization format, expected 'Bearer \x7btoken\x7d'", ?_, ?_, ?_⟩
        · intro next c db hc
          exact AuthMiddleware_no_header rt next c db (hc.trans he)
        · intro Req Resp ctx req handler md rest hmd hval
          exact GRPCAuth_not_pair rt ctx req fullMethod handler md value rest hpub hmd hval
            hform
        · intro Srv srv ss handler md rest hmd hval
          exact GRPCStreamAuth_not_pair rt srv ss fullMethod handler md value rest hpub hmd
            hval hform
      · refine Or.inl ⟨.H [("error", "Authorization header format must be Bearer \x7btoken\x7d")],
          "invalid authorization format, expected 'Bearer \x7btoken\x7d'", ?_, ?_, ?_⟩
        · intro next c db hc
          exact AuthMiddleware_not_pair rt next c db (hc ▸ he) (hc ▸ hform)
        · intro Req Resp ctx req handler md rest hmd hval
          exact GRPCAuth_not_pair rt ctx req fullMethod handler md value rest hpub hmd hval
            hform
        · intro Srv srv ss handler md rest hmd hval
          exact GRPCStreamAuth_not_pair rt srv ss fullMethod handler md value rest hpub hmd
            hval hform
  · intro next c db hc
    exact AuthMiddleware_no_header rt next c db hc
  · intro Req Resp ctx req handler Srv srv ss shandler hss hctx
    rcases hctx with hmd | ⟨md, hmd, hval⟩
    · refine ⟨"metadata is required", ?_, ?_⟩
      · simp [middleware.GRPCAuth, hpub, hmd]
      · simp [middleware.GRPCStreamAuth, hpub, hss, hmd]
    · refine ⟨"authorization token is required", ?_, ?_⟩
      · simp [middleware.GRPCAuth, hpub, hmd, hval]
      · simp [middleware.GRPCStreamAuth, hpub, hss, hmd, hval]

theorem C29_middlewares_agree_witness :
    middleware.isPublicMethod "/message.MessageService/GetMessage" = false ∧
    middleware.AuthMiddleware sampleRuntime id
        (sampleRequest "GET" "/api/v1/auth/me" [("Authorization", "Bearer tok-u1")],
          sampleDB) =
      ((sampleRequest "GET" "/api/v1/auth/me"
          [("Authorization", "Bearer tok-u1")]).Set "user_id" (.str "u1"), sampleDB) ∧
    middleware.GRPCAuth sampleRuntime bearerGrpcContext ()
        "/message.MessageService/GetMessage"
        (fun ctx _ => (some (middleware.GetUserIDFromContext ctx).1, none)) =
      (some "u1", none) ∧
    middleware.GRPCStreamAuth sampleRuntime () { ctx := bearerGrpcContext }
        "/message.MessageService/GetMessage"
        (fun _ ss => some (.other (middleware.GetUserIDFromContext ss.Context).1)) =
      some (.other "u1") ∧
    ((∃ body msg,
        (∀ (next : gin.Context × DB → gin.Context × DB) (c : gin.Context) (db : DB),
          c.GetHeader "Authorization" = "Bearer tok-u1" →
          middleware.AuthMiddleware sampleRuntime next (c, db) =
            (c.AbortWithStatusJSON 401 body, db)) ∧
        (∀ (Req Resp : Type) (ctx : grpc.Context) (req : Req)
          (handler : grpc.Context → Req → Option Resp × Option GoError)
          (md : grpc.MD) (rest : List String),
          ctx.incomingMD = some md → md.Get "authorization" = "Bearer tok-u1" :: rest →
          middleware.GRPCAuth sampleRuntime ctx req "/message.MessageService/GetMessage"
              handler =
            (none, some (.status .Unauthenticated msg))) ∧
        (∀ (Srv : Type) (srv : Srv) (ss : grpc.ServerStream)
          (handler : Srv → grpc.ServerStream → Option GoError)
          (md : grpc.MD) (rest : List String),
          ss.Context.incomingMD = some md →
          md.Get "authorization" = "Bearer tok-u1" :: rest →
          middleware.GRPCStreamAuth sampleRuntime srv ss
              "/message.MessageService/GetMessage" handler =
            some (.status .Unauthenticated msg))) ∨
      (∃ uid,
        (∀ (next : gin.Context × DB → gin.Context × DB) (c : gin.Context) (db : DB),
          c.GetHeader "Authorization" = "Bearer tok-u1" →
          middleware.AuthMiddleware sampleRuntime next (c, db) =
            next (c.Set "user_id" (.str uid), db) ∧
          (c.Set "user_id" (.str uid)).Get "user_id" = some (.str uid)) ∧
        (∀ (Req Resp : Type) (ctx : grpc.Context) (req : Req)
          (handler : grpc.Context → Req → Option Resp × Option GoError)
          (md : grpc.MD) (rest : List String),
          ctx.incomingMD = some md → md.Get "authorization" = "Bearer tok-u1" :: rest →
          middleware.GRPCAuth sampleRuntime ctx req "/message.MessageService/GetMessage"
              handler =
            handler (ctx.WithValue middleware.UserIDKey (.str uid)) req ∧
          middleware.GetUserIDFromContext
            (ctx.WithValue middleware.UserIDKey (.str uid)) = (uid, none)) ∧
        (∀ (Srv : Type) (srv : Srv) (ss : grpc.ServerStream)
          (handler : Srv → grpc.ServerStream → Option GoError)
          (md : grpc.MD) (rest : List String),
          ss.Context.incomingMD = some md →
          md.Get "authorization" = "Bearer tok-u1" :: rest →
          ∃ wrapped : grpc.ServerStream,
            middleware.GRPCStreamAuth sampleRuntime srv ss
                "/message.MessageService/GetMessage" handler = handler srv wrapped ∧
            middleware.GetUserIDFromContext wrapped.Context = (uid, none)))) :=
  ⟨by decide, by decide, by decide, by decide,
   (C29_middlewares_agree sampleRuntime "Bearer tok-u1"
     "/message.MessageService/GetMessage" (by decide)).1⟩

/-! ### C30: the identity read by the HTTP handlers -/

theorem JSON_frame (c : gin.Context) (status : Nat) (body : gin.ResponseBody)
    (hs : status ≠ 401) :
    (c.JSON status body).index = c.index ∧ (c.JSON status body).Panicked = c.Panicked ∧
    (c.JSON status body).Keys = c.Keys ∧
    ∃ resp, (c.JSON status body).Written = c.Written ++ [resp] ∧ resp.1 ≠ 401 :=
  ⟨rfl, rfl, rfl, (status, body), rfl, hs⟩

theorem mutationStatus_ne_401 (err : GoError) :
    handlers.http.message.mutationStatus err ≠ 401 := by
  unfold handlers.http.message.mutationStatus
  split
  · decide
  · split <;> decide

theorem Handler_Me_frame (rt : Runtime) (next : gin.Context × DB → gin.Context × DB)
    (c : gin.Context) (db : DB) (uid : String) (h : c.Get "user_id" = some (.str uid)) :
    (handlers.http.auth.Handler.Me rt next (c, db)).1.index = c.index ∧
    (handlers.http.auth.Handler.Me rt next (c, db)).1.Panicked = c.Panicked ∧
    (handlers.http.auth.Handler.Me rt next (c, db)).1.Keys = c.Keys ∧
    ∃ resp, (handlers.http.auth.Handler.Me rt next (c, db)).1.Written =
      c.Written ++ [resp] ∧ resp.1 ≠ 401 := by
  unfold handlers.http.auth.Handler.Me
  simp only [h]
  split
  · apply JSON_frame
    split <;> decide
  · exact JSON_frame _ _ _ (by decide)

theorem Handler_Get_frame (rt : Runtime) (next : gin.Context × DB → gin.Context × DB)
    (c : gin.Context) (db : DB) :
    (handlers.http.message.Handler.Get rt next (c, db)).1.index = c.index ∧
    (handlers.http.message.Handler.Get rt next (c, db)).1.Panicked = c.Panicked ∧
    (handlers.http.message.Handler.Get rt next (c, db)).1.Keys = c.Keys ∧
    ∃ resp, (handlers.http.message.Handler.Get rt next (c, db)).1.Written =
      c.Written ++ [resp] ∧ resp.1 ≠ 401 := by
  unfold handlers.http.message.Handler.Get
  simp only
  split
  · apply JSON_frame
    split <;> decide
  · exact JSON_frame _ _ _ (by decide)

theorem Handler_Create_frame (rt : Runtime) (next : gin.Context × DB → gin.Context × DB)
    (c : gin.Context) (db : DB) (uid : String) (h : c.Get "user_id" = some (.str uid)) :
    (handlers.http.message.Handler.Create rt next (c, db)).1.index = c.index ∧
    (handlers.http.message.Handler.Create rt next (c, db)).1.Panicked = c.Panicked ∧
    (handlers.http.message.Handler.Create rt next (c, db)).1.Keys = c.Keys ∧
    ∃ resp, (handlers.http.message.Handler.Create rt next (c, db)).1.Written =
      c.Written ++ [resp] ∧ resp.1 ≠ 401 := by
  unfold handlers.http.message.Handler.Create
  simp only [h]
  split
  · exact JSON_frame _ _ _ (by decide)
  · split
    · exact JSON_frame _ _ _ (by decide)
    · split
      · exact JSON_frame _ _ _ (by decide)
      · exact JSON_frame _ _ _ (by decide)

theorem Handler_Update_frame (rt : Runtime) (next : gin.Context × DB → gin.Context × DB)
    (c : gin.Context) (db : DB) (uid : String) (h : c.Get "user_id" = some (.str uid)) :
    (handlers.http.message.Handler.Update rt next (c, db)).1.index = c.index ∧
    (handlers.http.message.Handler.Update rt next (c, db)).1.Panicked = c.Panicked ∧
    (handlers.http.message.Handler.Update rt next (c, db)).1.Keys = c.Keys ∧
    ∃ resp, (handlers.http.message.Handler.Update rt next (c, db)).1.Written =
      c.Written ++ [resp] ∧ resp.1 ≠ 401 := by
  unfold handlers.http.message.Handler.Update
  simp only [h]
  split
  · exact JSON_frame _ _ _ (by decide)
  · split
    · exact JSON_frame _ _ _ (by decide)
    · split
      · exact JSON_frame _ _ _ (mutationStatus_ne_401 _)
      · exact JSON_frame _ _ _ (by decide)

theorem Handler_Delete_frame (rt : Runtime) (next : gin.Context × DB → gin.Context × DB)
    (c : gin.Context) (db : DB) (uid : String) (h : c.Get "user_id" = some (.str uid)) :
    (handlers.http.message.Handler.Delete rt next (c, db)).1.index = c.index ∧
    (handlers.http.message.Handler.Delete rt next (c, db)).1.Panicked = c.Panicked ∧
    (handlers.http.message.Handler.Delete rt next (c, db)).1.Keys = c.Keys ∧
    ∃ resp, (handlers.http.message.Handler.Delete rt next (c, db)).1.Written =
      c.Written ++ [resp] ∧ resp.1 ≠ 401 := by
  unfold handlers.http.message.Handler.Delete
  simp only [h]
  split
  · exact JSON_frame _ _ _ (mutationStatus_ne_401 _)
  · exact JSON_frame _ _ _ (by decide)

theorem AuthMiddleware_cases (rt : Runtime) (c : gin.Context) (db : DB) :
    (∃ entries, ∀ next : gin.Context × DB → gin.Context × DB,
      middleware.AuthMiddleware rt next (c, db) =
        (c.AbortWithStatusJSON 401 (.H entries), db)) ∨
    (∃ uid, ∀ next : gin.Context × DB → gin.Context × DB,
      middleware.AuthMiddleware rt next (c, db) =
        next (c.Set "user_id" (.str uid), db)) := by
  by_cases he : c.GetHeader "Authorization" = ""
  · exact Or.inl ⟨_, fun next => AuthMiddleware_no_header rt next c db he⟩
  · by_cases hform : ∃ tok, stringsSplit (c.GetHeader "Authorization") ' ' = ["Bearer", tok]
    · obtain ⟨tok, hs⟩ := hform
      cases hv : pkg.auth.ValidateToken rt.jwtlib rt.getenv rt.now tok with
      | error err =>
        exact Or.inl ⟨_, fun next => (AuthMiddleware_pair rt next c db tok hs).1 err hv⟩
      | ok claims =>
        exact Or.inr ⟨claims.UserID, fun next =>
          (AuthMiddleware_pair rt next c db tok hs).2 claims hv⟩
    · exact Or.inl ⟨_, fun next => AuthMiddleware_not_pair rt next c db he hform⟩

theorem runChain_single (h : gin.HandlerFunc) (c : gin.Context) (db : DB) :
    gin.runChain [h] (c, db) =
      if (h (gin.runChain []) ({ c with index := c.index + 1 }, db)).1.Panicked.isSome then
        h (gin.runChain []) ({ c with index := c.index + 1 }, db)
      else if (h (gin.runChain []) ({ c with index := c.index + 1 }, db)).1.index ==
          c.index + 1 then
        gin.runChain [] (h (gin.runChain []) ({ c with index := c.index + 1 }, db))
      else h (gin.runChain []) ({ c with index := c.index + 1 }, db) := by
  rfl

theorem runChain_nil (p : gin.Context × DB) :
    gin.runChain [] p = ({ p.1 with index := p.1.index + 1 }, p.2) := by
  obtain ⟨c, db⟩ := p
  rw [gin.runChain]

/-- The chain of a protected route, entered at position `-1` as `ServeHTTP` does: the
handler behind `AuthMiddleware` is applied only to contexts that hold a string under
`user_id`, and when the handler writes one response with a status other than 401 and
leaves position and panic as they are, so does the chain, apart from the 401 responses
of the middleware, whose body is a `gin.H`. -/
theorem protected_chain (rt : Runtime) (h : gin.HandlerFunc)
    (hframe : ∀ (next : gin.Context × DB → gin.Context × DB) (c : gin.Context) (db : DB)
      (uid : String), c.Get "user_id" = some (.str uid) →
      (h next (c, db)).1.index = c.index ∧ (h next (c, db)).1.Panicked = c.Panicked ∧
      ∃ resp, (h next (c, db)).1.Written = c.Written ++ [resp] ∧ resp.1 ≠ 401)
    (c : gin.Context) (db : DB) (hidx : c.index = -1) :
    (∀ h2 : gin.HandlerFunc,
      (∀ (next : gin.Context × DB → gin.Context × DB) (c2 : gin.Context) (db2 : DB)
        (uid : String), c2.Get "user_id" = some (.str uid) →
        h2 next (c2, db2) = h next (c2, db2)) →
      gin.runChain [middleware.AuthMiddleware rt, h2] (c, db) =
        gin.runChain [middleware.AuthMiddleware rt, h] (c, db)) ∧
    (gin.runChain [middleware.AuthMiddleware rt, h] (c, db)).1.Panicked = c.Panicked ∧
    ∃ resp, (gin.runChain [middleware.AuthMiddleware rt, h] (c, db)).1.Written =
        c.Written ++ [resp] ∧
      resp ≠ (401, .ofError { Error := "Not authenticated" }) := by
  have key : ∀ h2 : gin.HandlerFunc,
      (∀ (next : gin.Context × DB → gin.Context × DB) (c2 : gin.Context) (db2 : DB)
        (uid : String), c2.Get "user_id" = some (.str uid) →
        h2 next (c2, db2) = h next (c2, db2)) →
      ∃ R : gin.Context × DB,
        gin.runChain [middleware.AuthMiddleware rt, h2] (c, db) = R ∧
        gin.runChain [middleware.AuthMiddleware rt, h] (c, db) = R ∧
        R.1.Panicked = c.Panicked ∧
        ∃ resp, R.1.Written = c.Written ++ [resp] ∧
          resp ≠ (401, .ofError { Error := "Not authenticated" }) := by
    intro h2 hagree
    rcases AuthMiddleware_cases rt { c with index := c.index + 1 } db with
      ⟨entries, hrej⟩ | ⟨uid, hacc⟩
    · refine ⟨(({ c with index := c.index + 1 } : gin.Context).AbortWithStatusJSON 401
        (.H entries), db), ?_, ?_, rfl, (401, .H entries), rfl, by simp⟩
      · rw [gin.runChain]
        simp only [hrej]
        simp [gin.Context.AbortWithStatusJSON, gin.Context.Abort, gin.Context.JSON,
          gin.abortIndex, hidx]
      · rw [gin.runChain]
        simp only [hrej]
        simp [gin.Context.AbortWithStatusJSON, gin.Context.Abort, gin.Context.JSON,
          gin.abortIndex, hidx]
    · have hget : (({ (({ c with index := c.index + 1 } : gin.Context).Set "user_id"
          (.str uid)) with index := (({ c with index := c.index + 1 } : gin.Context).Set
            "user_id" (.str uid)).index + 1 } : gin.Context)).Get "user_id" =
          some (.str uid) := by
        simp [gin.Context.Set, gin.Context.Get, List.lookup]
      have h2eq := hagree (gin.runChain []) _ db uid hget
      obtain ⟨hfi, hfp, resp, hfw, hfs⟩ := hframe (gin.runChain []) _ db uid hget
      have hsame : gin.runChain [h2] (({ c with index := c.index + 1 } : gin.Context).Set
          "user_id" (.str uid), db) =
          gin.runChain [h] (({ c with index := c.index + 1 } : gin.Context).Set
          "user_id" (.str uid), db) := by
        rw [runChain_single, runChain_single, h2eq]
      have hR : (gin.runChain [h] (({ c with index := c.index + 1 } : gin.Context).Set
          "user_id" (.str uid), db)).1.Panicked = c.Panicked ∧
          (gin.runChain [h] (({ c with index := c.index + 1 } : gin.Context).Set
          "user_id" (.str uid), db)).1.Written = c.Written ++ [resp] ∧
          (gin.runChain [h] (({ c with index := c.index + 1 } : gin.Context).Set
          "user_id" (.str uid), db)).1.index ≠ c.index + 1 := by
        rw [runChain_single]
        split
        · refine ⟨hfp, hfw, ?_⟩
          rw [hfi]
          simp [gin.Context.Set]
        · split
          · rw [runChain_nil]
            refine ⟨hfp, hfw, ?_⟩
            simp only [hfi]
            simp [gin.Context.Set]
            omega
          · refine ⟨hfp, hfw, ?_⟩
            rw [hfi]
            simp [gin.Context.Set]
      obtain ⟨hRp, hRw, hRi⟩ := hR
      have hout : ∀ g : gin.HandlerFunc,
          gin.runChain [g] (({ c with index := c.index + 1 } : gin.Context).Set
            "user_id" (.str uid), db) =
          gin.runChain [h] (({ c with index := c.index + 1 } : gin.Context).Set
            "user_id" (.str uid), db) →
          gin.runChain [middleware.AuthMiddleware rt, g] (c, db) =
          gin.runChain [h] (({ c with index := c.index + 1 } : gin.Context).Set
            "user_id" (.str uid), db) := by
        intro g hg
        rw [gin.runChain]
        simp only [hacc, hg]
        split
        · rfl
        · split
          · rename_i hi
            exact absurd (by simpa using hi) hRi
          · rfl
      refine ⟨_, hout h2 hsame, hout h rfl, hRp, resp, hRw, ?_⟩
      intro hresp
      apply hfs
      rw [hresp]
  refine ⟨fun h2 hagree => ?_, ?_, ?_⟩
  · obtain ⟨R, h1, h2r, _⟩ := key h2 hagree
    rw [h1, h2r]
  · obtain ⟨R, _, h2r, hp, _⟩ := key h (fun _ _ _ _ _ => rfl)
    rw [h2r]
    exact hp
  · obtain ⟨R, _, h2r, _, hw⟩ := key h (fun _ _ _ _ _ => rfl)
    rw [h2r]
    exact hw

/-- C30: a request dispatched to one of the five protected routes runs the chain of
`AuthMiddleware` and the handler (`Me`, `Get`, `Create`, `Update` or `Delete`). The
handler is applied only to contexts that hold a string under `user_id`: replacing it by
any handler that agrees with it on such contexts leaves the outcome of the request
unchanged. So the request raises no panic, and the one response it writes is not the
401 `Not authenticated` of the handlers. -/
theorem C30_user_id_is_string (rt : Runtime) (c : gin.Context) (db : DB) (r : app.Route)
    (params : List (String × String))
    (hroute : app.findRoute (app.registerHTTPRoutes rt) c.Method c.Path = some (r, params))
    (hprot : (r.Method, r.Path) ∈
      [("GET", "/api/v1/auth/me"), ("GET", "/api/v1/messages/:id"),
       ("POST", "/api/v1/messages"), ("PUT", "/api/v1/messages/:id"),
       ("DELETE", "/api/v1/messages/:id")]) :
    ∃ h : gin.HandlerFunc,
      r.Handlers = [middleware.AuthMiddleware rt, h] ∧
      h ∈ [handlers.http.auth.Handler.Me rt, handlers.http.message.Handler.Get rt,
        handlers.http.message.Handler.Create rt, handlers.http.message.Handler.Update rt,
        handlers.http.message.Handler.Delete rt] ∧
      (∀ h2 : gin.HandlerFunc,
        (∀ (next : gin.Context × DB → gin.Context × DB) (c2 : gin.Context) (db2 : DB)
          (uid : String), c2.Get "user_id" = some (.str uid) →
          h2 next (c2, db2) = h next (c2, db2)) →
        gin.runChain [middleware.AuthMiddleware rt, h2]
            ({ c with Params := params, index := -1 }, db) =
          app.ServeHTTP rt c db) ∧
      (app.ServeHTTP rt c db).1.Panicked = c.Panicked ∧
      ∃ resp, (app.ServeHTTP rt c db).1.Written = c.Written ++ [resp] ∧
        resp ≠ (401, .ofError { Error := "Not authenticated" }) := by
  have hserve : app.ServeHTTP rt c db =
      gin.runChain r.Handlers ({ c with Params := params, index := -1 }, db) := by
    unfold app.ServeHTTP
    rw [hroute]
  have hmem : r ∈ app.registerHTTPRoutes rt := by
    unfold app.findRoute at hroute
    obtain ⟨a, ha, hfa⟩ := List.exists_of_findSome?_eq_some hroute
    split at hfa
    · cases hm : app.matchPath a.Path c.Path with
      | none => simp [hm] at hfa
      | some ps =>
        simp only [hm, Option.map_some', Option.some.injEq, Prod.mk.injEq] at hfa
        exact hfa.1 ▸ ha
    · cases hfa
  have hchain : ∀ h : gin.HandlerFunc, r.Handlers = [middleware.AuthMiddleware rt, h] →
      (∀ (next : gin.Context × DB → gin.Context × DB) (c : gin.Context) (db : DB)
        (uid : String), c.Get "user_id" = some (.str uid) →
        (h next (c, db)).1.index = c.index ∧ (h next (c, db)).1.Panicked = c.Panicked ∧
        ∃ resp, (h next (c, db)).1.Written = c.Written ++ [resp] ∧ resp.1 ≠ 401) →
      (∀ h2 : gin.HandlerFunc,
        (∀ (next : gin.Context × DB → gin.Context × DB) (c2 : gin.Context) (db2 : DB)
          (uid : String), c2.Get "user_id" = some (.str uid) →
          h2 next (c2, db2) = h next (c2, db2)) →
        gin.runChain [middleware.AuthMiddleware rt, h2]
            ({ c with Params := params, index := -1 }, db) =
          app.ServeHTTP rt c db) ∧
      (app.ServeHTTP rt c db).1.Panicked = c.Panicked ∧
      ∃ resp, (app.ServeHTTP rt c db).1.Written = c.Written ++ [resp] ∧
        resp ≠ (401, .ofError { Error := "Not authenticated" }) := by
    intro h hh hframe
    rw [hserve, hh]
    exact protected_chain rt h hframe { c with Params := params, index := -1 } db rfl
  simp only [app.registerHTTPRoutes, List.mem_cons, List.mem_singleton, List.not_mem_nil,
    or_false] at hmem
  rcases hmem with h | h | h | h | h | h | h | h
  · subst h
    simp at hprot
  · subst h
    simp at hprot
  · subst h
    refine ⟨_, rfl, by simp, hchain _ rfl ?_⟩
    intro next c db uid hu
    obtain ⟨h1, h2, _, h4⟩ := Handler_Me_frame rt next c db uid hu
    exact ⟨h1, h2, h4⟩
  · subst h
    simp at hprot
  · subst h
    refine ⟨_, rfl, by simp, hchain _ rfl ?_⟩
    intro next c db uid _
    obtain ⟨h1, h2, _, h4⟩ := Handler_Get_frame rt next c db
    exact ⟨h1, h2, h4⟩
  · subst h
    refine ⟨_, rfl, by simp, hchain _ rfl ?_⟩
    intro next c db uid hu
    obtain ⟨h1, h2, _, h4⟩ := Handler_Create_frame rt next c db uid hu
    exact ⟨h1, h2, h4⟩
  · subst h
    refine ⟨_, rfl, by simp, hchain _ rfl ?_⟩
    intro next c db uid hu
    obtain ⟨h1, h2, _, h4⟩ := Handler_Update_frame rt next c db uid hu
    exact ⟨h1, h2, h4⟩
  · subst h
    refine ⟨_, rfl, by simp, hchain _ rfl ?_⟩
    intro next c db uid hu
    obtain ⟨h1, h2, _, h4⟩ := Handler_Delete_frame rt next c db uid hu
    exact ⟨h1, h2, h4⟩

theorem C30_user_id_is_string_witness :
    (app.ServeHTTP sampleRuntime
        (sampleRequest "GET" "/api/v1/auth/me" [("Authorization", "Bearer tok-u1")])
        sampleDB).1.Panicked = none ∧
    (handlers.http.auth.Handler.Me sampleRuntime id
        (sampleRequest "GET" "/api/v1/auth/me" [], sampleDB)).1.Written =
      [(401, .ofError { Error := "Not authenticated" })] ∧
    (handlers.http.auth.Handler.Me sampleRuntime id
        ((sampleRequest "GET" "/api/v1/auth/me" []).Set "user_id" (.nonString "7"),
          sampleDB)).1.Panicked =
      some "interface conversion: interface is not string" :=
  ⟨(C30_user_id_is_string sampleRuntime
      (sampleRequest "GET" "/api/v1/auth/me" [("Authorization", "Bearer tok-u1")])
      sampleDB
      { Method := "GET", Path := "/api/v1/auth/me",
        Handlers := [middleware.AuthMiddleware sampleRuntime,
          handlers.http.auth.Handler.Me sampleRuntime] } [] rfl (by decide)).choose_spec.2.2.2.1,
   by decide, by decide⟩

/-! ### C26: `FetchMultiple` -/

theorem Goroutine_run_eq (calls : http_client.Calls) (ch : http_client.Channels)
    (g : http_client.Goroutine) :
    g.run calls ch =
      { todosChan := ch.todosChan ++ (g.sentTodo calls).toList
        postsChan := ch.postsChan ++ (g.sentPost calls).toList
        errChan := ch.errChan ++ (g.sentErr calls).toList } := by
  cases g with
  | todo pos id =>
    simp only [http_client.Goroutine.run, http_client.Goroutine.sentTodo,
      http_client.Goroutine.sentPost, http_client.Goroutine.sentErr]
    cases calls.GetTodo pos id <;> simp
  | post pos id =>
    simp only [http_client.Goroutine.run, http_client.Goroutine.sentTodo,
      http_client.Goroutine.sentPost, http_client.Goroutine.sentErr]
    cases calls.GetPost pos id <;> simp

theorem foldl_run_eq (calls : http_client.Calls) (sends : List http_client.Goroutine) :
    ∀ ch : http_client.Channels,
      sends.foldl (http_client.Goroutine.run calls) ch =
        { todosChan := ch.todosChan ++ sends.filterMap (http_client.Goroutine.sentTodo calls)
          postsChan := ch.postsChan ++ sends.filterMap (http_client.Goroutine.sentPost calls)
          errChan := ch.errChan ++ sends.filterMap (http_client.Goroutine.sentErr calls) } := by
  induction sends with
  | nil => intro ch; simp
  | cons g rest ih =>
    intro ch
    rw [List.foldl_cons, ih, Goroutine_run_eq]
    cases h1 : g.sentTodo calls <;> cases h2 : g.sentPost calls <;>
      cases h3 : g.sentErr calls <;> simp [List.filterMap_cons, h1, h2, h3]

theorem FetchMultiple_eq (calls : http_client.Calls) (finish : http_client.Goroutine → Nat)
    (todoIDs postIDs : List Int) :
    ∃ sends : List http_client.Goroutine,
      sends.Perm (http_client.goroutines todoIDs postIDs) ∧
      http_client.FetchMultiple calls finish todoIDs postIDs =
        if (sends.filterMap (http_client.Goroutine.sentErr calls)).length > 0 then
          (none, none, (sends.filterMap (http_client.Goroutine.sentErr calls)).head?)
        else (some (sends.filterMap (http_client.Goroutine.sentTodo calls)),
          some (sends.filterMap (http_client.Goroutine.sentPost calls)), none) := by
  refine ⟨_, List.perm_insertionSort (fun a b => finish a ≤ finish b)
    (http_client.goroutines todoIDs postIDs), ?_⟩
  unfold http_client.FetchMultiple
  simp only [foldl_run_eq, List.nil_append]

theorem sentTodo_goroutines (calls : http_client.Calls) (todoIDs postIDs : List Int)
    (hok : ∀ p ∈ todoIDs.enum, ∀ err, calls.GetTodo p.1 p.2 ≠ .error err) :
    ((http_client.goroutines todoIDs postIDs).filterMap
        (http_client.Goroutine.sentTodo calls)).map Except.ok =
      todoIDs.enum.map (fun p => calls.GetTodo p.1 p.2) := by
  have h1 : ∀ l : List (Nat × Int), (∀ p ∈ l, ∀ err, calls.GetTodo p.1 p.2 ≠ .error err) →
      ((l.map (fun p => http_client.Goroutine.todo p.1 p.2)).filterMap
        (http_client.Goroutine.sentTodo calls)).map Except.ok =
      l.map (fun p => calls.GetTodo p.1 p.2) := by
    intro l
    induction l with
    | nil => intro _; rfl
    | cons p rest ih =>
      intro h
      have hp := h p (List.mem_cons_self _ _)
      have ih2 := ih (fun q hq => h q (List.mem_cons_of_mem _ hq))
      cases hc : calls.GetTodo p.1 p.2 with
      | error err => exact absurd hc (hp err)
      | ok fetched =>
        simp only [List.map_cons, List.filterMap_cons, http_client.Goroutine.sentTodo, hc]
        rw [ih2]
  have h2 : ∀ l : List (Nat × Int),
      (l.map (fun p => http_client.Goroutine.post p.1 p.2)).filterMap
        (http_client.Goroutine.sentTodo calls) = [] := by
    intro l
    induction l with
    | nil => rfl
    | cons p rest ih =>
      simp only [List.map_cons, List.filterMap_cons, http_client.Goroutine.sentTodo]
      exact ih
  unfold http_client.goroutines
  rw [List.filterMap_append, h2, List.append_nil, h1 _ hok]

theorem sentPost_goroutines (calls : http_client.Calls) (todoIDs postIDs : List Int)
    (hok : ∀ p ∈ postIDs.enum, ∀ err, calls.GetPost p.1 p.2 ≠ .error err) :
    ((http_client.goroutines todoIDs postIDs).filterMap
        (http_client.Goroutine.sentPost calls)).map Except.ok =
      postIDs.enum.map (fun p => calls.GetPost p.1 p.2) := by
  have h1 : ∀ l : List (Nat × Int), (∀ p ∈ l, ∀ err, calls.GetPost p.1 p.2 ≠ .error err) →
      ((l.map (fun p => http_client.Goroutine.post p.1 p.2)).filterMap
        (http_client.Goroutine.sentPost calls)).map Except.ok =
      l.map (fun p => calls.GetPost p.1 p.2) := by
    intro l
    induction l with
    | nil => intro _; rfl
    | cons p rest ih =>
      intro h
      have hp := h p (List.mem_cons_self _ _)
      have ih2 := ih (fun q hq => h q (List.mem_cons_of_mem _ hq))
      cases hc : calls.GetPost p.1 p.2 with
      | error err => exact absurd hc (hp err)
      | ok fetched =>
        simp only [List.map_cons, List.filterMap_cons, http_client.Goroutine.sentPost, hc]
        rw [ih2]
  have h2 : ∀ l : List (Nat × Int),
      (l.map (fun p => http_client.Goroutine.todo p.1 p.2)).filterMap
        (http_client.Goroutine.sentPost calls) = [] := by
    intro l
    induction l with
    | nil => rfl
    | cons p rest ih =>
      simp only [List.map_cons, List.filterMap_cons, http_client.Goroutine.sentPost]
      exact ih
  unfold http_client.goroutines
  rw [List.filterMap_append, h2, List.nil_append, h1 _ hok]

theorem sentErr_of_mem (calls : http_client.Calls) (todoIDs postIDs : List Int)
    (e : fmt.wrapError)
    (he : e ∈ (http_client.goroutines todoIDs postIDs).filterMap
      (http_client.Goroutine.sentErr calls)) :
    (∃ p ∈ todoIDs.enum, ∃ err, calls.GetTodo p.1 p.2 = .error err ∧
      e = { msg := "error fetching todo " ++ toString p.2 ++ ": " ++ err.Error,
            err := err }) ∨
    (∃ p ∈ postIDs.enum, ∃ err, calls.GetPost p.1 p.2 = .error err ∧
      e = { msg := "error fetching post " ++ toString p.2 ++ ": " ++ err.Error,
            err := err }) := by
  obtain ⟨g, hg, hge⟩ := List.mem_filterMap.mp he
  unfold http_client.goroutines at hg
  rcases List.mem_append.mp hg with hg | hg
  · obtain ⟨p, hp, rfl⟩ := List.mem_map.mp hg
    left
    refine ⟨p, hp, ?_⟩
    simp only [http_client.Goroutine.sentErr] at hge
    cases hc : calls.GetTodo p.1 p.2 with
    | error err =>
      rw [hc] at hge
      exact ⟨err, rfl, (Option.some.inj hge).symm⟩
    | ok fetched =>
      rw [hc] at hge
      cases hge
  · obtain ⟨p, hp, rfl⟩ := List.mem_map.mp hg
    right
    refine ⟨p, hp, ?_⟩
    simp only [http_client.Goroutine.sentErr] at hge
    cases hc : calls.GetPost p.1 p.2 with
    | error err =>
      rw [hc] at hge
      exact ⟨err, rfl, (Option.some.inj hge).symm⟩
    | ok fetched =>
      rw [hc] at hge
      cases hge

theorem sentErr_of_failure (calls : http_client.Calls) (todoIDs postIDs : List Int)
    (hfail : (∃ p ∈ todoIDs.enum, ∃ err, calls.GetTodo p.1 p.2 = .error err) ∨
      (∃ p ∈ postIDs.enum, ∃ err, calls.GetPost p.1 p.2 = .error err)) :
    ∃ e, e ∈ (http_client.goroutines todoIDs postIDs).filterMap
      (http_client.Goroutine.sentErr calls) := by
  rcases hfail with ⟨p, hp, err, hc⟩ | ⟨p, hp, err, hc⟩
  · refine ⟨{ msg := "error fetching todo " ++ toString p.2 ++ ": " ++ err.Error,
              err := err }, List.mem_filterMap.mpr ⟨.todo p.1 p.2, ?_, ?_⟩⟩
    · unfold http_client.goroutines
      exact List.mem_append_left _ (List.mem_map.mpr ⟨p, hp, rfl⟩)
    · simp only [http_client.Goroutine.sentErr, hc]
  · refine ⟨{ msg := "error fetching post " ++ toString p.2 ++ ": " ++ err.Error,
              err := err }, List.mem_filterMap.mpr ⟨.post p.1 p.2, ?_, ?_⟩⟩
    · unfold http_client.goroutines
      exact List.mem_append_right _ (List.mem_map.mpr ⟨p, hp, rfl⟩)
    · simp only [http_client.Goroutine.sentErr, hc]

/-- C26: whatever the order in which the goroutines finish, `FetchMultiple` fails as a
whole or aggregates. When a call for a todo or for a post fails, it returns nil slices
and an error that wraps the error of one of the failing calls, with the message
`error fetching todo <id>: <error>` or `error fetching post <id>: <error>` of that
call. When no call fails, it returns no error and the todos and posts of the calls, one
for each requested identifier, as multisets. -/
theorem C26_fetch_multiple (calls : http_client.Calls) (finish : http_client.Goroutine → Nat)
    (todoIDs postIDs : List Int) :
    (((∃ p ∈ todoIDs.enum, ∃ err, calls.GetTodo p.1 p.2 = .error err) ∨
        (∃ p ∈ postIDs.enum, ∃ err, calls.GetPost p.1 p.2 = .error err)) →
      ∃ e : fmt.wrapError,
        http_client.FetchMultiple calls finish todoIDs postIDs = (none, none, some e) ∧
        ((∃ p ∈ todoIDs.enum, ∃ err, calls.GetTodo p.1 p.2 = .error err ∧
            e.Unwrap = err ∧
            e.Error = "error fetching todo " ++ toString p.2 ++ ": " ++ err.Error) ∨
          (∃ p ∈ postIDs.enum, ∃ err, calls.GetPost p.1 p.2 = .error err ∧
            e.Unwrap = err ∧
            e.Error = "error fetching post " ++ toString p.2 ++ ": " ++ err.Error))) ∧
    ((∀ p ∈ todoIDs.enum, ∀ err, calls.GetTodo p.1 p.2 ≠ .error err) →
      (∀ p ∈ postIDs.enum, ∀ err, calls.GetPost p.1 p.2 ≠ .error err) →
      ∃ todos posts,
        http_client.FetchMultiple calls finish todoIDs postIDs =
          (some todos, some posts, none) ∧
        (todos.map Except.ok).Perm (todoIDs.enum.map (fun p => calls.GetTodo p.1 p.2)) ∧
        (posts.map Except.ok).Perm (postIDs.enum.map (fun p => calls.GetPost p.1 p.2)) ∧
        todos.length = todoIDs.length ∧ posts.length = postIDs.length) := by
  obtain ⟨sends, hperm, heq⟩ := FetchMultiple_eq calls finish todoIDs postIDs
  have hperr := hperm.filterMap (http_client.Goroutine.sentErr calls)
  refine ⟨fun hfail => ?_, fun htodo hpost => ?_⟩
  · obtain ⟨e0, he0⟩ := sentErr_of_failure calls todoIDs postIDs hfail
    have he0s : e0 ∈ sends.filterMap (http_client.Goroutine.sentErr calls) :=
      hperr.symm.subset he0
    cases hl : sends.filterMap (http_client.Goroutine.sentErr calls) with
    | nil =>
      rw [hl] at he0s
      cases he0s
    | cons e rest =>
      have hmem : e ∈ (http_client.goroutines todoIDs postIDs).filterMap
          (http_client.Goroutine.sentErr calls) := by
        apply hperr.subset
        rw [hl]
        exact List.mem_cons_self _ _
      refine ⟨e, ?_, ?_⟩
      · rw [heq, hl]
        simp
      · rcases sentErr_of_mem calls todoIDs postIDs e hmem with
          ⟨p, hp, err, hc, rfl⟩ | ⟨p, hp, err, hc, rfl⟩
        · exact Or.inl ⟨p, hp, err, hc, rfl, rfl⟩
        · exact Or.inr ⟨p, hp, err, hc, rfl, rfl⟩
  · have hnil : sends.filterMap (http_client.Goroutine.sentErr calls) = [] := by
      cases hl : sends.filterMap (http_client.Goroutine.sentErr calls) with
      | nil => rfl
      | cons e rest =>
        exfalso
        have hmem : e ∈ (http_client.goroutines todoIDs postIDs).filterMap
            (http_client.Goroutine.sentErr calls) := by
          apply hperr.subset
          rw [hl]
          exact List.mem_cons_self _ _
        rcases sentErr_of_mem calls todoIDs postIDs e hmem with
          ⟨p, hp, err, hc, _⟩ | ⟨p, hp, err, hc, _⟩
        · exact htodo p hp err hc
        · exact hpost p hp err hc
    have ht : ((sends.filterMap (http_client.Goroutine.sentTodo calls)).map
        Except.ok).Perm (todoIDs.enum.map (fun p => calls.GetTodo p.1 p.2)) := by
      rw [← sentTodo_goroutines calls todoIDs postIDs htodo]
      exact (hperm.filterMap _).map _
    have hp : ((sends.filterMap (http_client.Goroutine.sentPost calls)).map
        Except.ok).Perm (postIDs.enum.map (fun p => calls.GetPost p.1 p.2)) := by
      rw [← sentPost_goroutines calls todoIDs postIDs hpost]
      exact (hperm.filterMap _).map _
    refine ⟨_, _, ?_, ht, hp, ?_, ?_⟩
    · rw [heq, hnil]
      simp
    · have := ht.length_eq
      simpa using this
    · have := hp.length_eq
      simpa using this

theorem C26_fetch_multiple_witness :
    http_client.FetchMultiple sampleCalls largerFirst [1, 2] [3] =
      (some [{ ID := 2, UserID := 1, Title := "todo", Completed := false },
             { ID := 1, UserID := 1, Title := "todo", Completed := false }],
       some [{ ID := 3, UserID := 1, Title := "post", Body := "" }], none) ∧
    http_client.FetchMultiple failingCalls largerFirst [1, 2] [2] =
      (none, none, some { msg := "error fetching todo 2: unexpected status code: 404",
                          err := .other "unexpected status code: 404" }) ∧
    http_client.FetchMultiple failingCalls postsFirst [1, 2] [2] =
      (none, none, some { msg := "error fetching post 2: unexpected status code: 500",
                          err := .other "unexpected status code: 500" }) ∧
    (∃ e : fmt.wrapError,
      http_client.FetchMultiple failingCalls postsFirst [1, 2] [2] = (none, none, some e) ∧
      ((∃ p ∈ [1, 2].enum, ∃ err, failingCalls.GetTodo p.1 p.2 = .error err ∧
          e.Unwrap = err ∧
          e.Error = "error fetching todo " ++ toString p.2 ++ ": " ++ err.Error) ∨
        (∃ p ∈ [2].enum, ∃ err, failingCalls.GetPost p.1 p.2 = .error err ∧
          e.Unwrap = err ∧
          e.Error = "error fetching post " ++ toString p.2 ++ ": " ++ err.Error))) :=
  ⟨by decide, by decide, by decide,
   (C26_fetch_multiple failingCalls postsFirst [1, 2] [2]).1
     (Or.inr ⟨(0, 2), by decide, .other "unexpected status code: 500", rfl⟩)⟩

end GoApiTemplate
